import Mathlib

/-!
# sgsip: a shallow embedding of the SIP parsing library

Source: `src/sgsip/sgsip.go`.

Conventions of the embedding.

* A Go `string` is a byte sequence; it is modelled as `List Char`, one
  character per byte.  All separators and cut sets the library uses are ASCII,
  so byte-wise and character-wise processing agree.
* A Go function that fills a struct through a pointer and returns an `int`
  code becomes a function from the struct's value before the call to the pair
  `(code, struct after the call)`.
* Machine integers (`int`) are `Int`; the platform is taken to be 64-bit.
* A run that stops on a Go runtime panic (index or slice bound out of range)
  yields `Except.error Halt.fault`; loops carry a step budget and a run that
  exhausts it yields `Except.error Halt.fuel`.
* Library routines of Go (`strings`, `strconv`) are modelled from their
  documented behaviour; `net.ParseIP` is a parameter `parseIP` telling whether
  the text is an IP literal.
-/

namespace Sgsip

/-- A Go string, byte by byte. -/
abbrev Str := List Char

/-- The ways a run ends without returning. -/
inductive Halt where
  | fault
  | fuel
  deriving DecidableEq, Repr

/-- A computation that returns, faults (Go panic) or runs out of loop budget. -/
abbrev Exec (α : Type) := Except Halt α

deriving instance DecidableEq for Except

/-! ## Go runtime and library primitives -/

/-- The slice expression `s[lo:hi]`; out-of-range bounds panic. -/
def slice (s : Str) (lo hi : Int) : Exec Str :=
  if 0 ≤ lo ∧ lo ≤ hi ∧ hi ≤ (s.length : Int) then
    Except.ok ((s.take hi.toNat).drop lo.toNat)
  else Except.error Halt.fault

/-- The slice expression `s[lo:]`; out-of-range bounds panic. -/
def sliceFrom (s : Str) (lo : Int) : Exec Str :=
  if 0 ≤ lo ∧ lo ≤ (s.length : Int) then Except.ok (s.drop lo.toNat)
  else Except.error Halt.fault

/-- The index expression `a[i]` on a slice of strings; out of range panics. -/
def elemAt (a : List Str) (i : Nat) : Exec Str :=
  match a.get? i with
  | some x => Except.ok x
  | none => Except.error Halt.fault

/-- The text before and after the first occurrence of `sep` (Go `strings.Cut`),
or `none` when `sep` does not occur. -/
def cut (sep : Str) : Str → Option (Str × Str)
  | [] => if sep = [] then some ([], []) else none
  | c :: s =>
    if sep.isPrefixOf (c :: s) then some ([], (c :: s).drop sep.length)
    else (cut sep s).map fun p => (c :: p.1, p.2)

/-- Go `strings.Index(s, sep)`: position of the first occurrence, or `-1`. -/
def Index (s sep : Str) : Int :=
  match cut sep s with
  | some p => (p.1.length : Int)
  | none => -1

/-- Go `strings.IndexAny(s, chars)`: position of the first byte of `s` that is
in `chars`, or `-1`. -/
def IndexAny (s chars : Str) : Int :=
  if s.findIdx (fun c => decide (c ∈ chars)) < s.length then
    (s.findIdx (fun c => decide (c ∈ chars)) : Int)
  else -1

/-- Go `strings.SplitN(s, sep, 2)` for a non-empty `sep` (every call site passes
a non-empty literal): one element when `sep` is absent, else two. -/
def SplitN2 (s sep : Str) : List Str :=
  match cut sep s with
  | some p => [p.1, p.2]
  | none => [s]

/-- The pieces of `s` between successive occurrences of `sep`, at most `k` cuts. -/
def splitAll (sep : Str) : Nat → Str → List Str
  | 0, s => [s]
  | k + 1, s =>
    match cut sep s with
    | some p => p.1 :: splitAll sep k p.2
    | none => [s]

/-- Go `strings.Split(s, sep)` for a non-empty `sep` (every call site passes a
non-empty separator); a string of length `n` holds at most `n` occurrences. -/
def Split (s sep : Str) : List Str := splitAll sep s.length s

/-- Go `strings.TrimLeft(s, cutset)`. -/
def TrimLeft (s cutset : Str) : Str := s.dropWhile fun c => decide (c ∈ cutset)

/-- Go `strings.TrimRight(s, cutset)`. -/
def TrimRight (s cutset : Str) : Str := s.rdropWhile fun c => decide (c ∈ cutset)

/-- Go `strings.Trim(s, cutset)`. -/
def Trim (s cutset : Str) : Str := TrimRight (TrimLeft s cutset) cutset

/-- The cut set `" \t\r"` used throughout the library. -/
def wsCR : Str := [' ', '\t', '\r']

/-- Whether the byte is a decimal digit, `0` (48) to `9` (57). -/
def decDigit (c : Char) : Bool := decide (48 ≤ c.toNat ∧ c.toNat ≤ 57)

/-- Value of a run of decimal digits, most significant first; `none` on any
other byte. -/
def digitsVal : Str → Nat → Option Nat
  | [], acc => some acc
  | c :: cs, acc =>
    if decDigit c then digitsVal cs (acc * 10 + (c.toNat - 48)) else none

/-- Largest value of a 64-bit `int`. -/
def maxInt : Int := 9223372036854775807

/-- Smallest value of a 64-bit `int`. -/
def minInt : Int := -9223372036854775808

/-- The sign and the digit part `strconv.Atoi` sees in `s`. -/
def atoiSign : Str → Bool × Str
  | '-' :: t => (true, t)
  | '+' :: t => (false, t)
  | t => (false, t)

/-- Whether the digit scan of `strconv.ParseUint` leaves the unsigned 64-bit
range before it meets a byte that is not a decimal digit: the scan stops there
with a range error and never reads the later bytes. -/
def digitsOverflow : Str → Nat → Bool
  | [], _ => false
  | c :: cs, acc =>
    if decDigit c then
      if 18446744073709551615 < acc * 10 + (c.toNat - 48) then true
      else digitsOverflow cs (acc * 10 + (c.toNat - 48))
    else false

/-- Go `strconv.Atoi`: the value and whether `err != nil`.  A syntax error
gives value 0, a range error gives the nearest representable value; when the
digits leave the unsigned 64-bit range before a byte that is not a digit, the
range error wins. -/
def Atoi (s : Str) : Int × Bool :=
  let sd := atoiSign s
  if sd.2 = [] then (0, true)
  else
    match digitsVal sd.2 0 with
    | none =>
      if digitsOverflow sd.2 0 then ((if sd.1 then minInt else maxInt), true) else (0, true)
    | some n =>
      let v : Int := if sd.1 then -(n : Int) else (n : Int)
      if v < minInt then (minInt, true)
      else if maxInt < v then (maxInt, true)
      else (v, false)

/-- Go `strconv.Itoa`. -/
def Itoa (i : Int) : Str :=
  if i < 0 then '-' :: Nat.toDigits 10 (-i).toNat else Nat.toDigits 10 i.toNat

/-! ## Constants (sgsip.go lines 11-64) -/

abbrev SGSIPRetOK : Int := 0
abbrev SGSIPRetErr : Int := -1
abbrev SGSIPRetNotFound : Int := -2
abbrev SGSIPRetErrFLineShort : Int := -100
abbrev SGSIPRetErrFLineFormat : Int := -101
abbrev SGSIPRetErrFLineResponseShort : Int := -102
abbrev SGSIPRetErrFLineResponseFormat : Int := -103
abbrev SGSIPRetErrFLineResponseCode : Int := -104
abbrev SGSIPRetErrFLineRequestFormat : Int := -120
abbrev SGSIPRetErrParamFormat : Int := -150

abbrev ProtoNONE : Int := 0
abbrev ProtoUDP : Int := 1
abbrev ProtoTCP : Int := 2
abbrev ProtoTLS : Int := 3
abbrev ProtoSCTP : Int := 4
abbrev ProtoWS : Int := 5
abbrev ProtoWSS : Int := 6

abbrev AFNONE : Int := 0
abbrev AFIPv4 : Int := 4
abbrev AFIPv6 : Int := 6
abbrev AFHost : Int := 8

abbrev SchemaNONE : Int := 0
abbrev SchemaSIP : Int := 1
abbrev SchemaSIPS : Int := 2
abbrev SchemaTEL : Int := 3

abbrev ParamValNone : Int := 0
abbrev ParamValBare : Int := 1
abbrev ParamValQuoted : Int := 2

abbrev FLineNone : Int := 0
abbrev FLineRequest : Int := 1
abbrev FLineResponse : Int := 2

/-! ## Data model (sgsip.go lines 66-128); `default` is Go's zero value -/

structure SGSIPSocketAddress where
  Val : Str := []
  Proto : Str := []
  Addr : Str := []
  Port : Str := []
  PortNo : Int := 0
  AType : Int := 0
  ProtoId : Int := 0
  deriving DecidableEq, Repr, Inhabited

structure SGSIPURI where
  Val : Str := []
  Schema : Str := []
  SchemaId : Int := 0
  User : Str := []
  Addr : Str := []
  Port : Str := []
  PortNo : Int := 0
  Params : Str := []
  UParams : Str := []
  Proto : Str := []
  ProtoId : Int := 0
  AType : Int := 0
  deriving DecidableEq, Repr, Inhabited

structure SGSIPParam where
  Name : Str := []
  Value : Str := []
  PMode : Int := 0
  deriving DecidableEq, Repr, Inhabited

structure SGSIPFirstLine where
  Val : Str := []
  MType : Int := 0
  Proto : Str := []
  Method : Str := []
  MethodId : Int := 0
  URI : Str := []
  Code : Int := 0
  CodeVal : Str := []
  Reason : Str := []
  deriving DecidableEq, Repr, Inhabited

structure SGSIPHeader where
  Name : Str := []
  Body : Str := []
  HType : Int := 0
  deriving DecidableEq, Repr, Inhabited

structure SGSIPBody where
  Content : Str := []
  ContentLen : Int := 0
  ContentType : Str := []
  deriving DecidableEq, Repr, Inhabited

structure SGSIPMessage where
  Data : Str := []
  FLine : SGSIPFirstLine := {}
  RURI : SGSIPURI := {}
  Headers : List SGSIPHeader := []
  Body : SGSIPBody := {}
  MFlags : Int := 0
  deriving DecidableEq, Repr, Inhabited

/-! ## Body extraction (sgsip.go lines 675-687) -/

/-- Lines 684-686 of `SGSIPParseBody`: the stores into `bodyVal`, reading
element 1 of the `strArray` declared on line 677. -/
def parseBodyStore (strArray : List Str) (bodyVal : SGSIPBody) : Exec (Int × SGSIPBody) := do
  let c ← elemAt strArray 1
  pure (SGSIPRetOK, { bodyVal with Content := c, ContentLen := (c.length : Int) })

/-- `SGSIPParseBody`.  The `strArray` assigned inside the `if` block (line 679)
is declared there with `:=`, so it is a new variable scoped to that block; the
stores after the block read the outer `strArray`. -/
def SGSIPParseBody (inputStr : Str) (bodyVal : SGSIPBody) : Exec (Int × SGSIPBody) :=
  let strArray := SplitN2 inputStr "\r\n\r\n".toList
  if strArray.length < 2 then
    let strArrayInner := SplitN2 inputStr "\n\n".toList
    if strArrayInner.length < 2 then pure (SGSIPRetErr, bodyVal)
    else parseBodyStore strArray bodyVal
  else parseBodyStore strArray bodyVal

/-! ## Address classification and keyword tables (sgsip.go lines 130-211) -/

/-- `SGAddrType`: `parseIP addr` stands for `net.ParseIP(addr) != nil`; the
loop returns at the first `.` or `:` of `addr`. -/
def SGAddrType (parseIP : Str → Bool) (addr : Str) : Int :=
  if parseIP addr = false then AFHost
  else
    match addr.find? (fun c => c == '.' || c == ':') with
    | some c => if c = '.' then AFIPv4 else AFIPv6
    | none => AFNONE

/-- `SGAddrTypeEx`: the first test slices `addr[0:1]`. -/
def SGAddrTypeEx (parseIP : Str → Bool) (addr : Str) : Exec Int := do
  let h ← slice addr 0 1
  if h = ['['] then do
    let t ← sliceFrom addr ((addr.length : Int) - 1)
    if t ≠ [']'] then pure AFNONE
    else do
      let inner ← slice addr 1 ((addr.length : Int) - 1)
      if SGAddrType parseIP inner ≠ AFIPv6 then pure AFNONE else pure AFIPv6
  else pure (SGAddrType parseIP addr)

/-- `SGSIPSetProto`: the code, and the values of `*protoval` and `*protoid`
after the call. -/
def SGSIPSetProto (protostr protoval : Str) (protoid : Int) : Int × Str × Int :=
  if protostr = "udp".toList ∨ protostr = "UDP".toList then
    (SGSIPRetOK, "udp".toList, ProtoUDP)
  else if protostr = "tcp".toList ∨ protostr = "TCP".toList then
    (SGSIPRetOK, "tcp".toList, ProtoTCP)
  else if protostr = "tls".toList ∨ protostr = "TLS".toList then
    (SGSIPRetOK, "tls".toList, ProtoTLS)
  else if protostr = "sctp".toList ∨ protostr = "SCTP".toList then
    (SGSIPRetOK, "sctp".toList, ProtoSCTP)
  else if protostr = "ws".toList ∨ protostr = "WS".toList then
    (SGSIPRetOK, "ws".toList, ProtoWS)
  else if protostr = "wss".toList ∨ protostr = "WSS".toList then
    (SGSIPRetOK, "wss".toList, ProtoWSS)
  else (SGSIPRetErr, protoval, protoid)

/-- `SGSIPSetSchema`: the code, and the values of `*schemaval` and `*schemaid`
after the call. -/
def SGSIPSetSchema (schemastr schemaval : Str) (schemaid : Int) : Int × Str × Int :=
  if schemastr = "sip".toList ∨ schemastr = "SIP".toList then
    (SGSIPRetOK, "sip".toList, SchemaSIP)
  else if schemastr = "sips".toList ∨ schemastr = "SIPS".toList then
    (SGSIPRetOK, "sips".toList, SchemaSIPS)
  else if schemastr = "tel".toList ∨ schemastr = "TEL".toList then
    (SGSIPRetOK, "tel".toList, SchemaTEL)
  else (SGSIPRetErr, schemaval, schemaid)

/-! ## Socket address parser (sgsip.go lines 213-287) -/

/-- Lines 252-286 of `SGSIPParseSocketAddress`: the `address[:port]` part. -/
def sockAddrPort (parseIP : Str → Bool) (sockstr strProto strAddrPort : Str)
    (sockaddr : SGSIPSocketAddress) : Exec (Int × SGSIPSocketAddress) := do
  let h ← slice strAddrPort 0 1
  if h = ['['] then do
    let strArray := SplitN2 strAddrPort [']']
    let noPort ← (if strProto = [] then do
        let a1 ← elemAt strArray 1
        let c ← slice a1 0 1
        pure (decide (c ≠ [':']))
      else pure false)
    if noPort then pure (SGSIPRetErr, sockaddr)
    else do
      let a1 ← elemAt strArray 1
      let port ← sliceFrom a1 1
      let sockaddr := { sockaddr with Port := port }
      let r := Atoi port
      if r.2 then pure (SGSIPRetErr, sockaddr)
      else do
        let a0 ← elemAt strArray 0
        let sockaddr := { sockaddr with PortNo := r.1, Addr := a0 ++ [']'] }
        let aType ← SGAddrTypeEx parseIP sockaddr.Addr
        let sockaddr := { sockaddr with AType := aType }
        if aType ≠ AFIPv6 then pure (SGSIPRetErr, sockaddr)
        else pure (SGSIPRetOK, { sockaddr with Val := sockstr })
  else
    let strArray := SplitN2 strAddrPort [':']
    if strArray.length > 1 then do
      let port ← elemAt strArray 1
      let sockaddr := { sockaddr with Port := port }
      let r := Atoi port
      if r.2 then pure (SGSIPRetErr, sockaddr)
      else do
        let a0 ← elemAt strArray 0
        pure (SGSIPRetOK, { sockaddr with
          PortNo := r.1, Addr := a0, AType := SGAddrType parseIP a0, Val := sockstr })
    else do
      let a0 ← elemAt strArray 0
      pure (SGSIPRetOK, { sockaddr with
        Port := "5060".toList, PortNo := 5060, Addr := a0,
        AType := SGAddrType parseIP a0, Val := sockstr })

/-- `SGSIPParseSocketAddress`.  Line 217 classifies `sockaddr.Addr`, the field
of the value passed in, before line 224 stores the input there. -/
def SGSIPParseSocketAddress (parseIP : Str → Bool) (sockstr : Str)
    (sockaddr : SGSIPSocketAddress) : Exec (Int × SGSIPSocketAddress) := do
  let h ← slice sockstr 0 1
  let wrapped ← (if h = ['['] then do
      let t ← sliceFrom sockstr ((sockstr.length : Int) - 1)
      pure (decide (t = [']']))
    else pure false)
  if wrapped then do
    let aType ← SGAddrTypeEx parseIP sockaddr.Addr
    let sockaddr := { sockaddr with AType := aType }
    if aType ≠ AFIPv6 then pure (SGSIPRetErr, sockaddr)
    else pure (SGSIPRetOK, { sockaddr with
      Val := sockstr, Proto := "udp".toList, ProtoId := ProtoUDP, Addr := sockstr,
      Port := "5060".toList, PortNo := 5060 })
  else
    let strArray := SplitN2 sockstr [':']
    if strArray.length = 1 then
      pure (SGSIPRetOK, { sockaddr with
        Val := sockstr, Proto := "udp".toList, ProtoId := ProtoUDP, Addr := sockstr,
        Port := "5060".toList, PortNo := 5060, AType := SGAddrType parseIP sockstr })
    else do
      let strProto ← elemAt strArray 0
      let strAddrPort ← elemAt strArray 1
      let r := SGSIPSetProto strProto sockaddr.Proto sockaddr.ProtoId
      let sockaddr := { sockaddr with Proto := r.2.1, ProtoId := r.2.2 }
      if r.1 ≠ SGSIPRetOK then
        sockAddrPort parseIP sockstr [] sockstr
          { sockaddr with Proto := "udp".toList, ProtoId := ProtoUDP }
      else sockAddrPort parseIP sockstr strProto strAddrPort sockaddr

/-! ## URI parser (sgsip.go lines 289-427) -/

/-- Lines 404-426 of `SGSIPParseURI`: default transport, then the parameters. -/
def parseURIParams (uristr pParams : Str) (uri : SGSIPURI) : Exec (Int × SGSIPURI) := do
  let uri := { uri with Proto := "udp".toList, ProtoId := ProtoUDP }
  if pParams.length > 0 then do
    let params ← sliceFrom pParams 1
    let uri := { uri with Params := params }
    let strArray := Split pParams ";transport=".toList
    if strArray.length = 1 then pure (SGSIPRetOK, { uri with Val := uristr })
    else do
      let a1 ← elemAt strArray 1
      let scPos := Index a1 [';']
      let pProto ← (if scPos < 0 then pure a1 else slice a1 0 scPos)
      let r := SGSIPSetProto pProto uri.Proto uri.ProtoId
      let uri := { uri with Proto := r.2.1, ProtoId := r.2.2 }
      if r.1 ≠ SGSIPRetOK then pure (SGSIPRetErr, uri)
      else pure (SGSIPRetOK, { uri with Val := uristr })
  else pure (SGSIPRetOK, { uri with Val := uristr })

/-- Lines 376-403 of `SGSIPParseURI`: the `:port` and `;params` segment. -/
def parseURIPortParams (uristr pPortParams : Str) (uri : SGSIPURI) :
    Exec (Int × SGSIPURI) := do
  let h ← slice pPortParams 0 1
  if h = [':'] then do
    let scPos := Index pPortParams [';']
    let pPort ← (if scPos < 0 then sliceFrom pPortParams 1 else slice pPortParams 1 scPos)
    let r := Atoi pPort
    if r.2 ∨ r.1 ≤ 0 then pure (SGSIPRetErr, uri)
    else
      let uri := { uri with Port := pPort, PortNo := r.1 }
      if scPos < 0 then
        pure (SGSIPRetOK, { uri with Proto := "udp".toList, ProtoId := ProtoUDP, Val := uristr })
      else do
        let pParams ← sliceFrom pPortParams scPos
        parseURIParams uristr pParams uri
  else if h = [';'] then parseURIParams uristr pPortParams uri
  else pure (SGSIPRetErr, uri)

/-- Lines 336-375 of `SGSIPParseURI`: the host, given the host/port/params text
`pHostPP` and the positions `colPos`, `scPos` found on line 301-302 in the whole
text after the scheme. -/
def parseURIHost (parseIP : Str → Bool) (uristr pHostPP : Str) (colPos scPos : Int)
    (uri : SGSIPURI) : Exec (Int × SGSIPURI) :=
  if colPos < 0 ∧ scPos < 0 then
    pure (SGSIPRetOK, { uri with
      Addr := pHostPP, Proto := "udp".toList, ProtoId := ProtoUDP,
      Port := "5060".toList, PortNo := 5060, AType := SGAddrType parseIP pHostPP,
      Val := uristr })
  else do
    let h ← slice pHostPP 0 1
    if h = ['['] then do
      let t ← sliceFrom pHostPP ((pHostPP.length : Int) - 1)
      if t = [']'] then do
        let uri := { uri with
          Addr := pHostPP, Proto := "udp".toList, ProtoId := ProtoUDP,
          Port := "5060".toList, PortNo := 5060 }
        let aType ← SGAddrTypeEx parseIP uri.Addr
        let uri := { uri with AType := aType }
        if aType ≠ AFIPv6 then pure (SGSIPRetErr, uri)
        else pure (SGSIPRetOK, { uri with Val := uristr })
      else do
        let strArray := SplitN2 pHostPP [']']
        let a0 ← elemAt strArray 0
        let uri := { uri with Addr := a0 ++ [']'] }
        let aType ← SGAddrTypeEx parseIP uri.Addr
        let uri := { uri with AType := aType }
        if aType ≠ AFIPv6 then pure (SGSIPRetErr, uri)
        else do
          let pPortParams ← elemAt strArray 1
          parseURIPortParams uristr pPortParams uri
    else do
      let scPos2 := IndexAny pHostPP [':', ';']
      let addr ← slice pHostPP 0 scPos2
      let uri := { uri with Addr := addr, AType := SGAddrType parseIP addr }
      let pPortParams ← sliceFrom pHostPP scPos2
      parseURIPortParams uristr pPortParams uri

/-- `SGSIPParseURI`. -/
def SGSIPParseURI (parseIP : Str → Bool) (uristr : Str) (uri : SGSIPURI) :
    Exec (Int × SGSIPURI) :=
  let strArray := SplitN2 uristr [':']
  if strArray.length < 2 then pure (SGSIPRetErr, uri)
  else do
    let a0 ← elemAt strArray 0
    let a1 ← elemAt strArray 1
    let r := SGSIPSetSchema a0 uri.Schema uri.SchemaId
    let uri := { uri with Schema := r.2.1, SchemaId := r.2.2 }
    if r.1 ≠ SGSIPRetOK then pure (r.1, uri)
    else
      let atPos := Index a1 ['@']
      let colPos := Index a1 [':']
      let scPos := Index a1 [';']
      if atPos = 0 then pure (SGSIPRetErr, uri)
      else if atPos < 0 ∧ colPos < 0 ∧ scPos < 0 then
        pure (SGSIPRetOK, { uri with
          Addr := a1, Proto := "udp".toList, ProtoId := ProtoUDP,
          Port := "5060".toList, PortNo := 5060, AType := SGAddrType parseIP a1,
          Val := uristr })
      else if atPos > 0 then do
        let pUser ← slice a1 0 atPos
        let pHostPP ← sliceFrom a1 (atPos + 1)
        let uScPos := Index pUser [';']
        if uScPos = 0 then pure (SGSIPRetErr, uri)
        else if uScPos < 0 then
          parseURIHost parseIP uristr pHostPP colPos scPos { uri with User := pUser }
        else do
          let user ← slice pUser 0 (uScPos + 1)
          let uParams ← sliceFrom pUser (uScPos + 1)
          parseURIHost parseIP uristr pHostPP colPos scPos
            { uri with User := user, UParams := uParams }
      else parseURIHost parseIP uristr a1 colPos scPos uri

/-! ## Conversions between URI and socket address (sgsip.go lines 429-494) -/

/-- `SGSIPURIToSocketAddress`. -/
def SGSIPURIToSocketAddress (parseIP : Str → Bool) (uri : SGSIPURI)
    (sockaddr : SGSIPSocketAddress) : Exec (Int × SGSIPSocketAddress) := do
  let sockaddr :=
    if uri.Proto.length > 0 then { sockaddr with Proto := uri.Proto, ProtoId := uri.ProtoId }
    else { sockaddr with Proto := "udp".toList, ProtoId := ProtoUDP }
  let sockaddr :=
    if uri.Addr.length > 0 then { sockaddr with Addr := uri.Addr }
    else { sockaddr with Addr := "127.0.0.1".toList }
  let aType ← SGAddrTypeEx parseIP sockaddr.Addr
  let sockaddr := { sockaddr with AType := aType }
  let sockaddr :=
    if uri.Port.length > 0 then { sockaddr with Port := uri.Port, PortNo := uri.PortNo }
    else { sockaddr with Port := "5060".toList, PortNo := 5060 }
  pure (SGSIPRetOK, { sockaddr with
    Val := sockaddr.Proto ++ [':'] ++ sockaddr.Addr ++ [':'] ++ sockaddr.Port })

/-- `SGSocketAddressToSIPURI`. -/
def SGSocketAddressToSIPURI (parseIP : Str → Bool) (sockaddr : SGSIPSocketAddress)
    (user : Str) (tmode : Int) (uri : SGSIPURI) : Exec (Int × SGSIPURI) := do
  let uri :=
    if sockaddr.Proto.length > 0 then
      { uri with Proto := sockaddr.Proto, ProtoId := sockaddr.ProtoId }
    else { uri with Proto := "udp".toList, ProtoId := ProtoUDP }
  let upart : Str := if user.length > 0 then user ++ ['@'] else []
  let uri := if user.length > 0 then { uri with User := user } else uri
  let uri :=
    if sockaddr.Addr.length > 0 then { uri with Addr := sockaddr.Addr }
    else { uri with Addr := "127.0.0.1".toList }
  let aType ← SGAddrTypeEx parseIP uri.Addr
  let uri := { uri with AType := aType }
  let uri :=
    if sockaddr.Port.length > 0 then { uri with Port := sockaddr.Port, PortNo := sockaddr.PortNo }
    else { uri with Port := "5060".toList, PortNo := 5060 }
  let uri := { uri with Schema := "sip".toList, SchemaId := SchemaSIP }
  if tmode = 0 ∧ uri.ProtoId = ProtoUDP then
    pure (SGSIPRetOK, { uri with
      Val := uri.Schema ++ [':'] ++ upart ++ sockaddr.Addr ++ [':'] ++ sockaddr.Port })
  else
    pure (SGSIPRetOK, { uri with
      Val := uri.Schema ++ [':'] ++ upart ++ sockaddr.Addr ++ [':'] ++ sockaddr.Port
        ++ ";transport=".toList ++ sockaddr.Proto })

/-! ## Parameter extraction (sgsip.go lines 496-541) -/

/-- Lines 534-540 of `SGSIPParamsGet`: the value up to `scPos + qVal`, or the
whole of `strArray[1]` when no terminator was found. -/
def paramsGetValue (a1 paramName : Str) (scPos qVal : Int) (paramVal : SGSIPParam) :
    Exec (Int × SGSIPParam) := do
  let v ← (if scPos < 0 then pure a1 else slice a1 0 (scPos + qVal))
  pure (SGSIPRetOK, { paramVal with Value := v, Name := paramName })

/-- Lines 521-540 of `SGSIPParamsGet`: the value held in `a1 = strArray[1]`. -/
def paramsGetSecond (a1 paramName : Str) (vmode : Int) (paramVal : SGSIPParam) :
    Exec (Int × SGSIPParam) := do
  let q ← slice a1 0 1
  if q = ['\"'] then
    if vmode = 0 then pure (SGSIPRetErrParamFormat, paramVal)
    else
      paramsGetValue a1 paramName (Index a1 ['\"', ';']) 1
        { paramVal with PMode := ParamValQuoted }
  else
    paramsGetValue a1 paramName (Index a1 [';']) 0
      { paramVal with PMode := ParamValBare }

/-- Lines 509-540 of `SGSIPParamsGet`, on the bounded text `pStr`. -/
def paramsGetFrom (pStr paramName : Str) (vmode : Int) (paramVal : SGSIPParam) :
    Exec (Int × SGSIPParam) :=
  if Index pStr (';' :: (paramName ++ [';'])) ≥ 0 then
    pure (SGSIPRetOK, { paramVal with
      Name := paramName, Value := [], PMode := ParamValBare })
  else
    let strArray := Split pStr (';' :: (paramName ++ ['=']))
    if strArray.length = 1 then pure (SGSIPRetNotFound, paramVal)
    else do
      let a1 ← elemAt strArray 1
      paramsGetSecond a1 paramName vmode paramVal

/-- `SGSIPParamsGet`. -/
def SGSIPParamsGet (paramStr paramName : Str) (vmode : Int) (paramVal : SGSIPParam) :
    Exec (Int × SGSIPParam) :=
  if paramStr.length < paramName.length then pure (SGSIPRetNotFound, paramVal)
  else do
    let h ← slice paramStr 0 1
    let pStr1 := if h ≠ [';'] then ';' :: paramStr else paramStr
    let t ← sliceFrom pStr1 ((pStr1.length : Int) - 1)
    let pStr := if t ≠ [';'] then pStr1 ++ [';'] else pStr1
    paramsGetFrom pStr paramName vmode paramVal

/-! ## Start line parser (sgsip.go lines 543-584) -/

/-- Lines 559-574 of `SGSIPParseFirstLine`: the status line. -/
def firstLineResponse (strFLine : Str) (flineVal : SGSIPFirstLine) :
    Exec (Int × SGSIPFirstLine) := do
  let strCR ← sliceFrom strFLine 8
  if strCR.length < 5 then pure (SGSIPRetErrFLineResponseShort, flineVal)
  else
    let strArray := SplitN2 strCR [' ']
    if strArray.length < 2 then pure (SGSIPRetErrFLineResponseFormat, flineVal)
    else do
      let code ← elemAt strArray 0
      if code.length ≠ 3 then pure (SGSIPRetErrFLineResponseFormat, flineVal)
      else
        let r := Atoi code
        if r.2 ∨ r.1 < 100 ∨ r.1 > 999 then pure (SGSIPRetErrFLineResponseCode, flineVal)
        else do
          let reason ← elemAt strArray 1
          pure (SGSIPRetOK, { flineVal with
            Code := r.1, CodeVal := code, Reason := Trim reason wsCR })

/-- Lines 576-583 of `SGSIPParseFirstLine`: the request line. -/
def firstLineRequest (strFLine : Str) (flineVal : SGSIPFirstLine) :
    Exec (Int × SGSIPFirstLine) := do
  let strMU ← slice strFLine 0 ((strFLine.length : Int) - 8)
  let strArray := SplitN2 strMU [' ']
  if strArray.length < 2 then pure (SGSIPRetErrFLineRequestFormat, flineVal)
  else do
    let m ← elemAt strArray 0
    let u ← elemAt strArray 1
    if m.length < 3 ∨ u.length < 5 then pure (SGSIPRetErrFLineRequestFormat, flineVal)
    else pure (SGSIPRetOK, { flineVal with Method := Trim m wsCR, URI := Trim u wsCR })

/-- `SGSIPParseFirstLine`. -/
def SGSIPParseFirstLine (inputStr : Str) (flineVal : SGSIPFirstLine) :
    Exec (Int × SGSIPFirstLine) := do
  let strArray := SplitN2 inputStr ['\n']
  let a0 ← elemAt strArray 0
  let strFLine := Trim a0 wsCR
  if strFLine.length < 8 then pure (SGSIPRetErrFLineShort, flineVal)
  else do
    let first8 ← slice strFLine 0 8
    if first8 = "SIP/2.0 ".toList then
      firstLineResponse strFLine { flineVal with MType := FLineResponse, Val := strFLine }
    else do
      let last8 ← sliceFrom strFLine ((strFLine.length : Int) - 8)
      if last8 = " SIP/2.0".toList then
        firstLineRequest strFLine { flineVal with MType := FLineRequest, Val := strFLine }
      else pure (SGSIPRetErrFLineFormat, flineVal)

/-! ## Header block parser (sgsip.go lines 586-673) -/

/-- The loop of `SGSIPHeaderValidName` from index `i` on.  The source ranges
over runes; a byte outside ASCII starts a rune that is no letter, digit or
`-`, so the byte-wise test rejects exactly the same names. -/
def validNameFrom (i : Nat) : Str → Bool
  | [] => true
  | r :: rest =>
    if (r < 'a' ∨ r > 'z') ∧ (r < 'A' ∨ r > 'Z') then
      if i = 0 then false
      else if (r < '0' ∨ r > '9') ∧ r ≠ '-' then false
      else validNameFrom (i + 1) rest
    else validNameFrom (i + 1) rest

/-- `SGSIPHeaderValidName`. -/
def SGSIPHeaderValidName (name : Str) : Bool := validNameFrom 0 name

/-- The inner loop of `SGSIPParseHeaders` (lines 650-663) on `rest = strArray[1]`
with the body gathered so far: `none` for `return SGSIPRetErr`, else the body
and `strArray[1]` at the `break`.  One unit of budget per pass. -/
def headerBodyLoop : Nat → Str → Str → Exec (Option (Str × Str))
  | 0, _, _ => Except.error Halt.fuel
  | k + 1, rest, body =>
    let strArray := SplitN2 rest ['\n']
    if strArray.length < 2 then pure none
    else do
      let a0 ← elemAt strArray 0
      let a1 ← elemAt strArray 1
      if a1.length = 0 then pure (some (body ++ a0, a1))
      else do
        let h ← slice a1 0 1
        if h ≠ [' '] ∧ h ≠ ['\t'] then pure (some (body ++ a0, a1))
        else headerBodyLoop k a1 (body ++ a0)

/-- The outer loop of `SGSIPParseHeaders` (lines 638-671).  One unit of budget
per pass. -/
def headersLoop : Nat → Str → List SGSIPHeader → Exec (Int × List SGSIPHeader)
  | 0, _, _ => Except.error Halt.fuel
  | k + 1, strHeaders, headersList =>
    let strArray := SplitN2 strHeaders [':']
    if strArray.length < 2 then pure (SGSIPRetErr, headersList)
    else do
      let a0 ← elemAt strArray 0
      let a1 ← elemAt strArray 1
      if a0.length = 0 ∨ a1.length = 0 then pure (SGSIPRetErr, headersList)
      else if SGSIPHeaderValidName a0 = false then pure (SGSIPRetErr, headersList)
      else do
        let r ← headerBodyLoop (a1.length + 1) a1 []
        match r with
        | none => pure (SGSIPRetErr, headersList)
        | some br =>
          let hdrItem : SGSIPHeader :=
            { Name := TrimRight a0 [' ', '\t'], Body := Trim br.1 wsCR }
          if br.2.length = 0 then pure (SGSIPRetOK, headersList ++ [hdrItem])
          else do
            let h ← slice br.2 0 1
            if h = ['\r'] ∨ h = ['\n'] then pure (SGSIPRetOK, headersList ++ [hdrItem])
            else headersLoop k br.2 (headersList ++ [hdrItem])

/-- Lines 634-672 of `SGSIPParseHeaders`: the check for an empty header
section, then the loop, with a budget of one pass per byte and one more. -/
def parseHeadersFrom (strHeaders : Str) (headersList : List SGSIPHeader) :
    Exec (Int × List SGSIPHeader) :=
  if strHeaders.length = 0 then pure (SGSIPRetErr, headersList)
  else do
    let h ← slice strHeaders 0 1
    if h = ['\r'] ∨ h = ['\n'] then pure (SGSIPRetErr, headersList)
    else headersLoop (strHeaders.length + 1) strHeaders headersList

/-- `SGSIPParseHeaders`. -/
def SGSIPParseHeaders (inputStr : Str) (pMode : Int) (headersList : List SGSIPHeader) :
    Exec (Int × List SGSIPHeader) :=
  if pMode = 0 then
    let strArray := SplitN2 inputStr ['\n']
    if strArray.length < 2 then pure (SGSIPRetErr, headersList)
    else do
      let strHeaders ← elemAt strArray 1
      parseHeadersFrom strHeaders headersList
  else parseHeadersFrom (TrimLeft inputStr [' ', '\t', '\r', '\n']) headersList

/-! ## Message helpers and serialisation (sgsip.go lines 689-703, 754-780) -/

/-- The loop of `SGSIPMessageHeaderSet`: the header list with the body of the
first header named `hname` replaced, or `none` when no header has that name. -/
def headerSetFirst (hname body : Str) : List SGSIPHeader → Option (List SGSIPHeader)
  | [] => none
  | hdr :: hs =>
    if hdr.Name = hname then some ({ hdr with Body := body } :: hs)
    else (headerSetFirst hname body hs).map fun r => hdr :: r

/-- `SGSIPMessageHeaderSet`. -/
def SGSIPMessageHeaderSet (msgVal : SGSIPMessage) (hname hbody : Str) : Int × SGSIPMessage :=
  match headerSetFirst hname (Trim hbody wsCR) msgVal.Headers with
  | some hs => (SGSIPRetOK, { msgVal with Headers := hs })
  | none =>
    (SGSIPRetOK, { msgVal with
      Headers := msgVal.Headers ++ [{ Name := Trim hname wsCR, Body := Trim hbody wsCR }] })

/-- The loop of `SGSIPMessageHeaderGet` (lines 707-712): the body of the first
header named `hname`. -/
def headerGetFirst (hname : Str) : List SGSIPHeader → Option Str
  | [] => none
  | hdr :: hs => if hdr.Name = hname then some hdr.Body else headerGetFirst hname hs

/-- `SGSIPMessageHeaderGet`: the code and the value of `*hbody` after the call. -/
def SGSIPMessageHeaderGet (msgVal : SGSIPMessage) (hname hbody : Str) : Int × Str :=
  match headerGetFirst hname msgVal.Headers with
  | some b => (SGSIPRetOK, b)
  | none => (SGSIPRetErr, hbody)

/-- The text the loop on lines 769-771 writes: one `Name: Body\r\n` per header. -/
def headerLines : List SGSIPHeader → Str
  | [] => []
  | h :: hs => h.Name ++ [':', ' '] ++ h.Body ++ ['\r', '\n'] ++ headerLines hs

/-- `SGSIPMessageToString`: the code, the message after the call and the value
of `*outputStr` after the call. -/
def SGSIPMessageToString (msgVal : SGSIPMessage) (outputStr : Str) :
    Int × SGSIPMessage × Str :=
  if msgVal.FLine.Val.length = 0 ∨ msgVal.Headers.length = 0 then
    (SGSIPRetErr, msgVal, outputStr)
  else
    let msgSet :=
      if msgVal.Body.ContentLen > 0 then
        let m1 := (SGSIPMessageHeaderSet msgVal "Content-Length".toList
          (Itoa msgVal.Body.ContentLen)).2
        if m1.Body.ContentType.length > 0 then
          (SGSIPMessageHeaderSet m1 "Content-Type".toList m1.Body.ContentType).2
        else m1
      else msgVal
    let sb := msgVal.FLine.Val ++ ['\r', '\n'] ++ headerLines msgSet.Headers ++ ['\r', '\n']
    if msgSet.Body.ContentLen > 0 then (SGSIPRetOK, msgSet, sb ++ msgSet.Body.Content)
    else (SGSIPRetOK, msgSet, sb)

/-! ## Sequence number update, digest parameters, whole message
(sgsip.go lines 601-619, 717-752) -/

/-- The value a 64-bit `int` holds after an arithmetic result `x`: two's
complement wrap-around. -/
def wrapInt (x : Int) : Int := (x - minInt) % 18446744073709551616 + minInt

/-- The loop of `SGSIPMessageCSeqUpdate` (lines 719-730): the code and the
header list after the call.  The first header named `CSeq` or `s` decides. -/
def cseqUpdateLoop (ival : Int) : List SGSIPHeader → Int × List SGSIPHeader
  | [] => (SGSIPRetErr, [])
  | hdr :: hs =>
    if hdr.Name = "CSeq".toList ∨ hdr.Name = "s".toList then
      match SplitN2 hdr.Body [' '] with
      | [a, b] =>
        (SGSIPRetOK,
          { hdr with Body := Itoa (wrapInt ((Atoi a).1 + ival)) ++ [' '] ++ b } :: hs)
      | _ => (SGSIPRetErr, hdr :: hs)
    else ((cseqUpdateLoop ival hs).1, hdr :: (cseqUpdateLoop ival hs).2)

/-- `SGSIPMessageCSeqUpdate`. -/
def SGSIPMessageCSeqUpdate (msgVal : SGSIPMessage) (ival : Int) : Int × SGSIPMessage :=
  ((cseqUpdateLoop ival msgVal.Headers).1,
    { msgVal with Headers := (cseqUpdateLoop ival msgVal.Headers).2 })

/-- A Go `map[string]string` as a list of bindings, the latest assignment
first; a key is looked up at its first binding. -/
abbrev GoMap := List (Str × Str)

/-- The map lookup `m[k]` with its presence flag. -/
def mapGet (m : GoMap) (k : Str) : Option Str :=
  (m.find? fun e => decide (e.1 = k)).map fun e => e.2

/-- The loop of `SGSIPHeaderParseDigestAuthBody` (lines 611-617) over the pieces
of the comma split. -/
def digestLoop : List Str → GoMap → GoMap
  | [], params => params
  | kv :: rest, params =>
    match SplitN2 kv ['='] with
    | [a, b] => digestLoop rest ((Trim a ['\"', ' '], Trim b ['\"', ' ']) :: params)
    | _ => digestLoop rest params

/-- `SGSIPHeaderParseDigestAuthBody`: `none` is the `nil` map. -/
def SGSIPHeaderParseDigestAuthBody (hbody : Str) : Option GoMap :=
  match SplitN2 (Trim hbody [' ']) [' '] with
  | [s0, s1] =>
    if s0 ≠ "Digest".toList then none else some (digestLoop (Split s1 [',']) [])
  | _ => none

/-- `SGSIPParseMessage`.  The code of `SGSIPParseBody` is dropped (line 750-751);
a fault in any step ends the run. -/
def SGSIPParseMessage (parseIP : Str → Bool) (inputStr : Str) (msgVal : SGSIPMessage) :
    Exec (Int × SGSIPMessage) := do
  let r1 ← SGSIPParseFirstLine inputStr msgVal.FLine
  if r1.1 ≠ SGSIPRetOK then pure (r1.1, { msgVal with FLine := r1.2 })
  else do
    let r2 ← (if r1.2.MType = FLineRequest then SGSIPParseURI parseIP r1.2.URI msgVal.RURI
      else pure (SGSIPRetOK, msgVal.RURI))
    if r2.1 ≠ SGSIPRetOK then pure (r2.1, { msgVal with FLine := r1.2, RURI := r2.2 })
    else do
      let r3 ← SGSIPParseHeaders inputStr 0 msgVal.Headers
      if r3.1 ≠ SGSIPRetOK then
        pure (r3.1, { msgVal with FLine := r1.2, RURI := r2.2, Headers := r3.2 })
      else do
        let r4 ← SGSIPParseBody inputStr msgVal.Body
        pure (SGSIPRetOK, { msgVal with
          FLine := r1.2, RURI := r2.2, Headers := r3.2, Body := r4.2 })

/-! ## Auxiliary notions used in the statements -/

/-- A recogniser that accepts no text: it agrees with `net.ParseIP` on every
text that is not an IP literal. -/
def noIPLiteral : Str → Bool := fun _ => false

/-- The parameter string as lines 501-507 of `SGSIPParamsGet` bound it: a `;`
is put in front when the text does not start with one, and appended when the
result does not end with one. -/
def semicolonBounded (p : Str) : Str :=
  let p1 := if p.head? = some ';' then p else ';' :: p
  if p1.getLast? = some ';' then p1 else p1 ++ [';']

/-- The text up to the first occurrence of `sep`, or all of it when `sep` does
not occur: the first element of a split. -/
def splitHead (sep b : Str) : Str :=
  match cut sep b with
  | some p => p.1
  | none => b

/-- Whenever the URI-producing run returns OK, the transport text it stored is
non-empty. -/
def OKProto (res : Exec (Int × SGSIPURI)) : Prop :=
  ∀ r, res = Except.ok (SGSIPRetOK, r) → r.Proto ≠ []

/-- The value of a run of decimal digits, most significant first. -/
def decVal (ds : Str) : Nat := ds.foldl (fun acc c => acc * 10 + (c.toNat - 48)) 0

/-- Whenever the run returns OK, the value it produced satisfies `P`. -/
def OKSat {σ : Type} (P : σ → Prop) (res : Exec (Int × σ)) : Prop :=
  ∀ r, res = Except.ok (SGSIPRetOK, r) → P r

/-- One digest parameter as written on the wire: `k="v"`. -/
def digestItem (kv : Str × Str) : Str := kv.1 ++ ['=', '\"'] ++ kv.2 ++ ['\"']

/-- The digest parameters joined by a comma and a space. -/
def digestItems : List (Str × Str) → Str
  | [] => []
  | [kv] => digestItem kv
  | kv :: rest => digestItem kv ++ [',', ' '] ++ digestItems rest

/-- A header as the header block parser produces it and as a serialised header
line gives it back: a non-empty valid name, a body without line feed that is
already trimmed of space, tab and CR, and no type tag. -/
def CleanHeader (h : SGSIPHeader) : Prop :=
  h.Name ≠ [] ∧ SGSIPHeaderValidName h.Name = true ∧ '\n' ∉ h.Body ∧
    Trim h.Body wsCR = h.Body ∧ h.HType = 0

/-! ## Lemmas on the primitives -/

@[simp] theorem exec_bind_ok {α β : Type} (a : α) (f : α → Exec β) :
    (Except.ok a >>= f) = f a := rfl

@[simp] theorem exec_bind_error {α β : Type} (e : Halt) (f : α → Exec β) :
    ((Except.error e : Exec α) >>= f) = Except.error e := rfl

@[simp] theorem exec_pure {α : Type} (a : α) : (pure a : Exec α) = Except.ok a := rfl

theorem exec_bind_eq_ok {α β : Type} (x : Exec α) (f : α → Exec β) (b : β) :
    (x >>= f) = Except.ok b ↔ ∃ a, x = Except.ok a ∧ f a = Except.ok b := by
  cases x with
  | error e => simp
  | ok a => simp

theorem cut_single_of_not_mem (c : Char) (a b : Str) (h : c ∉ a) :
    cut [c] (a ++ c :: b) = some (a, b) := by
  induction a with
  | nil => simp [cut]
  | cons x a ih =>
    have hx : c ≠ x := fun e => h (by simp [e])
    have ha : c ∉ a := fun e => h (by simp [e])
    simp [cut, hx, ih ha]

theorem cut_single_none (c : Char) (s : Str) (h : c ∉ s) : cut [c] s = none := by
  induction s with
  | nil => simp [cut]
  | cons x s ih =>
    have hx : c ≠ x := fun e => h (by simp [e])
    have hs : c ∉ s := fun e => h (by simp [e])
    simp [cut, hx, ih hs]

theorem cut_some_eq (sep : Str) : ∀ (s a b : Str), cut sep s = some (a, b) → s = a ++ sep ++ b := by
  intro s
  induction s with
  | nil =>
    intro a b h
    by_cases hs : sep = []
    · simp [cut, hs] at h
      simp [hs, h.1, h.2]
    · simp [cut, hs] at h
  | cons c s ih =>
    intro a b h
    by_cases hp : sep.isPrefixOf (c :: s) = true
    · simp only [cut, hp, if_true, Option.some.injEq, Prod.mk.injEq] at h
      obtain ⟨t, ht⟩ := List.isPrefixOf_iff_prefix.mp hp
      rw [← h.1, ← h.2, ← ht]
      simp
    · simp only [cut, hp, Bool.false_eq_true, if_false, Option.map_eq_some', Prod.mk.injEq] at h
      obtain ⟨⟨a1, b1⟩, hc, ha, hb⟩ := h
      have := ih a1 b1 hc
      simp only at ha hb
      rw [← ha, ← hb, this]
      simp

theorem cut_none_of_absent (sep s : Str) (h : ¬ sep <:+: s) : cut sep s = none := by
  cases hc : cut sep s with
  | none => rfl
  | some p =>
    exfalso
    apply h
    have := cut_some_eq sep s p.1 p.2 hc
    exact ⟨p.1, p.2, this.symm⟩

theorem cut_first (sep a b : Str)
    (h : ∀ i, i < a.length → ¬ sep <+: (a ++ sep ++ b).drop i) :
    cut sep (a ++ sep ++ b) = some (a, b) := by
  induction a with
  | nil =>
    cases hs : sep ++ b with
    | nil =>
      have h1 : sep = [] := (List.append_eq_nil.mp hs).1
      have h2 : b = [] := (List.append_eq_nil.mp hs).2
      simp [cut, h1, h2]
    | cons c t =>
      have hp : sep.isPrefixOf (c :: t) = true := by
        rw [List.isPrefixOf_iff_prefix, ← hs]
        exact List.prefix_append sep b
      have hd : (c :: t).drop sep.length = b := by
        rw [← hs]
        simp
      simp only [List.nil_append, hs, cut, hp, if_true, hd]
  | cons x a ih =>
    have h0 : ¬ sep <+: (x :: a ++ sep ++ b) := by
      have := h 0 (by simp)
      simpa using this
    have hp : sep.isPrefixOf (x :: (a ++ sep ++ b)) = false := by
      rw [Bool.eq_false_iff]
      intro e
      exact h0 (by simpa using List.isPrefixOf_iff_prefix.mp e)
    have hrec : cut sep (a ++ sep ++ b) = some (a, b) := by
      apply ih
      intro i hi
      have := h (i + 1) (by simpa using hi)
      simpa using this
    have e : x :: a ++ sep ++ b = x :: (a ++ sep ++ b) := by simp
    rw [e, cut, hp, hrec]
    simp

theorem SplitN2_of_cut (s sep x y : Str) (h : cut sep s = some (x, y)) :
    SplitN2 s sep = [x, y] := by
  simp [SplitN2, h]

theorem SplitN2_of_none (s sep : Str) (h : cut sep s = none) : SplitN2 s sep = [s] := by
  simp [SplitN2, h]

theorem slice_nat (s : Str) (lo hi : Nat) (h1 : lo ≤ hi) (h2 : hi ≤ s.length) :
    slice s (lo : Int) (hi : Int) = Except.ok ((s.take hi).drop lo) := by
  have h : (0 : Int) ≤ (lo : Int) ∧ (lo : Int) ≤ (hi : Int) ∧ (hi : Int) ≤ (s.length : Int) := by
    omega
  simp [slice, h]

theorem slice_fault (s : Str) (lo hi : Int)
    (h : lo < 0 ∨ hi < lo ∨ (s.length : Int) < hi) :
    slice s lo hi = Except.error Halt.fault := by
  have h1 : ¬ ((0 : Int) ≤ lo ∧ lo ≤ hi ∧ hi ≤ (s.length : Int)) := by omega
  simp [slice, h1]

theorem sliceFrom_nat (s : Str) (lo : Nat) (h : lo ≤ s.length) :
    sliceFrom s (lo : Int) = Except.ok (s.drop lo) := by
  have h1 : (0 : Int) ≤ (lo : Int) ∧ (lo : Int) ≤ (s.length : Int) := by omega
  simp [sliceFrom, h1]

theorem sliceFrom_len_sub (s : Str) (k : Nat) (h : k ≤ s.length) :
    sliceFrom s ((s.length : Int) - (k : Int)) = Except.ok (s.drop (s.length - k)) := by
  have e : (s.length : Int) - (k : Int) = ((s.length - k : Nat) : Int) := by omega
  rw [e]
  exact sliceFrom_nat s (s.length - k) (by omega)

theorem slice_len_sub (s : Str) (lo k : Nat) (h : lo + k ≤ s.length) :
    slice s (lo : Int) ((s.length : Int) - (k : Int)) =
      Except.ok ((s.take (s.length - k)).drop lo) := by
  have e : (s.length : Int) - (k : Int) = ((s.length - k : Nat) : Int) := by omega
  rw [e]
  exact slice_nat s lo (s.length - k) (by omega) (by omega)

theorem TrimLeft_of_head (x : Char) (s cs : Str) (h : x ∉ cs) :
    TrimLeft (x :: s) cs = x :: s := by
  simp [TrimLeft, h]

theorem TrimRight_of_all (s cs : Str) (h : ∀ c ∈ s, c ∉ cs) : TrimRight s cs = s := by
  unfold TrimRight
  rw [List.rdropWhile_eq_self_iff]
  intro hl
  simpa using h _ (List.getLast_mem hl)

theorem TrimLeft_of_all (s cs : Str) (h : ∀ c ∈ s, c ∉ cs) : TrimLeft s cs = s := by
  cases s with
  | nil => rfl
  | cons x s => exact TrimLeft_of_head x s cs (h x (by simp))

theorem Trim_of_all (s cs : Str) (h : ∀ c ∈ s, c ∉ cs) : Trim s cs = s := by
  unfold Trim
  rw [TrimLeft_of_all s cs h, TrimRight_of_all s cs h]

theorem TrimRight_append_keep (a b cs : Str) (h : ∃ c ∈ b, c ∉ cs) :
    TrimRight (a ++ b) cs = a ++ TrimRight b cs := by
  induction b using List.reverseRecOn with
  | nil => simp at h
  | append_singleton b x ih =>
    by_cases hx : x ∈ cs
    · have hb : ∃ c ∈ b, c ∉ cs := by
        obtain ⟨c, hc, hn⟩ := h
        rcases List.mem_append.mp hc with h1 | h1
        · exact ⟨c, h1, hn⟩
        · simp at h1
          exact absurd (h1 ▸ hx) hn
      have e1 : TrimRight (a ++ (b ++ [x])) cs = TrimRight (a ++ b) cs := by
        unfold TrimRight
        rw [← List.append_assoc]
        exact List.rdropWhile_concat_pos _ _ x (by simpa using hx)
      have e2 : TrimRight (b ++ [x]) cs = TrimRight b cs := by
        unfold TrimRight
        exact List.rdropWhile_concat_pos _ _ x (by simpa using hx)
      rw [e1, e2, ih hb]
    · have e1 : TrimRight (a ++ (b ++ [x])) cs = a ++ (b ++ [x]) := by
        unfold TrimRight
        rw [← List.append_assoc]
        exact List.rdropWhile_concat_neg _ _ x (by simpa using hx)
      have e2 : TrimRight (b ++ [x]) cs = b ++ [x] := by
        unfold TrimRight
        exact List.rdropWhile_concat_neg _ _ x (by simpa using hx)
      rw [e1, e2]

theorem TrimRight_concat_drop (s cs : Str) (x : Char) (h : x ∈ cs) :
    TrimRight (s ++ [x]) cs = TrimRight s cs := by
  unfold TrimRight
  exact List.rdropWhile_concat_pos _ _ x (by simpa using h)

theorem TrimRight_concat_keep (s cs : Str) (x : Char) (h : x ∉ cs) :
    TrimRight (s ++ [x]) cs = s ++ [x] := by
  unfold TrimRight
  exact List.rdropWhile_concat_neg _ _ x (by simpa using h)

theorem Trim_concat_drop (s cs : Str) (x : Char) (h : x ∈ cs) :
    Trim (s ++ [x]) cs = Trim s cs := by
  unfold Trim TrimLeft
  rw [List.dropWhile_append]
  by_cases he : (List.dropWhile (fun c => decide (c ∈ cs)) s).isEmpty = true
  · have hn : List.dropWhile (fun c => decide (c ∈ cs)) s = [] := List.isEmpty_iff.mp he
    simp [he, hn, h, TrimRight]
  · simp only [he, Bool.false_eq_true, if_false]
    exact TrimRight_concat_drop _ cs x h

theorem Trim_TrimRight (s cs : Str) : Trim (TrimRight s cs) cs = Trim s cs := by
  induction s using List.reverseRecOn with
  | nil => simp [TrimRight]
  | append_singleton s x ih =>
    by_cases hx : x ∈ cs
    · rw [TrimRight_concat_drop s cs x hx, ih, Trim_concat_drop s cs x hx]
    · rw [TrimRight_concat_keep s cs x hx]

theorem atoiSign_of_digit (a : Char) (t : Str) (ha : decDigit a = true) :
    atoiSign (a :: t) = (false, a :: t) := by
  have h1 : a ≠ '-' := by
    intro e
    rw [e] at ha
    revert ha
    decide
  have h2 : a ≠ '+' := by
    intro e
    rw [e] at ha
    revert ha
    decide
  unfold atoiSign
  split
  · rename_i h
    simp only [List.cons.injEq] at h
    exact absurd h.1 h1
  · rename_i h
    simp only [List.cons.injEq] at h
    exact absurd h.1 h2
  · rfl

theorem Atoi_three_digits (a b c : Char) (ha : decDigit a = true) (hb : decDigit b = true)
    (hc : decDigit c = true) :
    Atoi [a, b, c] =
      ((((a.toNat - 48) * 100 + (b.toNat - 48) * 10 + (c.toNat - 48) : Nat) : Int), false) := by
  have ha1 : 48 ≤ a.toNat ∧ a.toNat ≤ 57 := by simpa [decDigit] using ha
  have hb1 : 48 ≤ b.toNat ∧ b.toNat ≤ 57 := by simpa [decDigit] using hb
  have hc1 : 48 ≤ c.toNat ∧ c.toNat ≤ 57 := by simpa [decDigit] using hc
  have hv : digitsVal [a, b, c] 0 =
      some ((a.toNat - 48) * 100 + (b.toNat - 48) * 10 + (c.toNat - 48)) := by
    simp only [digitsVal, ha, hb, hc, if_true, Option.some.injEq]
    omega
  unfold Atoi
  simp only [atoiSign_of_digit a [b, c] ha, hv]
  have h1 : ¬ ((((a.toNat - 48) * 100 + (b.toNat - 48) * 10 + (c.toNat - 48) : Nat) : Int)
      < minInt) := by
    unfold minInt
    omega
  have h2 : ¬ (maxInt <
      (((a.toNat - 48) * 100 + (b.toNat - 48) * 10 + (c.toNat - 48) : Nat) : Int)) := by
    unfold maxInt
    omega
  simp only [h1, h2, if_false, Bool.false_eq_true, List.cons_ne_nil]

theorem digitsVal_some_digits : ∀ (s : Str) (acc n : Nat), digitsVal s acc = some n →
    ∀ c ∈ s, decDigit c = true := by
  intro s
  induction s with
  | nil => simp
  | cons x s ih =>
    intro acc n h c hc
    by_cases hx : decDigit x = true
    · rcases List.mem_cons.mp hc with e | e
      · rw [e]
        exact hx
      · simp only [digitsVal, hx, if_true] at h
        exact ih _ _ h c e
    · simp [digitsVal, hx] at h

theorem digitsVal_two_le (a b : Char) (n : Nat) (h : digitsVal [a, b] 0 = some n) : n ≤ 99 := by
  have ha := digitsVal_some_digits _ _ _ h a (by simp)
  have hb := digitsVal_some_digits _ _ _ h b (by simp)
  have ha1 : 48 ≤ a.toNat ∧ a.toNat ≤ 57 := by simpa [decDigit] using ha
  have hb1 : 48 ≤ b.toNat ∧ b.toNat ≤ 57 := by simpa [decDigit] using hb
  simp only [digitsVal, ha, hb, if_true, Option.some.injEq] at h
  omega

theorem Atoi_ok_inv (s : Str) (v : Int) (h : Atoi s = (v, false)) :
    ∃ n : Nat, digitsVal (atoiSign s).2 0 = some n ∧
      v = if (atoiSign s).1 = true then -(n : Int) else (n : Int) := by
  unfold Atoi at h
  by_cases h0 : (atoiSign s).2 = []
  · simp [h0] at h
  · cases hd : digitsVal (atoiSign s).2 0 with
    | none =>
      simp only [h0, hd, if_false] at h
      split_ifs at h <;> simp at h
    | some n =>
      refine ⟨n, rfl, ?_⟩
      simp only [h0, hd, if_false] at h
      by_cases h1 : (if (atoiSign s).1 = true then -(n : Int) else (n : Int)) < minInt
      · simp [h1] at h
      · by_cases h2 : maxInt < (if (atoiSign s).1 = true then -(n : Int) else (n : Int))
        · simp [h1, h2] at h
        · simp only [h1, h2, if_false, Prod.mk.injEq, and_true] at h
          exact h.symm

theorem Atoi_three_inv (a b c : Char) (v : Int) (h : Atoi [a, b, c] = (v, false))
    (hv : 100 ≤ v) :
    decDigit a = true ∧ decDigit b = true ∧ decDigit c = true ∧
      v = (((a.toNat - 48) * 100 + (b.toNat - 48) * 10 + (c.toNat - 48) : Nat) : Int) := by
  obtain ⟨n, hd, hn⟩ := Atoi_ok_inv _ _ h
  by_cases hm : a = '-'
  · exfalso
    subst hm
    simp only [atoiSign, if_true] at hn
    omega
  · by_cases hp : a = '+'
    · exfalso
      subst hp
      simp only [atoiSign] at hd hn
      have := digitsVal_two_le b c n hd
      simp at hn
      omega
    · have hs : atoiSign [a, b, c] = (false, [a, b, c]) := by
        unfold atoiSign
        split
        · rename_i h0
          simp only [List.cons.injEq] at h0
          exact absurd h0.1 hm
        · rename_i h0
          simp only [List.cons.injEq] at h0
          exact absurd h0.1 hp
        · rfl
      rw [hs] at hd hn
      simp only [Bool.false_eq_true, if_false] at hn
      have ha := digitsVal_some_digits _ _ _ hd a (by simp)
      have hb := digitsVal_some_digits _ _ _ hd b (by simp)
      have hc := digitsVal_some_digits _ _ _ hd c (by simp)
      refine ⟨ha, hb, hc, ?_⟩
      simp only [digitsVal, ha, hb, hc, if_true, Option.some.injEq] at hd
      rw [hn, ← hd]
      congr 1
      omega

theorem sep_prefix_unique (c : Char) (b t : Str) :
    ∀ (a p : Str), c ∉ a → c ∉ p → (p ++ c :: t) <+: (a ++ c :: b) → a = p := by
  intro a
  induction a with
  | nil =>
    intro p _ hp h
    cases p with
    | nil => rfl
    | cons y p =>
      simp only [List.cons_append, List.nil_append, List.cons_prefix_cons] at h
      exact absurd (by simp [h.1]) hp
  | cons x a ih =>
    intro p ha hp h
    cases p with
    | nil =>
      simp only [List.cons_append, List.nil_append, List.cons_prefix_cons] at h
      exact absurd (by simp [h.1]) ha
    | cons y p =>
      simp only [List.cons_append, List.cons_prefix_cons] at h
      have := ih p (fun e => ha (by simp [e])) (fun e => hp (by simp [e])) h.2
      rw [h.1, this]

theorem splitAll_head (sep : Str) (hsep : sep ≠ []) (k : Nat) (b : Str) (hk : b.length ≤ k) :
    ∃ tl, splitAll sep k b = splitHead sep b :: tl := by
  cases k with
  | zero =>
    have hb : b = [] := List.length_eq_zero.mp (Nat.le_zero.mp hk)
    subst hb
    exact ⟨[], by simp [splitAll, splitHead, cut, hsep]⟩
  | succ k =>
    cases hc : cut sep b with
    | none => exact ⟨[], by simp [splitAll, splitHead, hc]⟩
    | some p => exact ⟨splitAll sep k p.2, by simp [splitAll, splitHead, hc]⟩

theorem Split_of_cut (sep : Str) (hsep : sep ≠ []) (s pre b : Str)
    (h : cut sep s = some (pre, b)) :
    ∃ tl, Split s sep = pre :: splitHead sep b :: tl := by
  have hs := cut_some_eq sep s pre b h
  have hl : s.length = pre.length + sep.length + b.length := by
    rw [hs, List.length_append, List.length_append]
  have hpos : 0 < sep.length := List.length_pos.mpr hsep
  obtain ⟨k, hk⟩ : ∃ k, s.length = k + 1 := ⟨s.length - 1, by omega⟩
  obtain ⟨tl, htl⟩ := splitAll_head sep hsep k b (by omega)
  refine ⟨tl, ?_⟩
  unfold Split
  rw [hk]
  simp [splitAll, h, htl]

theorem infix_split_at_absent (y : Char) (sep a b : Str) (hy : y ∉ sep)
    (h : sep <:+: a ++ y :: b) : sep <:+: a ∨ sep <:+: b := by
  obtain ⟨l1, l2, h⟩ := h
  rw [List.append_eq_append_iff] at h
  rcases h with ⟨a1, ha, hb⟩ | ⟨c1, hc, hd⟩
  · -- a = (l1 ++ sep) ++ a1
    left
    exact ⟨l1, a1, ha.symm⟩
  · -- l1 ++ sep = a ++ c1, y :: b = c1 ++ l2
    cases c1 with
    | nil =>
      left
      exact ⟨l1, [], by simpa using hc⟩
    | cons z c2 =>
      simp only [List.cons_append, List.cons.injEq] at hd
      obtain ⟨hz, hb⟩ := hd
      subst hz
      rw [List.append_eq_append_iff] at hc
      rcases hc with ⟨d, hd1, hd2⟩ | ⟨e, he1, he2⟩
      · -- a = l1 ++ d, sep = d ++ y :: c2
        exact absurd (by simp [hd2]) hy
      · -- l1 = a ++ e, y :: c2 = e ++ sep
        cases e with
        | nil =>
          simp only [List.nil_append] at he2
          exact absurd (by simp [← he2]) hy
        | cons z e2 =>
          simp only [List.cons_append, List.cons.injEq] at he2
          right
          exact ⟨e2, l2, by rw [hb, he2.2]⟩

theorem append_sep_shape (c : Char) (post rr : Str) :
    ∀ (v w : Str), c ∉ v → v ++ c :: post = w ++ c :: rr →
      w = v ∨ ∃ t, w = v ++ c :: t := by
  intro v
  induction v with
  | nil =>
    intro w _ h
    cases w with
    | nil => exact Or.inl rfl
    | cons y w1 =>
      simp only [List.nil_append, List.cons_append, List.cons.injEq] at h
      exact Or.inr ⟨w1, by simp [h.1]⟩
  | cons x v ih =>
    intro w hv h
    cases w with
    | nil =>
      simp only [List.nil_append, List.cons_append, List.cons.injEq] at h
      exact absurd (by simp [h.1]) hv
    | cons y w1 =>
      simp only [List.cons_append, List.cons.injEq] at h
      rcases ih w1 (fun e => hv (by simp [e])) h.2 with e | ⟨t, e⟩
      · exact Or.inl (by rw [h.1, e])
      · exact Or.inr ⟨t, by rw [h.1, e]; simp⟩

theorem sliceFrom_last (s : Str) (hs : s ≠ []) :
    sliceFrom s ((s.length : Int) - 1) = Except.ok [s.getLast hs] := by
  have hpos : 0 < s.length := List.length_pos.mpr hs
  have := sliceFrom_len_sub s 1 (by omega)
  rw [show ((1 : Nat) : Int) = 1 from rfl] at this
  have e : s.drop s.dropLast.length = [s.getLast hs] := by
    have h1 := List.drop_left s.dropLast [s.getLast hs]
    rwa [List.dropLast_append_getLast hs] at h1
  rw [List.length_dropLast] at e
  rw [this, e]

theorem slice_first (x : Char) (s : Str) : slice (x :: s) 0 1 = Except.ok [x] := by
  have := slice_nat (x :: s) 0 1 (by omega) (by simp)
  simpa using this

/-! ## Body extraction -/

/-- C1 (code defect): on a text whose only blank-line separator is `\n\n`
(here `h\n\nbody`, which holds no `\r\n\r\n`), `SGSIPParseBody` does not succeed
with the content after the separator: the variable assigned by the second split
is local to the `if` block, the later read of element 1 addresses the
one-element result of the first split, and the run stops on an index fault. -/
theorem SGSIPParseBody_lf_separator_faults :
    SGSIPParseBody "h\n\nbody".toList {} = Except.error Halt.fault := by
  decide

/-! ## URI parser -/

/-- C2 (code defect): for the URI `sip:alice;x=y@example.com` (scheme `sip`,
user part with user parameters, host `example.com` without `:` or `;`)
`SGSIPParseURI` does not succeed: the `;` found in the user part keeps the parser
off the bare-host exit, the search for `:` or `;` in the host yields `-1`, and the
slice `pHostPP[0:-1]` stops the run on a bounds fault, whatever `net.ParseIP`
answers. -/
theorem SGSIPParseURI_user_params_faults (parseIP : Str → Bool) :
    SGSIPParseURI parseIP "sip:alice;x=y@example.com".toList {} = Except.error Halt.fault := by
  rfl

theorem SGSIPSetProto_proto_ne (s pv : Str) (pid : Int) (h : pv ≠ []) :
    (SGSIPSetProto s pv pid).2.1 ≠ [] := by
  unfold SGSIPSetProto
  split_ifs <;> simp [h]

theorem okp_bind {α : Type} (x : Exec α) (f : α → Exec (Int × SGSIPURI))
    (h : ∀ a, OKProto (f a)) : OKProto (x >>= f) := by
  intro r hr
  obtain ⟨a, -, ha⟩ := (exec_bind_eq_ok x f _).mp hr
  exact h a r ha

theorem okp_ite (c : Prop) [Decidable c] (a b : Exec (Int × SGSIPURI))
    (ha : c → OKProto a) (hb : ¬ c → OKProto b) : OKProto (if c then a else b) := by
  split_ifs with h
  · exact ha h
  · exact hb h

theorem okp_pure (c : Int) (u : SGSIPURI) (h : c = SGSIPRetOK → u.Proto ≠ []) :
    OKProto (pure (c, u)) := by
  intro r hr
  simp only [exec_pure, Except.ok.injEq, Prod.mk.injEq] at hr
  rw [← hr.2]
  exact h hr.1

theorem parseURIParams_proto (u pp : Str) (uri : SGSIPURI) :
    OKProto (parseURIParams u pp uri) := by
  unfold parseURIParams
  repeat' first
    | (with_reducible apply okp_ite <;> intro _)
    | (with_reducible apply okp_bind; intro _)
    | (with_reducible apply okp_pure; intro hc; dsimp only; first
        | exact absurd hc (by decide)
        | exact SGSIPSetProto_proto_ne _ _ _ (by decide)
        | decide)

theorem parseURIPortParams_proto (u pp : Str) (uri : SGSIPURI) :
    OKProto (parseURIPortParams u pp uri) := by
  unfold parseURIPortParams
  repeat' first
    | with_reducible exact parseURIParams_proto _ _ _
    | (with_reducible apply okp_ite <;> intro _)
    | (with_reducible apply okp_bind; intro _)
    | (with_reducible apply okp_pure; intro hc; dsimp only; first
        | exact absurd hc (by decide)
        | decide)

theorem parseURIHost_proto (parseIP : Str → Bool) (u pHostPP : Str) (colPos scPos : Int)
    (uri : SGSIPURI) : OKProto (parseURIHost parseIP u pHostPP colPos scPos uri) := by
  unfold parseURIHost
  repeat' first
    | with_reducible exact parseURIPortParams_proto _ _ _
    | (with_reducible apply okp_ite <;> intro _)
    | (with_reducible apply okp_bind; intro _)
    | (with_reducible apply okp_pure; intro hc; dsimp only; first
        | exact absurd hc (by decide)
        | decide)

theorem SGSIPParseURI_proto (parseIP : Str → Bool) (u : Str) (uri : SGSIPURI) :
    OKProto (SGSIPParseURI parseIP u uri) := by
  unfold SGSIPParseURI
  repeat' first
    | with_reducible exact parseURIHost_proto _ _ _ _ _ _
    | (with_reducible apply okp_ite <;> intro _)
    | (with_reducible apply okp_bind; intro _)
    | (with_reducible apply okp_pure; intro hc; dsimp only; first
        | exact absurd hc (by decide)
        | contradiction
        | decide)

theorem SGAddrTypeEx_total (parseIP : Str → Bool) (addr : Str) (h : addr ≠ []) :
    ∃ t, SGAddrTypeEx parseIP addr = Except.ok t := by
  obtain ⟨x, s, rfl⟩ := List.exists_cons_of_ne_nil h
  unfold SGAddrTypeEx
  rw [slice_first, exec_bind_ok]
  split_ifs with h1
  · rw [sliceFrom_last (x :: s) (by simp), exec_bind_ok]
    split_ifs with h2
    · exact ⟨_, rfl⟩
    · have hl : 2 ≤ (x :: s).length := by
        simp only [List.cons.injEq, and_true] at h1
        simp only [ne_eq, List.cons.injEq, and_true, not_not] at h2
        cases s with
        | nil =>
          simp only [List.getLast_singleton] at h2
          rw [h1] at h2
          exact absurd h2 (by decide)
        | cons y s => simp
      have e := slice_len_sub (x :: s) 1 1 (by omega)
      rw [show ((1 : Nat) : Int) = 1 from rfl] at e
      rw [e, exec_bind_ok]
      split_ifs <;> exact ⟨_, rfl⟩
  · exact ⟨_, rfl⟩

theorem SGSIPURIToSocketAddress_fields (parseIP : Str → Bool) (uri : SGSIPURI)
    (sa0 : SGSIPSocketAddress) (hp : uri.Proto ≠ []) (ha : uri.Addr ≠ [])
    (hpt : uri.Port ≠ []) :
    ∃ sa, SGSIPURIToSocketAddress parseIP uri sa0 = Except.ok (SGSIPRetOK, sa) ∧
      sa.Addr = uri.Addr ∧ sa.Port = uri.Port ∧ sa.PortNo = uri.PortNo ∧
      sa.Proto = uri.Proto ∧ sa.ProtoId = uri.ProtoId := by
  obtain ⟨t, ht⟩ := SGAddrTypeEx_total parseIP uri.Addr ha
  have h1 : uri.Proto.length > 0 := List.length_pos.mpr hp
  have h2 : uri.Addr.length > 0 := List.length_pos.mpr ha
  have h3 : uri.Port.length > 0 := List.length_pos.mpr hpt
  unfold SGSIPURIToSocketAddress
  simp only [h1, h2, h3, if_true, ht, exec_bind_ok, exec_pure]
  exact ⟨_, rfl, rfl, rfl, rfl, rfl, rfl⟩

theorem SGSocketAddressToSIPURI_fields (parseIP : Str → Bool) (sa : SGSIPSocketAddress)
    (user : Str) (tmode : Int) (uri0 : SGSIPURI) (hp : sa.Proto ≠ []) (ha : sa.Addr ≠ [])
    (hpt : sa.Port ≠ []) :
    ∃ uri, SGSocketAddressToSIPURI parseIP sa user tmode uri0 = Except.ok (SGSIPRetOK, uri) ∧
      uri.Addr = sa.Addr ∧ uri.Port = sa.Port ∧ uri.PortNo = sa.PortNo ∧
      uri.Proto = sa.Proto ∧ uri.ProtoId = sa.ProtoId := by
  obtain ⟨t, ht⟩ := SGAddrTypeEx_total parseIP sa.Addr ha
  have h1 : sa.Proto.length > 0 := List.length_pos.mpr hp
  have h2 : sa.Addr.length > 0 := List.length_pos.mpr ha
  have h3 : sa.Port.length > 0 := List.length_pos.mpr hpt
  unfold SGSocketAddressToSIPURI
  simp only [h1, h2, h3, if_true, ht, exec_bind_ok, exec_pure]
  split_ifs <;> exact ⟨_, rfl, rfl, rfl, rfl, rfl, rfl⟩

/-- C4 (amended): for every URI text `u` with an explicit `;transport=` parameter
that `SGSIPParseURI` accepts into a fresh value with a non-empty host and a
non-empty port, converting the parsed URI to a socket address and back (empty
user, transport mode 1, fresh values) succeeds and yields a URI with the same
address, the same port (text and number) and the same transport (text and id),
whatever `net.ParseIP` answers. -/
theorem uri_sockaddr_roundtrip (parseIP : Str → Bool) (u : Str) (uri : SGSIPURI)
    (hparse : SGSIPParseURI parseIP u {} = Except.ok (SGSIPRetOK, uri))
    (_htr : ";transport=".toList <:+: u)
    (haddr : uri.Addr ≠ []) (hport : uri.Port ≠ []) :
    ∃ (sa : SGSIPSocketAddress) (uri2 : SGSIPURI),
      SGSIPURIToSocketAddress parseIP uri {} = Except.ok (SGSIPRetOK, sa) ∧
      SGSocketAddressToSIPURI parseIP sa [] 1 {} = Except.ok (SGSIPRetOK, uri2) ∧
      uri2.Addr = uri.Addr ∧ uri2.Port = uri.Port ∧ uri2.PortNo = uri.PortNo ∧
      uri2.Proto = uri.Proto ∧ uri2.ProtoId = uri.ProtoId := by
  have hp : uri.Proto ≠ [] := SGSIPParseURI_proto parseIP u {} uri hparse
  obtain ⟨sa, hsa, e1, e2, e3, e4, e5⟩ :=
    SGSIPURIToSocketAddress_fields parseIP uri {} hp haddr hport
  obtain ⟨uri2, hu, f1, f2, f3, f4, f5⟩ :=
    SGSocketAddressToSIPURI_fields parseIP sa [] 1 {} (by rw [e4]; exact hp)
      (by rw [e1]; exact haddr) (by rw [e2]; exact hport)
  exact ⟨sa, uri2, hsa, hu, by rw [f1, e1], by rw [f2, e2], by rw [f3, e3], by rw [f4, e4],
    by rw [f5, e5]⟩

/-- Witness for the amended C4 at `sip:alice@example.com:5070;transport=tcp`. -/
theorem uri_sockaddr_roundtrip_witness :
    ∃ (sa : SGSIPSocketAddress) (uri2 : SGSIPURI),
      SGSIPURIToSocketAddress noIPLiteral
        { Val := "sip:alice@example.com:5070;transport=tcp".toList, Schema := "sip".toList,
          SchemaId := SchemaSIP, User := "alice".toList, Addr := "example.com".toList,
          Port := "5070".toList, PortNo := 5070, Params := "transport=tcp".toList,
          Proto := "tcp".toList, ProtoId := ProtoTCP, AType := AFHost } {} =
        Except.ok (SGSIPRetOK, sa) ∧
      SGSocketAddressToSIPURI noIPLiteral sa [] 1 {} = Except.ok (SGSIPRetOK, uri2) ∧
      uri2.Addr = "example.com".toList ∧ uri2.Port = "5070".toList ∧ uri2.PortNo = 5070 ∧
      uri2.Proto = "tcp".toList ∧ uri2.ProtoId = ProtoTCP :=
  uri_sockaddr_roundtrip noIPLiteral "sip:alice@example.com:5070;transport=tcp".toList
    { Val := "sip:alice@example.com:5070;transport=tcp".toList, Schema := "sip".toList,
      SchemaId := SchemaSIP, User := "alice".toList, Addr := "example.com".toList,
      Port := "5070".toList, PortNo := 5070, Params := "transport=tcp".toList,
      Proto := "tcp".toList, ProtoId := ProtoTCP, AType := AFHost }
    (by decide) (by decide) (by decide) (by decide)

/-- C4 as stated fails: `sip:host;transport=tcp` is accepted with an empty port
text and port number 0, and the round trip yields port `5060` / 5060;
`sip::5060;transport=tcp` is accepted with an empty host, and the round trip
yields the address `127.0.0.1`. -/
theorem uri_sockaddr_roundtrip_counterexample :
    (∃ (uri : SGSIPURI) (sa : SGSIPSocketAddress) (uri2 : SGSIPURI),
      SGSIPParseURI noIPLiteral "sip:host;transport=tcp".toList {} =
        Except.ok (SGSIPRetOK, uri) ∧
      SGSIPURIToSocketAddress noIPLiteral uri {} = Except.ok (SGSIPRetOK, sa) ∧
      SGSocketAddressToSIPURI noIPLiteral sa [] 1 {} = Except.ok (SGSIPRetOK, uri2) ∧
      uri.Port = [] ∧ uri2.Port = "5060".toList ∧ uri.PortNo = 0 ∧ uri2.PortNo = 5060) ∧
    (∃ (uri : SGSIPURI) (sa : SGSIPSocketAddress) (uri2 : SGSIPURI),
      SGSIPParseURI noIPLiteral "sip::5060;transport=tcp".toList {} =
        Except.ok (SGSIPRetOK, uri) ∧
      SGSIPURIToSocketAddress noIPLiteral uri {} = Except.ok (SGSIPRetOK, sa) ∧
      SGSocketAddressToSIPURI noIPLiteral sa [] 1 {} = Except.ok (SGSIPRetOK, uri2) ∧
      uri.Addr = [] ∧ uri2.Addr = "127.0.0.1".toList) :=
  ⟨⟨_, _, _, rfl, rfl, rfl, rfl, rfl, rfl, rfl⟩, ⟨_, _, _, rfl, rfl, rfl, rfl, rfl⟩⟩

/-! ## Socket address parser -/

/-- C3 (code defect): parsing the bracketed literal `[::1]` into a freshly
constructed socket-address value does not succeed: the classifier is applied
to the still empty `Addr` field of the value instead of the input, and its first
slice `addr[0:1]` stops the run on a bounds fault, whatever `net.ParseIP`
answers. -/
theorem SGSIPParseSocketAddress_bracketed_fresh_faults (parseIP : Str → Bool) :
    SGSIPParseSocketAddress parseIP "[::1]".toList {} = Except.error Halt.fault := by
  rfl

/-! ## Start line parser -/

/-- C6: for a method token `m` of at least 3 bytes and a URI token `u` of at
least 5 bytes, neither holding a space, tab, CR or LF, with `m` different from
`SIP/2.0`, `SGSIPParseFirstLine` on `m u SIP/2.0\r\n` followed by any text
returns OK with kind request, `Method = m` and `URI = u` (and `Val` the line
without its terminator); the other fields of the value passed in are kept. -/
theorem SGSIPParseFirstLine_request (m u rest : Str) (fl : SGSIPFirstLine)
    (hm : 3 ≤ m.length) (hu : 5 ≤ u.length)
    (hmc : ∀ c ∈ m, c ≠ ' ' ∧ c ≠ '\t' ∧ c ≠ '\r' ∧ c ≠ '\n')
    (huc : ∀ c ∈ u, c ≠ ' ' ∧ c ≠ '\t' ∧ c ≠ '\r' ∧ c ≠ '\n')
    (hne : m ≠ "SIP/2.0".toList) :
    SGSIPParseFirstLine (m ++ [' '] ++ u ++ " SIP/2.0\r\n".toList ++ rest) fl =
      Except.ok (SGSIPRetOK, { fl with
        MType := FLineRequest, Val := m ++ [' '] ++ u ++ " SIP/2.0".toList,
        Method := m, URI := u }) := by
  obtain ⟨x, m1, hxm⟩ : ∃ x m1, m = x :: m1 := by
    cases m with
    | nil => simp at hm
    | cons x m1 => exact ⟨x, m1, rfl⟩
  have hx : x ∉ wsCR := by
    have := hmc x (by simp [hxm])
    simp [wsCR, this.1, this.2.1, this.2.2.1]
  have hin : m ++ [' '] ++ u ++ " SIP/2.0\r\n".toList ++ rest =
      ((m ++ ' ' :: u) ++ " SIP/2.0\r".toList) ++ '\n' :: rest := by simp
  have hnl : '\n' ∉ (m ++ ' ' :: u) ++ " SIP/2.0\r".toList := by
    intro h
    rcases List.mem_append.mp h with h | h
    · rcases List.mem_append.mp h with h | h
      · exact (hmc _ h).2.2.2 rfl
      · rcases List.mem_cons.mp h with h | h
        · exact absurd h (by decide)
        · exact (huc _ h).2.2.2 rfl
    · revert h
      decide
  have hcut := cut_single_of_not_mem '\n' _ rest hnl
  have htrim : Trim ((m ++ ' ' :: u) ++ " SIP/2.0\r".toList) wsCR =
      (m ++ ' ' :: u) ++ " SIP/2.0".toList := by
    unfold Trim
    have e0 : (m ++ ' ' :: u) ++ " SIP/2.0\r".toList =
        x :: (m1 ++ ' ' :: u ++ " SIP/2.0\r".toList) := by simp [hxm]
    rw [e0, TrimLeft_of_head x _ wsCR hx]
    have e : x :: (m1 ++ ' ' :: u ++ " SIP/2.0\r".toList) =
        ((m ++ ' ' :: u) ++ " SIP/2.".toList) ++ ['0'] ++ ['\r'] := by simp [hxm]
    rw [e, TrimRight_concat_drop _ wsCR '\r' (by decide),
      TrimRight_concat_keep _ wsCR '0' (by decide)]
    simp
  have hlen : ((m ++ ' ' :: u) ++ " SIP/2.0".toList).length = (m ++ ' ' :: u).length + 8 := by
    rw [List.length_append]
    rfl
  have hfirst : slice ((m ++ ' ' :: u) ++ " SIP/2.0".toList) 0 8 =
      Except.ok (((m ++ ' ' :: u) ++ " SIP/2.0".toList).take 8) := by
    have := slice_nat ((m ++ ' ' :: u) ++ " SIP/2.0".toList) 0 8 (by omega) (by omega)
    simpa using this
  have hne8 : ((m ++ ' ' :: u) ++ " SIP/2.0".toList).take 8 ≠ "SIP/2.0 ".toList := by
    intro h
    have hp : ("SIP/2.0".toList ++ ' ' :: []) <+: (m ++ ' ' :: (u ++ " SIP/2.0".toList)) := by
      have := List.take_prefix 8 ((m ++ ' ' :: u) ++ " SIP/2.0".toList)
      rw [h] at this
      simpa using this
    exact hne (sep_prefix_unique ' ' _ _ m "SIP/2.0".toList
      (fun e => (hmc _ e).1 rfl) (by decide) hp)
  have hlast : sliceFrom ((m ++ ' ' :: u) ++ " SIP/2.0".toList)
      ((((m ++ ' ' :: u) ++ " SIP/2.0".toList).length : Int) - 8) =
      Except.ok " SIP/2.0".toList := by
    have := sliceFrom_len_sub ((m ++ ' ' :: u) ++ " SIP/2.0".toList) 8 (by omega)
    rw [show ((8 : Nat) : Int) = 8 from rfl] at this
    rw [this, hlen, Nat.add_sub_cancel, List.drop_left]
  have hmu : slice ((m ++ ' ' :: u) ++ " SIP/2.0".toList) 0
      ((((m ++ ' ' :: u) ++ " SIP/2.0".toList).length : Int) - 8) =
      Except.ok (m ++ ' ' :: u) := by
    have := slice_len_sub ((m ++ ' ' :: u) ++ " SIP/2.0".toList) 0 8 (by omega)
    rw [show ((8 : Nat) : Int) = 8 from rfl, show ((0 : Nat) : Int) = 0 from rfl] at this
    rw [this, hlen, Nat.add_sub_cancel, List.take_left, List.drop_zero]
  have hcut2 := cut_single_of_not_mem ' ' m u (fun e => (hmc _ e).1 rfl)
  have htm : Trim m wsCR = m :=
    Trim_of_all _ _ (fun c hc => by
      have := hmc c hc
      simp [wsCR, this.1, this.2.1, this.2.2.1])
  have htu : Trim u wsCR = u :=
    Trim_of_all _ _ (fun c hc => by
      have := huc c hc
      simp [wsCR, this.1, this.2.1, this.2.2.1])
  have hl8 : ¬ ((m ++ ' ' :: u) ++ " SIP/2.0".toList).length < 8 := by omega
  have hml : ¬ (m.length < 3 ∨ u.length < 5) := by omega
  rw [hin]
  unfold SGSIPParseFirstLine
  simp only [SplitN2, hcut, elemAt, List.get?, exec_bind_ok, htrim, hl8, if_false, hfirst,
    hne8, hlast, if_true, firstLineRequest, hmu, hcut2, hml, htm, htu, exec_pure]
  simp

theorem firstLineResponse_inv (s : Str) (f fl : SGSIPFirstLine)
    (h : firstLineResponse s f = Except.ok (SGSIPRetOK, fl)) :
    fl.MType = f.MType ∧ ∃ a b c : Char, fl.CodeVal = [a, b, c] ∧
      decDigit a = true ∧ decDigit b = true ∧ decDigit c = true ∧
      fl.Code = (((a.toNat - 48) * 100 + (b.toNat - 48) * 10 + (c.toNat - 48) : Nat) : Int) ∧
      100 ≤ fl.Code ∧ fl.Code ≤ 999 := by
  unfold firstLineResponse at h
  cases hs : sliceFrom s 8 with
  | error e => simp [hs] at h
  | ok strCR =>
    simp only [hs, exec_bind_ok] at h
    by_cases h5 : strCR.length < 5
    · simp [h5] at h
    · simp only [h5, if_false] at h
      cases hc : cut [' '] strCR with
      | none => simp [SplitN2, hc] at h
      | some p =>
        simp only [SplitN2, hc, elemAt, List.get?, List.length_cons, List.length_nil,
          exec_bind_ok] at h
        by_cases h3 : p.1.length ≠ 3
        · simp [h3] at h
        · simp only [h3, if_false] at h
          by_cases hr : (Atoi p.1).2 = true ∨ (Atoi p.1).1 < 100 ∨ (Atoi p.1).1 > 999
          · simp [hr] at h
          · simp only [hr, if_false, exec_pure, Except.ok.injEq, Prod.mk.injEq, true_and] at h
            have hlen : p.1.length = 3 := by
              by_contra hne
              exact h3 hne
            obtain ⟨a, b, c, habc⟩ : ∃ a b c, p.1 = [a, b, c] := by
              match hp : p.1, hlen with
              | [a, b, c], _ => exact ⟨a, b, c, rfl⟩
            have hr1 : (Atoi p.1).2 = false ∧ 100 ≤ (Atoi p.1).1 ∧ (Atoi p.1).1 ≤ 999 := by
              refine ⟨?_, ?_, ?_⟩
              · cases hb : (Atoi p.1).2 with
                | false => rfl
                | true => exact absurd (Or.inl hb) hr
              · by_contra hlt
                exact hr (Or.inr (Or.inl (by omega)))
              · by_contra hgt
                exact hr (Or.inr (Or.inr (by omega)))
            have hat : Atoi [a, b, c] = ((Atoi p.1).1, false) := by
              rw [← habc, ← hr1.1]
            obtain ⟨ha, hb, hc1, hv⟩ := Atoi_three_inv a b c _ hat hr1.2.1
            simp only [Nat.zero_add, Nat.reduceAdd, Nat.lt_irrefl, if_false, Except.ok.injEq,
              Prod.mk.injEq, true_and] at h
            subst h
            exact ⟨rfl, a, b, c, habc, ha, hb, hc1, hv, hr1.2.1, hr1.2.2⟩

theorem firstLineRequest_MType (s : Str) (f fl : SGSIPFirstLine) (code : Int)
    (h : firstLineRequest s f = Except.ok (code, fl)) : fl.MType = f.MType := by
  unfold firstLineRequest at h
  cases hs : slice s 0 ((s.length : Int) - 8) with
  | error e => simp [hs] at h
  | ok strMU =>
    simp only [hs, exec_bind_ok] at h
    cases hc : cut [' '] strMU with
    | none =>
      simp [SplitN2, hc] at h
      rw [← h.2]
    | some p =>
      simp only [SplitN2, hc, elemAt, List.get?, List.length_cons, List.length_nil,
        exec_bind_ok] at h
      by_cases hl : p.1.length < 3 ∨ p.2.length < 5
      · simp [hl] at h
        rw [← h.2]
      · simp [hl] at h
        rw [← h.2]

theorem firstLine_response_converse (input : Str) (fl0 fl : SGSIPFirstLine)
    (h : SGSIPParseFirstLine input fl0 = Except.ok (SGSIPRetOK, fl))
    (hk : fl.MType = FLineResponse) :
    ∃ a b c : Char, fl.CodeVal = [a, b, c] ∧
      decDigit a = true ∧ decDigit b = true ∧ decDigit c = true ∧
      fl.Code = (((a.toNat - 48) * 100 + (b.toNat - 48) * 10 + (c.toNat - 48) : Nat) : Int) ∧
      100 ≤ fl.Code ∧ fl.Code ≤ 999 := by
  unfold SGSIPParseFirstLine at h
  obtain ⟨a0, ha0⟩ : ∃ a0, elemAt (SplitN2 input ['\n']) 0 = Except.ok a0 := by
    unfold SplitN2
    cases cut ['\n'] input with
    | none => exact ⟨_, rfl⟩
    | some p => exact ⟨_, rfl⟩
  simp only [ha0, exec_bind_ok] at h
  by_cases h8 : (Trim a0 wsCR).length < 8
  · simp [h8] at h
  · simp only [h8, if_false] at h
    cases hf : slice (Trim a0 wsCR) 0 8 with
    | error e => simp [hf] at h
    | ok first8 =>
      simp only [hf, exec_bind_ok] at h
      by_cases hr : first8 = "SIP/2.0 ".toList
      · simp only [hr, if_true] at h
        exact (firstLineResponse_inv _ _ _ h).2
      · simp only [hr, if_false] at h
        cases hl : sliceFrom (Trim a0 wsCR) (((Trim a0 wsCR).length : Int) - 8) with
        | error e => simp [hl] at h
        | ok last8 =>
          simp only [hl, exec_bind_ok] at h
          by_cases hq : last8 = " SIP/2.0".toList
          · simp only [hq, if_true] at h
            have := firstLineRequest_MType _ _ _ _ h
            rw [hk] at this
            simp at this
          · rw [if_neg hq] at h
            simp at h

theorem decDigit_not_ws (a : Char) (ha : decDigit a = true) :
    a ≠ ' ' ∧ a ≠ '\n' ∧ a ∉ wsCR := by
  refine ⟨?_, ?_, ?_⟩
  · intro e
    rw [e] at ha
    revert ha
    decide
  · intro e
    rw [e] at ha
    revert ha
    decide
  · intro e
    simp only [wsCR, List.mem_cons, List.mem_singleton, List.not_mem_nil, or_false] at e
    rcases e with e | e | e <;>
    · rw [e] at ha
      revert ha
      decide

theorem firstLine_response_forward (a b c : Char) (r tail : Str) (fl : SGSIPFirstLine)
    (ha : decDigit a = true) (hb : decDigit b = true) (hc : decDigit c = true)
    (hv : 100 ≤ (a.toNat - 48) * 100 + (b.toNat - 48) * 10 + (c.toNat - 48))
    (hnl : '\n' ∉ r) (hr : ∃ x ∈ r, x ∉ wsCR)
    (htail : tail = [] ∨ ∃ rest, tail = '\n' :: rest) :
    SGSIPParseFirstLine ("SIP/2.0 ".toList ++ [a, b, c] ++ [' '] ++ r ++ tail) fl =
      Except.ok (SGSIPRetOK, { fl with
        MType := FLineResponse,
        Val := "SIP/2.0 ".toList ++ [a, b, c] ++ [' '] ++ TrimRight r wsCR,
        Code := (((a.toNat - 48) * 100 + (b.toNat - 48) * 10 + (c.toNat - 48) : Nat) : Int),
        CodeVal := [a, b, c],
        Reason := Trim r wsCR }) := by
  have ha1 : 48 ≤ a.toNat ∧ a.toNat ≤ 57 := by simpa [decDigit] using ha
  have hb1 : 48 ≤ b.toNat ∧ b.toNat ≤ 57 := by simpa [decDigit] using hb
  have hc1 : 48 ≤ c.toNat ∧ c.toNat ≤ 57 := by simpa [decDigit] using hc
  have hline : '\n' ∉ "SIP/2.0 ".toList ++ [a, b, c] ++ [' '] ++ r := by
    intro h
    rcases List.mem_append.mp h with h | h
    · rcases List.mem_append.mp h with h | h
      · rcases List.mem_append.mp h with h | h
        · revert h
          decide
        · simp only [List.mem_cons, List.mem_singleton, List.not_mem_nil, or_false] at h
          rcases h with h | h | h
          · exact (decDigit_not_ws a ha).2.1 h.symm
          · exact (decDigit_not_ws b hb).2.1 h.symm
          · exact (decDigit_not_ws c hc).2.1 h.symm
      · revert h
        decide
    · exact hnl h
  have hsplit : elemAt (SplitN2 ("SIP/2.0 ".toList ++ [a, b, c] ++ [' '] ++ r ++ tail) ['\n']) 0 =
      Except.ok ("SIP/2.0 ".toList ++ [a, b, c] ++ [' '] ++ r) := by
    rcases htail with h | ⟨rest, h⟩
    · subst h
      rw [List.append_nil, SplitN2_of_none _ _ (cut_single_none '\n' _ hline)]
      rfl
    · subst h
      rw [SplitN2_of_cut _ _ _ _ (cut_single_of_not_mem '\n' _ rest hline)]
      rfl
  have htrim : Trim ("SIP/2.0 ".toList ++ [a, b, c] ++ [' '] ++ r) wsCR =
      "SIP/2.0 ".toList ++ ([a, b, c] ++ ' ' :: TrimRight r wsCR) := by
    unfold Trim
    have e0 : "SIP/2.0 ".toList ++ [a, b, c] ++ [' '] ++ r =
        'S' :: ("IP/2.0 ".toList ++ [a, b, c] ++ [' '] ++ r) := by simp
    rw [e0, TrimLeft_of_head 'S' _ wsCR (by decide)]
    have e1 : 'S' :: ("IP/2.0 ".toList ++ [a, b, c] ++ [' '] ++ r) =
        ("SIP/2.0 ".toList ++ [a, b, c] ++ [' ']) ++ r := by simp
    rw [e1, TrimRight_append_keep _ r wsCR hr]
    simp
  have hrne : TrimRight r wsCR ≠ [] := by
    intro h
    unfold TrimRight at h
    rw [List.rdropWhile_eq_nil_iff] at h
    obtain ⟨x, hx, hn⟩ := hr
    have := h x hx
    simp at this
    exact hn this
  have hl8 : ¬ ("SIP/2.0 ".toList ++ ([a, b, c] ++ ' ' :: TrimRight r wsCR)).length < 8 := by
    rw [List.length_append]
    have : "SIP/2.0 ".toList.length = 8 := rfl
    omega
  have hfirst : slice ("SIP/2.0 ".toList ++ ([a, b, c] ++ ' ' :: TrimRight r wsCR)) 0 8 =
      Except.ok "SIP/2.0 ".toList := by
    have := slice_nat ("SIP/2.0 ".toList ++ ([a, b, c] ++ ' ' :: TrimRight r wsCR)) 0 8
      (by omega) (by omega)
    rw [show ((8 : Nat) : Int) = 8 from rfl, show ((0 : Nat) : Int) = 0 from rfl] at this
    rw [this, List.drop_zero]
    congr 1
  have hcr : sliceFrom ("SIP/2.0 ".toList ++ ([a, b, c] ++ ' ' :: TrimRight r wsCR)) 8 =
      Except.ok ([a, b, c] ++ ' ' :: TrimRight r wsCR) := by
    have := sliceFrom_nat ("SIP/2.0 ".toList ++ ([a, b, c] ++ ' ' :: TrimRight r wsCR)) 8
      (by omega)
    rw [show ((8 : Nat) : Int) = 8 from rfl] at this
    rw [this]
    congr 1
  have hl5 : ¬ ([a, b, c] ++ ' ' :: TrimRight r wsCR).length < 5 := by
    have : 0 < (TrimRight r wsCR).length := List.length_pos.mpr hrne
    simp
    omega
  have hcut2 : cut [' '] ([a, b, c] ++ ' ' :: TrimRight r wsCR) =
      some ([a, b, c], TrimRight r wsCR) := by
    apply cut_single_of_not_mem
    intro h
    simp only [List.mem_cons, List.mem_singleton, List.not_mem_nil, or_false] at h
    rcases h with h | h | h
    · exact (decDigit_not_ws a ha).1 h.symm
    · exact (decDigit_not_ws b hb).1 h.symm
    · exact (decDigit_not_ws c hc).1 h.symm
  have hrange : ¬ ((Atoi [a, b, c]).2 = true ∨ (Atoi [a, b, c]).1 < 100 ∨
      (Atoi [a, b, c]).1 > 999) := by
    rw [Atoi_three_digits a b c ha hb hc]
    simp only [Bool.false_eq_true, false_or, not_or, not_lt, gt_iff_lt]
    omega
  have hS2 := SplitN2_of_cut _ _ _ _ hcut2
  unfold SGSIPParseFirstLine
  simp only [hsplit, exec_bind_ok]
  simp only [exec_bind_ok, htrim, hl8, if_false, hfirst, if_true, firstLineResponse,
    hcr, hl5, hS2, elemAt, List.get?, hrange, exec_pure, Trim_TrimRight,
    Atoi_three_digits a b c ha hb hc]
  simp
  omega

/-- C5: (1) for every input whose first line is `SIP/2.0 ` followed by three
decimal digits `a b c` of value at least 100, a space and a text `r` holding
some byte other than space, tab and CR (the line being the whole input or
ended by LF), `SGSIPParseFirstLine` returns OK with kind response, `Code` the
value of the digits, `CodeVal` the three digits as written and `Reason` equal to
`r` trimmed of space, tab and CR; (2) whenever `SGSIPParseFirstLine` returns OK
with kind response, `CodeVal` is exactly three decimal digits, `Code` is their
value and `100 ≤ Code ≤ 999`. -/
theorem SGSIPParseFirstLine_response :
    (∀ (a b c : Char) (r tail : Str) (fl : SGSIPFirstLine),
      decDigit a = true → decDigit b = true → decDigit c = true →
      100 ≤ (a.toNat - 48) * 100 + (b.toNat - 48) * 10 + (c.toNat - 48) →
      '\n' ∉ r → (∃ x ∈ r, x ∉ wsCR) → (tail = [] ∨ ∃ rest, tail = '\n' :: rest) →
      SGSIPParseFirstLine ("SIP/2.0 ".toList ++ [a, b, c] ++ [' '] ++ r ++ tail) fl =
        Except.ok (SGSIPRetOK, { fl with
          MType := FLineResponse,
          Val := "SIP/2.0 ".toList ++ [a, b, c] ++ [' '] ++ TrimRight r wsCR,
          Code := (((a.toNat - 48) * 100 + (b.toNat - 48) * 10 + (c.toNat - 48) : Nat) : Int),
          CodeVal := [a, b, c],
          Reason := Trim r wsCR })) ∧
    (∀ (input : Str) (fl0 fl : SGSIPFirstLine),
      SGSIPParseFirstLine input fl0 = Except.ok (SGSIPRetOK, fl) →
      fl.MType = FLineResponse →
      ∃ a b c : Char, fl.CodeVal = [a, b, c] ∧
        decDigit a = true ∧ decDigit b = true ∧ decDigit c = true ∧
        fl.Code = (((a.toNat - 48) * 100 + (b.toNat - 48) * 10 + (c.toNat - 48) : Nat) : Int) ∧
        100 ≤ fl.Code ∧ fl.Code ≤ 999) :=
  ⟨fun a b c r tail fl ha hb hc hv hnl hr ht =>
      firstLine_response_forward a b c r tail fl ha hb hc hv hnl hr ht,
   fun input fl0 fl h hk => firstLine_response_converse input fl0 fl h hk⟩

/-- Witness for C5 at `SIP/2.0 200 OK\r\n` followed by a header block: the
status line parses to code 200 with reason `OK`. -/
theorem SGSIPParseFirstLine_response_witness :
    SGSIPParseFirstLine
        ("SIP/2.0 ".toList ++ ['2', '0', '0'] ++ [' '] ++ "OK\r".toList ++ "\nVia: x\r\n\r\n".toList)
        {} =
      Except.ok (SGSIPRetOK, { ({} : SGSIPFirstLine) with
        MType := FLineResponse,
        Val := "SIP/2.0 ".toList ++ ['2', '0', '0'] ++ [' '] ++ TrimRight "OK\r".toList wsCR,
        Code := ((('2'.toNat - 48) * 100 + ('0'.toNat - 48) * 10 + ('0'.toNat - 48) : Nat) : Int),
        CodeVal := ['2', '0', '0'],
        Reason := Trim "OK\r".toList wsCR }) ∧
    Trim "OK\r".toList wsCR = "OK".toList :=
  ⟨SGSIPParseFirstLine_response.1 '2' '0' '0' "OK\r".toList "\nVia: x\r\n\r\n".toList {}
      (by decide) (by decide) (by decide) (by decide) (by decide) (by decide)
      (Or.inr ⟨"Via: x\r\n\r\n".toList, by decide⟩),
   by decide⟩

/-- Witness for C6 at `INVITE sip:bob@biloxi.com SIP/2.0\r\n` followed by a
header block. -/
theorem SGSIPParseFirstLine_request_witness :
    SGSIPParseFirstLine
        ("INVITE".toList ++ [' '] ++ "sip:bob@biloxi.com".toList ++ " SIP/2.0\r\n".toList
          ++ "Via: x\r\n\r\n".toList) {} =
      Except.ok (SGSIPRetOK, { ({} : SGSIPFirstLine) with
        MType := FLineRequest,
        Val := "INVITE".toList ++ [' '] ++ "sip:bob@biloxi.com".toList ++ " SIP/2.0".toList,
        Method := "INVITE".toList, URI := "sip:bob@biloxi.com".toList }) :=
  SGSIPParseFirstLine_request "INVITE".toList "sip:bob@biloxi.com".toList
    "Via: x\r\n\r\n".toList {} (by decide) (by decide) (by decide) (by decide) (by decide)

/-! ## Parameter extraction -/

theorem paramsGet_close (s n : Str) (vmode : Int) (pv : SGSIPParam) (hs : s ≠ []) :
    (sliceFrom s ((s.length : Int) - 1) >>= fun t =>
      paramsGetFrom (if t ≠ [';'] then s ++ [';'] else s) n vmode pv) =
    paramsGetFrom (if s.getLast? = some ';' then s else s ++ [';']) n vmode pv := by
  rw [sliceFrom_last s hs, exec_bind_ok, List.getLast?_eq_getLast s hs]
  by_cases h : s.getLast hs = ';'
  · simp [h]
  · simp [h]

theorem SGSIPParamsGet_bounded (p n : Str) (vmode : Int) (pv : SGSIPParam)
    (hp : p ≠ []) (hl : n.length ≤ p.length) :
    SGSIPParamsGet p n vmode pv = paramsGetFrom (semicolonBounded p) n vmode pv := by
  obtain ⟨x, t, rfl⟩ := List.exists_cons_of_ne_nil hp
  have hl1 : ¬ (x :: t).length < n.length := by omega
  unfold SGSIPParamsGet semicolonBounded
  simp only [hl1, if_false, slice_first, exec_bind_ok]
  by_cases hx : x = ';'
  · subst hx
    have := paramsGet_close (';' :: t) n vmode pv (by simp)
    simpa using this
  · have := paramsGet_close (';' :: x :: t) n vmode pv (by simp)
    simpa [hx] using this

theorem paramsGetFrom_of_cut (pStr n pre b : Str) (vmode : Int) (pv : SGSIPParam)
    (hbare : cut (';' :: (n ++ [';'])) pStr = none)
    (hcut : cut (';' :: (n ++ ['='])) pStr = some (pre, b)) :
    paramsGetFrom pStr n vmode pv =
      paramsGetSecond (splitHead (';' :: (n ++ ['='])) b) n vmode pv := by
  obtain ⟨tl, htl⟩ := Split_of_cut (';' :: (n ++ ['='])) (by simp) pStr pre b hcut
  unfold paramsGetFrom
  simp [Index, hbare, htl, elemAt]

theorem paramsGetSecond_bare (v t n : Str) (vmode : Int) (pv : SGSIPParam)
    (hv : v ≠ []) (hvq : v.head? ≠ some '\"') (hvs : ';' ∉ v)
    (ht : t = [] ∨ ∃ t1, t = ';' :: t1) :
    paramsGetSecond (v ++ t) n vmode pv =
      Except.ok (SGSIPRetOK, { pv with Name := n, Value := v, PMode := ParamValBare }) := by
  obtain ⟨x, v1, rfl⟩ := List.exists_cons_of_ne_nil hv
  have hx : x ≠ '\"' := by
    intro e
    exact hvq (by simp [e])
  have hq : ¬ ([x] = ['\"']) := by simpa using hx
  unfold paramsGetSecond
  rw [List.cons_append, slice_first, exec_bind_ok, if_neg hq]
  rcases ht with ht | ⟨t1, ht⟩
  · subst ht
    have hc : cut [';'] (x :: v1) = none := cut_single_none ';' _ hvs
    simp [paramsGetValue, Index, hc]
  · subst ht
    have hc : cut [';'] (x :: v1 ++ ';' :: t1) = some (x :: v1, t1) :=
      cut_single_of_not_mem ';' _ t1 hvs
    have hsl := slice_nat (x :: v1 ++ ';' :: t1) 0 (x :: v1).length (by omega) (by simp)
    rw [List.drop_zero, List.take_left] at hsl
    rw [← List.cons_append]
    unfold paramsGetValue Index
    rw [hc]
    simp only [Int.add_zero]
    have hneg : ¬ (((x :: v1).length : Int) < 0) := by omega
    rw [if_neg hneg]
    rw [show ((0 : Nat) : Int) = 0 from rfl] at hsl
    rw [hsl]
    rfl

theorem splitHead_shape (n v post : Str) (hvs : ';' ∉ v) :
    ∃ t, splitHead (';' :: (n ++ ['='])) (v ++ ';' :: post) = v ++ t ∧
      (t = [] ∨ ∃ t1, t = ';' :: t1) := by
  unfold splitHead
  cases hc : cut (';' :: (n ++ ['='])) (v ++ ';' :: post) with
  | none => exact ⟨';' :: post, rfl, Or.inr ⟨post, rfl⟩⟩
  | some p =>
    have h := cut_some_eq _ _ p.1 p.2 hc
    have h1 : v ++ ';' :: post = p.1 ++ ';' :: (n ++ '=' :: p.2) := by
      rw [h]
      simp
    rcases append_sep_shape ';' post _ v p.1 hvs h1 with e | ⟨t, e⟩
    · exact ⟨[], by simp [e], Or.inl rfl⟩
    · exact ⟨';' :: t, by simp [e], Or.inr ⟨t, rfl⟩⟩

/-- C9: let the parameter string `p`, once bounded by `;` on both ends, hold no
bare token `;n;`, and let the first occurrence of `;n=` in it be followed by a
non-empty value `v` that does not start with a double quote, holds no `;` and
is followed by `;`.  Then, for either setting of the quoting mode,
`SGSIPParamsGet` returns OK with `Name = n`, `Value = v` and mode bare. -/
theorem SGSIPParamsGet_unquoted (p n pre v post : Str) (vmode : Int) (pv : SGSIPParam)
    (hshape : semicolonBounded p = pre ++ (';' :: (n ++ ['='])) ++ (v ++ ';' :: post))
    (hfirst : ∀ i, i < pre.length →
      ¬ (';' :: (n ++ ['='])) <+: (semicolonBounded p).drop i)
    (hbare : ¬ (';' :: (n ++ [';'])) <:+: semicolonBounded p)
    (hv : v ≠ []) (hvq : v.head? ≠ some '\"') (hvs : ';' ∉ v) :
    SGSIPParamsGet p n vmode pv =
      Except.ok (SGSIPRetOK, { pv with Name := n, Value := v, PMode := ParamValBare }) := by
  have hlen : (semicolonBounded p).length =
      pre.length + (n.length + 2) + (v.length + 1 + post.length) := by
    rw [hshape]
    simp
    omega
  have hle : (semicolonBounded p).length ≤ p.length + 2 := by
    unfold semicolonBounded
    simp only
    split <;> split <;> simp
  have hvl : 0 < v.length := List.length_pos.mpr hv
  have hp : p ≠ [] := by
    intro e
    subst e
    simp at hle
    omega
  have hcut : cut (';' :: (n ++ ['='])) (semicolonBounded p) = some (pre, v ++ ';' :: post) := by
    rw [hshape]
    apply cut_first
    intro i hi
    rw [← hshape]
    exact hfirst i hi
  rw [SGSIPParamsGet_bounded p n vmode pv hp (by omega),
    paramsGetFrom_of_cut _ n pre _ vmode pv (cut_none_of_absent _ _ hbare) hcut]
  obtain ⟨t, ht, hts⟩ := splitHead_shape n v post hvs
  rw [ht]
  exact paramsGetSecond_bare v t n vmode pv hv hvq hvs hts

/-- Witness for C9 at `(";transport=tcp;lr", "transport", 0)`: the value is `tcp`,
mode bare. -/
theorem SGSIPParamsGet_unquoted_witness :
    SGSIPParamsGet ";transport=tcp;lr".toList "transport".toList 0 {} =
      Except.ok (SGSIPRetOK, { ({} : SGSIPParam) with
        Name := "transport".toList, Value := "tcp".toList, PMode := ParamValBare }) :=
  SGSIPParamsGet_unquoted ";transport=tcp;lr".toList "transport".toList [] "tcp".toList
    "lr;".toList 0 {} (by decide) (by simp) (by decide) (by decide) (by decide) (by decide)

theorem cut_quote_semi (q : Str) (hq : '\"' ∉ q) :
    cut ['\"', ';'] (q ++ ['\"', ';']) = some (q, []) := by
  induction q with
  | nil => simp [cut]
  | cons x q ih =>
    have hx : '\"' ≠ x := fun e => hq (List.mem_cons.mpr (Or.inl e))
    have hq1 : '\"' ∉ q := fun e => hq (List.mem_cons.mpr (Or.inr e))
    simp [cut, hx, ih hq1]

theorem cut_quote_semi_quoted (q : Str) (hq : '\"' ∉ q) (hq0 : q.head? ≠ some ';') :
    cut ['\"', ';'] ('\"' :: (q ++ ['\"', ';'])) = some ('\"' :: q, []) := by
  have h := cut_quote_semi q hq
  cases q with
  | nil => simp [cut]
  | cons x q =>
    have hx : x ≠ ';' := by
      intro e
      exact hq0 (by simp [e])
    have hnp : List.isPrefixOf ['\"', ';'] ('\"' :: (x :: q ++ ['\"', ';'])) = false := by
      simp [List.isPrefixOf, hx]
      exact fun e => absurd e.symm hx
    rw [cut, hnp, h]
    simp

theorem not_infix_of_length_lt (sep s : Str) (h : s.length < sep.length) : ¬ sep <:+: s :=
  fun hi => absurd hi.length_le (by omega)

/-- C8 (amended): for every name `n` holding no double quote (so for every
non-empty name without `;`, `=` or double quote), and every `q` holding no double
quote that does not start with `;` and holds no occurrence of `;n;` or `;n=`,
`SGSIPParamsGet` on `;n="q"` with quoted values allowed returns OK with mode
quoted and the value `"q"`, both quotes and every embedded semicolon kept. -/
theorem SGSIPParamsGet_quoted (n q : Str) (vmode : Int) (pv : SGSIPParam)
    (hn3 : '\"' ∉ n)
    (hq : '\"' ∉ q) (hvm : vmode ≠ 0)
    (hq0 : q.head? ≠ some ';')
    (hq1 : ¬ (';' :: (n ++ [';'])) <:+: q)
    (hq2 : ¬ (';' :: (n ++ ['='])) <:+: q) :
    SGSIPParamsGet (';' :: (n ++ ['=', '\"'] ++ q ++ ['\"'])) n vmode pv =
      Except.ok (SGSIPRetOK, { pv with
        Name := n, Value := '\"' :: (q ++ ['\"']), PMode := ParamValQuoted }) := by
  have hb : semicolonBounded (';' :: (n ++ ['=', '\"'] ++ q ++ ['\"'])) =
      [] ++ (';' :: (n ++ ['='])) ++ ('\"' :: (q ++ ['\"', ';'])) := by
    have e : (';' :: (n ++ ['=', '\"'] ++ q ++ ['\"'])) =
        (';' :: (n ++ ['=', '\"'] ++ q)) ++ ['\"'] := by simp
    have hl : (';' :: (n ++ ['=', '\"'] ++ q ++ ['\"'])).getLast? = some '\"' := by
      rw [e, List.getLast?_concat]
    unfold semicolonBounded
    simp only [List.head?_cons, if_true, hl]
    simp
  have hyB : '\"' ∉ (';' :: (n ++ [';'])) := by
    simp [hn3]
  have hyE : '\"' ∉ (';' :: (n ++ ['='])) := by
    simp [hn3]
  have htailB : ¬ (';' :: (n ++ [';'])) <:+: q ++ '\"' :: [';'] := by
    intro h
    rcases infix_split_at_absent '\"' _ _ _ hyB h with h | h
    · exact hq1 h
    · exact not_infix_of_length_lt _ _ (by simp) h
  have htailE : ¬ (';' :: (n ++ ['='])) <:+: q ++ '\"' :: [';'] := by
    intro h
    rcases infix_split_at_absent '\"' _ _ _ hyE h with h | h
    · exact hq2 h
    · exact not_infix_of_length_lt _ _ (by simp) h
  have hbare : ¬ (';' :: (n ++ [';'])) <:+:
      [] ++ (';' :: (n ++ ['='])) ++ ('\"' :: (q ++ ['\"', ';'])) := by
    intro h
    rw [List.nil_append] at h
    rcases infix_split_at_absent '\"' _ _ _ hyB h with h | h
    · have e := h.eq_of_length (by simp)
      simp at e
    · exact htailB (by simpa using h)
  have hsecond : cut (';' :: (n ++ ['='])) ('\"' :: (q ++ ['\"', ';'])) = none := by
    apply cut_none_of_absent
    intro h
    have h1 : (';' :: (n ++ ['='])) <:+: [] ++ '\"' :: (q ++ ['\"', ';']) := by simpa using h
    rcases infix_split_at_absent '\"' _ _ _ hyE h1 with h | h
    · exact not_infix_of_length_lt _ _ (by simp) h
    · exact htailE (by simpa using h)
  have hcut : cut (';' :: (n ++ ['=']))
      ([] ++ (';' :: (n ++ ['='])) ++ ('\"' :: (q ++ ['\"', ';']))) =
      some ([], '\"' :: (q ++ ['\"', ';'])) := by
    apply cut_first
    intro i hi
    simp at hi
  have hsl := slice_nat ('\"' :: (q ++ ['\"', ';'])) 0 (q.length + 2) (by omega) (by simp)
  have htake : List.take (q.length + 2) ('\"' :: (q ++ ['\"', ';'])) = '\"' :: (q ++ ['\"']) := by
    have e : '\"' :: (q ++ ['\"', ';']) = ('\"' :: (q ++ ['\"'])) ++ [';'] := by simp
    rw [e]
    exact List.take_left' (by simp)
  rw [List.drop_zero, htake, show ((0 : Nat) : Int) = 0 from rfl] at hsl
  rw [SGSIPParamsGet_bounded _ n vmode pv (by simp) (by simp; omega), hb,
    paramsGetFrom_of_cut _ n [] _ vmode pv (cut_none_of_absent _ _ hbare) hcut]
  unfold splitHead
  rw [hsecond]
  unfold paramsGetSecond
  simp only [slice_first, exec_bind_ok, if_true, hvm, if_false, paramsGetValue, Index,
    cut_quote_semi_quoted q hq hq0]
  have hneg : ¬ ((('\"' :: q).length : Int) < 0) := by omega
  have hidx : ((('\"' :: q).length : Nat) : Int) + 1 = ((q.length + 2 : Nat) : Int) := by
    simp
    omega
  rw [if_neg hneg, hidx, hsl]
  rfl

/-- Witness for the amended C8 at `;foo="a;b"` with name `foo`: the value is
`"a;b"`, mode quoted. -/
theorem SGSIPParamsGet_quoted_witness :
    SGSIPParamsGet (';' :: ("foo".toList ++ ['=', '\"'] ++ "a;b".toList ++ ['\"']))
        "foo".toList 1 {} =
      Except.ok (SGSIPRetOK, { ({} : SGSIPParam) with
        Name := "foo".toList, Value := '\"' :: ("a;b".toList ++ ['\"']),
        PMode := ParamValQuoted }) :=
  SGSIPParamsGet_quoted "foo".toList "a;b".toList 1 {} (by decide) (by decide) (by decide)
    (by decide) (by decide) (by decide)

/-- C8 as stated fails: with name `foo` and quoted values allowed,
`;foo=";b"` (value starting with `;`) yields the value `"` alone,
`;foo="a;foo;b"` (value holding `;foo;`) yields mode bare with an empty value, and
`;foo="a;foo=b"` (value holding `;foo=`) yields the value `"a`; none of them is the
quoted text. -/
theorem SGSIPParamsGet_quoted_counterexample :
    (SGSIPParamsGet ";foo=\";b\"".toList "foo".toList 1 {} =
        Except.ok (SGSIPRetOK,
          { Name := "foo".toList, Value := "\"".toList, PMode := ParamValQuoted }) ∧
      "\"".toList ≠ "\";b\"".toList) ∧
    (SGSIPParamsGet ";foo=\"a;foo;b\"".toList "foo".toList 1 {} =
        Except.ok (SGSIPRetOK,
          { Name := "foo".toList, Value := [], PMode := ParamValBare }) ∧
      ParamValBare ≠ ParamValQuoted) ∧
    (SGSIPParamsGet ";foo=\"a;foo=b\"".toList "foo".toList 1 {} =
        Except.ok (SGSIPRetOK,
          { Name := "foo".toList, Value := "\"a".toList, PMode := ParamValQuoted }) ∧
      "\"a".toList ≠ "\"a;foo=b\"".toList) := by
  decide

/-! ## Header block parser -/

/-- C7 (code defect): on the folded header block `Subject: a\r\n b\r\n\r\n`
(headers-only mode, empty list) `SGSIPParseHeaders` returns one header whose
body is `a\r b`: the line feed of the fold is removed but the carriage return
before it stays inside the body. -/
theorem SGSIPParseHeaders_fold_keeps_CR :
    SGSIPParseHeaders "Subject: a\r\n b\r\n\r\n".toList 1 [] =
      Except.ok (SGSIPRetOK, [{ Name := "Subject".toList, Body := "a\r b".toList }]) := by
  decide

/-! ## Serialisation -/

theorem digitChar_not_ws (d : Nat) (hd : d < 10) : Nat.digitChar d ∉ wsCR := by
  interval_cases d <;> decide

theorem toDigitsCore_not_ws : ∀ (fuel n : Nat) (ds : List Char), (∀ c ∈ ds, c ∉ wsCR) →
    ∀ c ∈ Nat.toDigitsCore 10 fuel n ds, c ∉ wsCR := by
  intro fuel
  induction fuel with
  | zero =>
    intro n ds h c hc
    simp only [Nat.toDigitsCore] at hc
    exact h c hc
  | succ fuel ih =>
    intro n ds h c hc
    have hd : ∀ c ∈ Nat.digitChar (n % 10) :: ds, c ∉ wsCR := by
      intro c hc
      rcases List.mem_cons.mp hc with e | e
      · rw [e]
        exact digitChar_not_ws _ (Nat.mod_lt _ (by omega))
      · exact h c e
    simp only [Nat.toDigitsCore] at hc
    split at hc
    · exact hd c hc
    · exact ih _ _ hd c hc

theorem Trim_toDigits (n : Nat) : Trim (Nat.toDigits 10 n) wsCR = Nat.toDigits 10 n :=
  Trim_of_all _ _ (toDigitsCore_not_ws _ _ [] (by simp))

theorem headerGetFirst_set_same (N B : Str) : ∀ (hs hs1 : List SGSIPHeader),
    headerSetFirst N B hs = some hs1 → headerGetFirst N hs1 = some B := by
  intro hs
  induction hs with
  | nil => simp [headerSetFirst]
  | cons h hs ih =>
    intro hs1 hset
    by_cases hn : h.Name = N
    · simp only [headerSetFirst, hn, if_true, Option.some.injEq] at hset
      rw [← hset]
      simp [headerGetFirst, hn]
    · simp only [headerSetFirst, hn, if_false, Option.map_eq_some'] at hset
      obtain ⟨r, hr, e⟩ := hset
      rw [← e]
      simp [headerGetFirst, hn, ih r hr]

theorem headerGetFirst_append_none (N : Str) (x : SGSIPHeader) : ∀ (hs : List SGSIPHeader),
    headerSetFirst N x.Body hs = none → x.Name = N →
    headerGetFirst N (hs ++ [x]) = some x.Body := by
  intro hs
  induction hs with
  | nil =>
    intro _ hx
    simp [headerGetFirst, hx]
  | cons h hs ih =>
    intro hset hx
    by_cases hn : h.Name = N
    · simp [headerSetFirst, hn] at hset
    · simp only [headerSetFirst, hn, if_false, Option.map_eq_none'] at hset
      simp [headerGetFirst, hn, ih hset hx]

theorem headerGetFirst_set_other (N M B : Str) (hne : M ≠ N) : ∀ (hs hs1 : List SGSIPHeader),
    headerSetFirst M B hs = some hs1 → headerGetFirst N hs1 = headerGetFirst N hs := by
  intro hs
  induction hs with
  | nil => simp [headerSetFirst]
  | cons h hs ih =>
    intro hs1 hset
    by_cases hm : h.Name = M
    · simp only [headerSetFirst, hm, if_true, Option.some.injEq] at hset
      rw [← hset]
      have : ¬ h.Name = N := fun e => hne (hm ▸ e)
      simp [headerGetFirst, this, hne]
    · simp only [headerSetFirst, hm, if_false, Option.map_eq_some'] at hset
      obtain ⟨r, hr, e⟩ := hset
      rw [← e]
      simp [headerGetFirst, ih r hr]

theorem headerGetFirst_append_other (N : Str) (x : SGSIPHeader) (hne : x.Name ≠ N) :
    ∀ (hs : List SGSIPHeader), headerGetFirst N (hs ++ [x]) = headerGetFirst N hs := by
  intro hs
  induction hs with
  | nil => simp [headerGetFirst, hne]
  | cons h hs ih => simp [headerGetFirst, ih]

theorem headerGetFirst_mem (N b : Str) : ∀ (hs : List SGSIPHeader),
    headerGetFirst N hs = some b → ∃ h ∈ hs, h.Name = N ∧ h.Body = b := by
  intro hs
  induction hs with
  | nil => simp [headerGetFirst]
  | cons h hs ih =>
    intro hg
    by_cases hn : h.Name = N
    · simp only [headerGetFirst, hn, if_true, Option.some.injEq] at hg
      exact ⟨h, by simp, hn, hg⟩
    · simp only [headerGetFirst, hn, if_false] at hg
      obtain ⟨x, hx, h1, h2⟩ := ih hg
      exact ⟨x, by simp [hx], h1, h2⟩

theorem headerLines_infix (x : SGSIPHeader) : ∀ (hs : List SGSIPHeader), x ∈ hs →
    (x.Name ++ [':', ' '] ++ x.Body ++ ['\r', '\n']) <:+: headerLines hs := by
  intro hs
  induction hs with
  | nil => simp
  | cons h hs ih =>
    intro hx
    rcases List.mem_cons.mp hx with e | e
    · rw [e]
      exact ⟨[], headerLines hs, by simp [headerLines]⟩
    · obtain ⟨l1, l2, hl⟩ := ih e
      exact ⟨h.Name ++ [':', ' '] ++ h.Body ++ ['\r', '\n'] ++ l1, l2, by
        simp only [headerLines, ← hl]
        simp⟩

theorem Itoa_natCast (n : Nat) : Itoa (n : Int) = Nat.toDigits 10 n := by
  unfold Itoa
  have h : ¬ ((n : Int) < 0) := by omega
  simp [h]

theorem HeaderSet_get_same (m : SGSIPMessage) (N B : Str) (hN : Trim N wsCR = N) :
    headerGetFirst N (SGSIPMessageHeaderSet m N B).2.Headers = some (Trim B wsCR) := by
  unfold SGSIPMessageHeaderSet
  cases hs : headerSetFirst N (Trim B wsCR) m.Headers with
  | some hs1 => exact headerGetFirst_set_same N _ _ hs1 hs
  | none =>
    exact headerGetFirst_append_none N { Name := Trim N wsCR, Body := Trim B wsCR } _ hs hN

theorem HeaderSet_get_other (m : SGSIPMessage) (N M B : Str) (h1 : M ≠ N)
    (h2 : Trim M wsCR ≠ N) :
    headerGetFirst N (SGSIPMessageHeaderSet m M B).2.Headers = headerGetFirst N m.Headers := by
  unfold SGSIPMessageHeaderSet
  cases hs : headerSetFirst M (Trim B wsCR) m.Headers with
  | some hs1 => exact headerGetFirst_set_other N M _ h1 _ hs1 hs
  | none =>
    exact headerGetFirst_append_other N { Name := Trim M wsCR, Body := Trim B wsCR } h2 _

theorem HeaderSet_fields (m : SGSIPMessage) (N B : Str) :
    (SGSIPMessageHeaderSet m N B).2.Body = m.Body ∧
      (SGSIPMessageHeaderSet m N B).2.FLine = m.FLine := by
  unfold SGSIPMessageHeaderSet
  cases headerSetFirst N (Trim B wsCR) m.Headers <;> exact ⟨rfl, rfl⟩

/-- C10 (amended): for every message with a non-empty start line, a non-empty
header list and a non-empty body content whose stored length `ContentLen` equals
the byte length of the content, `SGSIPMessageToString` returns OK; afterwards the
first header named `Content-Length` has as body the decimal numeral of that
length, the line `Content-Length: <length>\r\n` occurs in the output, and the
output ends with the body content. -/
theorem SGSIPMessageToString_content_length (m : SGSIPMessage) (out0 : Str)
    (hfl : m.FLine.Val ≠ []) (hh : m.Headers ≠ []) (hc : m.Body.Content ≠ [])
    (hlen : m.Body.ContentLen = (m.Body.Content.length : Int)) :
    ∃ (m1 : SGSIPMessage) (out : Str),
      SGSIPMessageToString m out0 = (SGSIPRetOK, m1, out) ∧
      SGSIPMessageHeaderGet m1 "Content-Length".toList [] =
        (SGSIPRetOK, Nat.toDigits 10 m.Body.Content.length) ∧
      ("Content-Length: ".toList ++ Nat.toDigits 10 m.Body.Content.length ++ "\r\n".toList)
        <:+: out ∧
      m.Body.Content <:+ out := by
  have hpos : 0 < m.Body.Content.length := List.length_pos.mpr hc
  have hcl : m.Body.ContentLen > 0 := by omega
  have hguard : ¬ (m.FLine.Val.length = 0 ∨ m.Headers.length = 0) := by
    have h1 : 0 < m.FLine.Val.length := List.length_pos.mpr hfl
    have h2 : 0 < m.Headers.length := List.length_pos.mpr hh
    omega
  have hget1 : headerGetFirst "Content-Length".toList
      (SGSIPMessageHeaderSet m "Content-Length".toList (Itoa m.Body.ContentLen)).2.Headers =
      some (Nat.toDigits 10 m.Body.Content.length) := by
    rw [HeaderSet_get_same m _ _ (by decide), hlen, Itoa_natCast, Trim_toDigits]
  have hf1 := HeaderSet_fields m "Content-Length".toList (Itoa m.Body.ContentLen)
  -- the message after the header updates
  obtain ⟨ms, hms, hmsB, hmsG⟩ : ∃ ms : SGSIPMessage,
      (if m.Body.ContentLen > 0 then
        if (SGSIPMessageHeaderSet m "Content-Length".toList
              (Itoa m.Body.ContentLen)).2.Body.ContentType.length > 0 then
          (SGSIPMessageHeaderSet
            (SGSIPMessageHeaderSet m "Content-Length".toList (Itoa m.Body.ContentLen)).2
            "Content-Type".toList
            (SGSIPMessageHeaderSet m "Content-Length".toList
              (Itoa m.Body.ContentLen)).2.Body.ContentType).2
        else (SGSIPMessageHeaderSet m "Content-Length".toList (Itoa m.Body.ContentLen)).2
      else m) = ms ∧ ms.Body = m.Body ∧
      headerGetFirst "Content-Length".toList ms.Headers =
        some (Nat.toDigits 10 m.Body.Content.length) := by
    rw [if_pos hcl]
    split
    · refine ⟨_, rfl, ?_, ?_⟩
      · rw [(HeaderSet_fields _ _ _).1, hf1.1]
      · rw [HeaderSet_get_other _ _ _ _ (by decide) (by decide), hget1]
    · exact ⟨_, rfl, hf1.1, hget1⟩
  obtain ⟨x, hx, hxn, hxb⟩ := headerGetFirst_mem _ _ _ hmsG
  have hline := headerLines_infix x ms.Headers hx
  rw [hxn, hxb] at hline
  have hcl2 : ms.Body.ContentLen > 0 := by
    rw [hmsB]
    exact hcl
  refine ⟨ms, m.FLine.Val ++ ['\r', '\n'] ++ headerLines ms.Headers ++ ['\r', '\n']
    ++ m.Body.Content, ?_, ?_, ?_, ?_⟩
  · unfold SGSIPMessageToString
    rw [if_neg hguard]
    simp only [hms, hcl2, if_true, hmsB]
    rw [if_pos hcl]
  · unfold SGSIPMessageHeaderGet
    rw [hmsG]
  · obtain ⟨l1, l2, hl⟩ := hline
    refine ⟨m.FLine.Val ++ ['\r', '\n'] ++ l1, l2 ++ ['\r', '\n'] ++ m.Body.Content, ?_⟩
    rw [← hl]
    simp
  · exact List.suffix_append _ _

/-- Witness for the amended C10: a message with start line `X`, one header
`H: v` and body `abc` of stored length 3. -/
theorem SGSIPMessageToString_content_length_witness :
    ∃ (m1 : SGSIPMessage) (out : Str),
      SGSIPMessageToString
        { FLine := { Val := "X".toList },
          Headers := [{ Name := "H".toList, Body := "v".toList }],
          Body := { Content := "abc".toList, ContentLen := 3 } } [] = (SGSIPRetOK, m1, out) ∧
      SGSIPMessageHeaderGet m1 "Content-Length".toList [] =
        (SGSIPRetOK, Nat.toDigits 10 "abc".toList.length) ∧
      ("Content-Length: ".toList ++ Nat.toDigits 10 "abc".toList.length ++ "\r\n".toList)
        <:+: out ∧
      "abc".toList <:+ out :=
  SGSIPMessageToString_content_length
    { FLine := { Val := "X".toList },
      Headers := [{ Name := "H".toList, Body := "v".toList }],
      Body := { Content := "abc".toList, ContentLen := 3 } } []
    (by decide) (by decide) (by decide) (by decide)

/-- C10 as stated fails: the message with start line `X`, one header `H: v` and
body content `abc` whose stored length is 0 serialises to `X\r\nH: v\r\n\r\n`; no
`Content-Length` header is present afterwards and the output does not end with
the body content. -/
theorem SGSIPMessageToString_content_length_counterexample :
    SGSIPMessageToString
        { FLine := { Val := "X".toList },
          Headers := [{ Name := "H".toList, Body := "v".toList }],
          Body := { Content := "abc".toList, ContentLen := 0 } } [] =
      (SGSIPRetOK,
        { FLine := { Val := "X".toList },
          Headers := [{ Name := "H".toList, Body := "v".toList }],
          Body := { Content := "abc".toList, ContentLen := 0 } },
        "X\r\nH: v\r\n\r\n".toList) ∧
    SGSIPMessageHeaderGet
        { FLine := { Val := "X".toList },
          Headers := [{ Name := "H".toList, Body := "v".toList }],
          Body := { Content := "abc".toList, ContentLen := 0 } }
        "Content-Length".toList [] = (SGSIPRetErr, []) ∧
    ¬ ("abc".toList <:+ "X\r\nH: v\r\n\r\n".toList) := by
  decide



/-! ## Socket address parser: defaults and bracket pairing -/

/-- C17: for every non-empty input that holds no `:` and does not start with
`[`, `SGSIPParseSocketAddress` returns OK with `Addr` and `Val` equal to the
input, transport `udp` (id udp) and port `5060` / 5060, whatever value is passed
in and whatever `net.ParseIP` answers. -/
theorem SGSIPParseSocketAddress_defaults (parseIP : Str → Bool) (s : Str)
    (sa0 : SGSIPSocketAddress) (hne : s ≠ []) (hcol : ':' ∉ s)
    (hbr : s.head? ≠ some '[') :
    SGSIPParseSocketAddress parseIP s sa0 =
      Except.ok (SGSIPRetOK, { sa0 with
        Val := s, Proto := "udp".toList, ProtoId := ProtoUDP, Addr := s,
        Port := "5060".toList, PortNo := 5060, AType := SGAddrType parseIP s }) := by
  obtain ⟨x, t, rfl⟩ := List.exists_cons_of_ne_nil hne
  have hx : ¬ ([x] = ['[']) := by
    intro e
    simp only [List.cons.injEq, and_true] at e
    exact hbr (by simp [e])
  have hs : SplitN2 (x :: t) [':'] = [x :: t] :=
    SplitN2_of_none _ _ (cut_single_none ':' _ hcol)
  unfold SGSIPParseSocketAddress
  simp only [slice_first, exec_bind_ok, if_neg hx, exec_pure, hs, List.length_singleton,
    if_true]
  simp

/-- Witness for C17 at `example.com`. -/
theorem SGSIPParseSocketAddress_defaults_witness :
    SGSIPParseSocketAddress noIPLiteral "example.com".toList {} =
      Except.ok (SGSIPRetOK, { ({} : SGSIPSocketAddress) with
        Val := "example.com".toList, Proto := "udp".toList, ProtoId := ProtoUDP,
        Addr := "example.com".toList, Port := "5060".toList, PortNo := 5060,
        AType := SGAddrType noIPLiteral "example.com".toList }) :=
  SGSIPParseSocketAddress_defaults noIPLiteral "example.com".toList {} (by decide)
    (by decide) (by decide)

/-- C14 (code defect): on `[::1` and on `tcp:[::1`, whose address part opens with
`[` and has no `]`, `SGSIPParseSocketAddress` does not return an error code: the
split on `]` yields one element and the read of `strArray[1]` (line 254 for the
first input, line 258 for the second) stops the run on an index fault, whatever
`net.ParseIP` answers. -/
theorem SGSIPParseSocketAddress_unclosed_bracket_faults (parseIP : Str → Bool) :
    SGSIPParseSocketAddress parseIP "[::1".toList {} = Except.error Halt.fault ∧
    SGSIPParseSocketAddress parseIP "tcp:[::1".toList {} = Except.error Halt.fault :=
  ⟨rfl, rfl⟩

/-! ## Parameter extraction: malformed input -/

/-- C18 (code defect): `SGSIPParamsGet` is not safe on malformed input: on the
empty parameter string with the empty name the slice `pStr[0:1]` (line 502), and on
`;a=;a=` with name `a` the slice `strArray[1][0:1]` of the empty second piece (line
523), stop the run on a bounds fault instead of returning a code. -/
theorem SGSIPParamsGet_malformed_faults :
    SGSIPParamsGet [] [] 1 {} = Except.error Halt.fault ∧
    SGSIPParamsGet ";a=;a=".toList "a".toList 1 {} = Except.error Halt.fault := by
  decide

/-! ## Header update helpers -/

theorem headerSetFirst_split (hname b : Str) (h : SGSIPHeader) (post : List SGSIPHeader)
    (hn : h.Name = hname) : ∀ (pre : List SGSIPHeader), (∀ x ∈ pre, x.Name ≠ hname) →
    headerSetFirst hname b (pre ++ h :: post) = some (pre ++ { h with Body := b } :: post) := by
  intro pre
  induction pre with
  | nil =>
    intro _
    simp [headerSetFirst, hn]
  | cons y pre ih =>
    intro hpre
    have hy : ¬ y.Name = hname := hpre y (by simp)
    have := ih (fun x hx => hpre x (by simp [hx]))
    simp [headerSetFirst, hy, this]

theorem headerSetFirst_none (hname b : Str) : ∀ (hs : List SGSIPHeader),
    (∀ x ∈ hs, x.Name ≠ hname) → headerSetFirst hname b hs = none := by
  intro hs
  induction hs with
  | nil =>
    intro _
    rfl
  | cons y hs ih =>
    intro hall
    have hy : ¬ y.Name = hname := hall y (by simp)
    have := ih (fun x hx => hall x (by simp [hx]))
    simp [headerSetFirst, hy, this]

/-- C12: `SGSIPMessageHeaderSet` always returns OK.  If some header is named
exactly `hname`, the result is the message with the body of the first such
header replaced by `hbody` trimmed of space, tab and CR, every other header and
field as before; if no header is named `hname`, the result is the message with
one header appended whose name and body are `hname` and `hbody` trimmed of
space, tab and CR. -/
theorem SGSIPMessageHeaderSet_frame (m : SGSIPMessage) (hname hbody : Str) :
    (SGSIPMessageHeaderSet m hname hbody).1 = SGSIPRetOK ∧
    (∀ (pre : List SGSIPHeader) (h : SGSIPHeader) (post : List SGSIPHeader),
      m.Headers = pre ++ h :: post → h.Name = hname → (∀ x ∈ pre, x.Name ≠ hname) →
      (SGSIPMessageHeaderSet m hname hbody).2 =
        { m with Headers := pre ++ { h with Body := Trim hbody wsCR } :: post }) ∧
    ((∀ x ∈ m.Headers, x.Name ≠ hname) →
      (SGSIPMessageHeaderSet m hname hbody).2 =
        { m with Headers := m.Headers ++
          [{ Name := Trim hname wsCR, Body := Trim hbody wsCR, HType := 0 }] }) := by
  refine ⟨?_, ?_, ?_⟩
  · unfold SGSIPMessageHeaderSet
    cases headerSetFirst hname (Trim hbody wsCR) m.Headers <;> rfl
  · intro pre h post hm hn hpre
    unfold SGSIPMessageHeaderSet
    rw [hm, headerSetFirst_split hname _ h post hn pre hpre]
  · intro hall
    unfold SGSIPMessageHeaderSet
    rw [headerSetFirst_none hname _ m.Headers hall]

/-! ## Sequence number update -/

theorem digitsVal_foldl : ∀ (ds : Str) (acc : Nat), (∀ c ∈ ds, decDigit c = true) →
    digitsVal ds acc = some (ds.foldl (fun a c => a * 10 + (c.toNat - 48)) acc) := by
  intro ds
  induction ds with
  | nil =>
    intro acc _
    rfl
  | cons x ds ih =>
    intro acc h
    have hx : decDigit x = true := h x (by simp)
    simp only [digitsVal, hx, if_true, List.foldl_cons]
    exact ih _ (fun c hc => h c (by simp [hc]))

theorem Atoi_signed (neg : Bool) (ds : Str) (hds : ds ≠ [])
    (hdig : ∀ c ∈ ds, decDigit c = true)
    (hlo : minInt ≤ (if neg then -(decVal ds : Int) else (decVal ds : Int)))
    (hhi : (if neg then -(decVal ds : Int) else (decVal ds : Int)) ≤ maxInt) :
    Atoi ((if neg then ['-'] else []) ++ ds) =
      ((if neg then -(decVal ds : Int) else (decVal ds : Int)), false) := by
  have hv : digitsVal ds 0 = some (decVal ds) := digitsVal_foldl ds 0 hdig
  have hs : atoiSign ((if neg then ['-'] else []) ++ ds) = (neg, ds) := by
    cases neg with
    | true => rfl
    | false =>
      obtain ⟨x, t, rfl⟩ := List.exists_cons_of_ne_nil hds
      exact atoiSign_of_digit x t (hdig x (by simp))
  unfold Atoi
  simp only [hs, hds, if_false, hv]
  have h1 : ¬ ((if neg = true then -(decVal ds : Int) else (decVal ds : Int)) < minInt) := by
    omega
  have h2 : ¬ (maxInt < (if neg = true then -(decVal ds : Int) else (decVal ds : Int))) := by
    omega
  simp only [h1, h2, if_false]

theorem wrapInt_of_fits (x : Int) (h1 : minInt ≤ x) (h2 : x ≤ maxInt) : wrapInt x = x := by
  unfold wrapInt
  unfold minInt at *
  unfold maxInt at h2
  omega

theorem cseqUpdateLoop_split (ival : Int) (h : SGSIPHeader) (post : List SGSIPHeader)
    (a b : Str) (hn : h.Name = "CSeq".toList ∨ h.Name = "s".toList)
    (hs : SplitN2 h.Body [' '] = [a, b]) :
    ∀ (pre : List SGSIPHeader),
      (∀ x ∈ pre, x.Name ≠ "CSeq".toList ∧ x.Name ≠ "s".toList) →
      cseqUpdateLoop ival (pre ++ h :: post) =
        (SGSIPRetOK,
          pre ++ { h with Body := Itoa (wrapInt ((Atoi a).1 + ival)) ++ [' '] ++ b } :: post) := by
  intro pre
  induction pre with
  | nil =>
    intro _
    simp only [List.nil_append, cseqUpdateLoop, hn, if_true, hs]
  | cons y pre ih =>
    intro hpre
    have hy : ¬ (y.Name = "CSeq".toList ∨ y.Name = "s".toList) := by
      have := hpre y (by simp)
      intro e
      rcases e with e | e
      · exact this.1 e
      · exact this.2 e
    have := ih (fun x hx => hpre x (by simp [hx]))
    rw [List.cons_append, cseqUpdateLoop, if_neg hy, this]
    rfl

/-- C11: let the first header of the message named `CSeq` or `s` have the body
`d rest` (one space between), where `d` is a decimal numeral, an optional minus
sign and at least one digit, whose value and whose value plus `delta` both fit
the 64-bit machine integer.  Then `SGSIPMessageCSeqUpdate` returns OK and the
message afterwards differs only in that header's body, which is the decimal
numeral of value + `delta`, a space and `rest`. -/
theorem SGSIPMessageCSeqUpdate_numeric (m : SGSIPMessage) (delta : Int)
    (pre post : List SGSIPHeader) (h : SGSIPHeader) (neg : Bool) (ds rest : Str)
    (hm : m.Headers = pre ++ h :: post)
    (hpre : ∀ x ∈ pre, x.Name ≠ "CSeq".toList ∧ x.Name ≠ "s".toList)
    (hname : h.Name = "CSeq".toList ∨ h.Name = "s".toList)
    (hds : ds ≠ []) (hdig : ∀ c ∈ ds, decDigit c = true)
    (hbody : h.Body = (if neg then ['-'] else []) ++ ds ++ ' ' :: rest)
    (hlo : minInt ≤ (if neg then -(decVal ds : Int) else (decVal ds : Int)))
    (hhi : (if neg then -(decVal ds : Int) else (decVal ds : Int)) ≤ maxInt)
    (hlo2 : minInt ≤ (if neg then -(decVal ds : Int) else (decVal ds : Int)) + delta)
    (hhi2 : (if neg then -(decVal ds : Int) else (decVal ds : Int)) + delta ≤ maxInt) :
    SGSIPMessageCSeqUpdate m delta =
      (SGSIPRetOK, { m with Headers := pre ++ { h with
        Body := Itoa ((if neg then -(decVal ds : Int) else (decVal ds : Int)) + delta)
          ++ [' '] ++ rest } :: post }) := by
  have hsp : ' ' ∉ (if neg then ['-'] else []) ++ ds := by
    intro e
    rcases List.mem_append.mp e with e | e
    · cases neg with
      | true => exact absurd e (by decide)
      | false => simp at e
    · exact (decDigit_not_ws ' ' (hdig _ e)).1 rfl
  have hs : SplitN2 h.Body [' '] = [(if neg then ['-'] else []) ++ ds, rest] := by
    rw [hbody]
    exact SplitN2_of_cut _ _ _ _ (cut_single_of_not_mem ' ' _ rest hsp)
  have hl := cseqUpdateLoop_split delta h post _ _ hname hs pre hpre
  unfold SGSIPMessageCSeqUpdate
  rw [hm, hl, Atoi_signed neg ds hds hdig hlo hhi]
  simp only
  rw [wrapInt_of_fits _ hlo2 hhi2]

/-- Witness for C11 at the header list `To: x`, `CSeq: 314159 INVITE` with
delta 1: the body becomes `314160 INVITE`. -/
theorem SGSIPMessageCSeqUpdate_numeric_witness :
    SGSIPMessageCSeqUpdate
        { Headers := [{ Name := "To".toList, Body := "x".toList },
            { Name := "CSeq".toList, Body := "314159 INVITE".toList }] } 1 =
      (SGSIPRetOK, { ({ Headers := [{ Name := "To".toList, Body := "x".toList },
            { Name := "CSeq".toList, Body := "314159 INVITE".toList }] } : SGSIPMessage) with
        Headers := [{ Name := "To".toList, Body := "x".toList }] ++
          { ({ Name := "CSeq".toList, Body := "314159 INVITE".toList } : SGSIPHeader) with
            Body := Itoa ((if false then -(decVal "314159".toList : Int)
              else (decVal "314159".toList : Int)) + 1) ++ [' '] ++ "INVITE".toList } :: [] }) ∧
    Itoa ((if false then -(decVal "314159".toList : Int)
      else (decVal "314159".toList : Int)) + 1) ++ [' '] ++ "INVITE".toList =
      "314160 INVITE".toList :=
  ⟨SGSIPMessageCSeqUpdate_numeric _ 1 [{ Name := "To".toList, Body := "x".toList }] []
      { Name := "CSeq".toList, Body := "314159 INVITE".toList } false "314159".toList
      "INVITE".toList rfl (by decide) (by decide) (by decide) (by decide) rfl (by decide)
      (by decide) (by decide) (by decide),
    by decide⟩

/-! ## Socket address parser: the port -/

theorem okS_bind {α σ : Type} (P : σ → Prop) (x : Exec α) (f : α → Exec (Int × σ))
    (h : ∀ a, x = Except.ok a → OKSat P (f a)) : OKSat P (x >>= f) := by
  intro r hr
  obtain ⟨a, hx, ha⟩ := (exec_bind_eq_ok x f _).mp hr
  exact h a hx r ha

theorem okS_ite {σ : Type} (P : σ → Prop) (c : Prop) [Decidable c] (a b : Exec (Int × σ))
    (ha : c → OKSat P a) (hb : ¬ c → OKSat P b) : OKSat P (if c then a else b) := by
  split_ifs with h
  · exact ha h
  · exact hb h

theorem okS_pure {σ : Type} (P : σ → Prop) (c : Int) (u : σ) (h : c = SGSIPRetOK → P u) :
    OKSat P (pure (c, u)) := by
  intro r hr
  simp only [exec_pure, Except.ok.injEq, Prod.mk.injEq] at hr
  rw [← hr.2]
  exact h hr.1

theorem okS_mono {σ : Type} (P Q : σ → Prop) (res : Exec (Int × σ)) (h : OKSat Q res)
    (hpq : ∀ r, Q r → P r) : OKSat P res :=
  fun r hr => hpq r (h r hr)

theorem Atoi_pair (s : Str) (h : ¬ (Atoi s).2 = true) : Atoi s = ((Atoi s).1, false) := by
  cases hb : (Atoi s).2 with
  | true => exact absurd hb h
  | false =>
    rw [← hb]

theorem sockAddrPort_port (parseIP : Str → Bool) (sockstr strProto strAddrPort : Str)
    (sockaddr : SGSIPSocketAddress) :
    OKSat (fun r : SGSIPSocketAddress => Atoi r.Port = (r.PortNo, false))
      (sockAddrPort parseIP sockstr strProto strAddrPort sockaddr) := by
  unfold sockAddrPort
  repeat' first
    | (with_reducible apply okS_ite <;> intro _)
    | (with_reducible apply okS_bind; intro _ _)
    | (with_reducible apply okS_pure; intro hc; dsimp only; first
        | exact absurd hc (by decide)
        | (apply Atoi_pair; assumption)
        | decide)

theorem SGSIPParseSocketAddress_port (parseIP : Str → Bool) (sockstr : Str)
    (sockaddr : SGSIPSocketAddress) :
    OKSat (fun r : SGSIPSocketAddress => Atoi r.Port = (r.PortNo, false))
      (SGSIPParseSocketAddress parseIP sockstr sockaddr) := by
  unfold SGSIPParseSocketAddress
  repeat' first
    | with_reducible exact sockAddrPort_port _ _ _ _ _
    | (with_reducible apply okS_ite <;> intro _)
    | (with_reducible apply okS_bind; intro _ _)
    | (with_reducible apply okS_pure; intro hc; dsimp only; first
        | exact absurd hc (by decide)
        | decide)

/-- C15 as stated fails: `host:70000`, whose explicit port is above 65535, is
accepted with port number 70000. -/
theorem SGSIPParseSocketAddress_port_counterexample :
    SGSIPParseSocketAddress noIPLiteral "host:70000".toList {} =
      Except.ok (SGSIPRetOK,
        { Val := "host:70000".toList, Proto := "udp".toList, Addr := "host".toList,
          Port := "70000".toList, PortNo := 70000, AType := AFHost, ProtoId := ProtoUDP }) ∧
    ¬ ((70000 : Int) ≤ 65535) := by
  decide

/-! ## URI parser: bracketed IPv6 hosts -/

theorem SGAddrType_v6_mem (parseIP : Str → Bool) (a : Str)
    (h : SGAddrType parseIP a = AFIPv6) : ':' ∈ a := by
  unfold SGAddrType at h
  split_ifs at h with h1
  · exact absurd h (by decide)
  · cases hf : a.find? (fun c => c == '.' || c == ':') with
    | none =>
      rw [hf] at h
      exact absurd h (by decide)
    | some c =>
      rw [hf] at h
      simp only at h
      have hc := List.find?_some hf
      have hm := List.mem_of_find?_eq_some hf
      split_ifs at h with h2
      · exact absurd h (by decide)
      · simp only [Bool.or_eq_true, beq_iff_eq] at hc
        rcases hc with e | e
        · exact absurd e h2
        · rw [← e]
          exact hm

theorem cut_single_isSome (c : Char) : ∀ (s : Str), c ∈ s → (cut [c] s).isSome = true := by
  intro s
  induction s with
  | nil => simp
  | cons x s ih =>
    intro h
    by_cases hx : c = x
    · simp [cut, hx]
    · have hs : c ∈ s := by
        rcases List.mem_cons.mp h with e | e
        · exact absurd e hx
        · exact e
      have := ih hs
      cases hc : cut [c] s with
      | none => simp [hc] at this
      | some p => simp [cut, hx, hc]

theorem Index_neg_not_mem (c : Char) (s : Str) (h : Index s [c] < 0) : c ∉ s := by
  intro hm
  have := cut_single_isSome c s hm
  unfold Index at h
  cases hc : cut [c] s with
  | none => simp [hc] at this
  | some p =>
    rw [hc] at h
    simp only at h
    omega

theorem take_findIdx_not (p : Char → Bool) : ∀ (l : Str) (c : Char),
    c ∈ l.take (l.findIdx p) → p c = false := by
  intro l
  induction l with
  | nil => simp
  | cons x l ih =>
    intro c hc
    rw [List.findIdx_cons] at hc
    cases hx : p x with
    | true => simp [hx] at hc
    | false =>
      simp only [hx, cond_false, List.take_succ_cons, List.mem_cons] at hc
      rcases hc with e | e
      · rw [e]
        exact hx
      · exact ih c e

theorem slice_first_inv (s h : Str) (x : Char) (hs : slice s 0 1 = Except.ok h)
    (hx : h = [x]) : s.head? = some x := by
  subst hx
  cases s with
  | nil =>
    have := slice_fault [] 0 1 (by simp)
    rw [this] at hs
    exact absurd hs (by simp)
  | cons y t =>
    rw [slice_first] at hs
    simp only [Except.ok.injEq, List.cons.injEq, and_true] at hs
    simp [hs]

theorem sliceFrom_last_inv (s t : Str) (x : Char)
    (hs : sliceFrom s ((s.length : Int) - 1) = Except.ok t) (hx : t = [x]) :
    s.getLast? = some x := by
  subst hx
  cases hn : s with
  | nil =>
    subst hn
    simp [sliceFrom] at hs
  | cons y u =>
    have hne : s ≠ [] := by simp [hn]
    rw [sliceFrom_last s hne] at hs
    simp only [Except.ok.injEq, List.cons.injEq, and_true] at hs
    rw [← hn, List.getLast?_eq_getLast s hne, hs]

theorem SGAddrTypeEx_v6_last (parseIP : Str → Bool) (a : Str) (t : Int)
    (hh : a.head? = some '[') (h : SGAddrTypeEx parseIP a = Except.ok t) (ht : t = AFIPv6) :
    a.getLast? = some ']' := by
  obtain ⟨x, s, rfl⟩ : ∃ x s, a = x :: s := by
    cases a with
    | nil => simp at hh
    | cons x s => exact ⟨x, s, rfl⟩
  have hx : x = '[' := by simpa using hh
  subst hx
  unfold SGAddrTypeEx at h
  rw [slice_first, exec_bind_ok, if_pos rfl, sliceFrom_last ('[' :: s) (by simp),
    exec_bind_ok] at h
  split_ifs at h with h2
  · simp only [exec_pure, Except.ok.injEq] at h
    rw [← h] at ht
    exact absurd ht (by decide)
  · simp only [ne_eq, List.cons.injEq, and_true, not_not] at h2
    rw [List.getLast?_eq_getLast _ (by simp), h2]

theorem parseURIParams_keeps (u pp : Str) (uri : SGSIPURI) :
    OKSat (fun r : SGSIPURI => r.Addr = uri.Addr ∧ r.AType = uri.AType)
      (parseURIParams u pp uri) := by
  unfold parseURIParams
  repeat' first
    | (with_reducible apply okS_ite <;> intro _)
    | (with_reducible apply okS_bind; intro _ _)
    | (with_reducible apply okS_pure; intro _; exact ⟨rfl, rfl⟩)

theorem parseURIPortParams_keeps (u pp : Str) (uri : SGSIPURI) :
    OKSat (fun r : SGSIPURI => r.Addr = uri.Addr ∧ r.AType = uri.AType)
      (parseURIPortParams u pp uri) := by
  unfold parseURIPortParams
  repeat' first
    | exact parseURIParams_keeps _ _ _
    | (with_reducible apply okS_ite <;> intro _)
    | (with_reducible apply okS_bind; intro _ _)
    | (with_reducible apply okS_pure; intro _; exact ⟨rfl, rfl⟩)

theorem SplitN2_first_head (s a0 : Str) (c x : Char) (hx : s.head? = some x) (hxc : x ≠ c)
    (h : elemAt (SplitN2 s [c]) 0 = Except.ok a0) : a0.head? = some x := by
  unfold SplitN2 at h
  cases hc : cut [c] s with
  | none =>
    rw [hc] at h
    simp only [elemAt, List.get?, Except.ok.injEq] at h
    rw [← h]
    exact hx
  | some p =>
    rw [hc] at h
    simp only [elemAt, List.get?, Except.ok.injEq] at h
    have hs := cut_some_eq [c] s p.1 p.2 hc
    rw [← h]
    cases hp : p.1 with
    | nil =>
      rw [hp] at hs
      rw [hs] at hx
      simp only [List.nil_append, List.singleton_append, List.head?_cons,
        Option.some.injEq] at hx
      exact absurd hx.symm hxc
    | cons y t =>
      rw [hp] at hs
      rw [hs] at hx
      simpa using hx

theorem slice_IndexAny (s chars addr : Str)
    (h : slice s 0 (IndexAny s chars) = Except.ok addr) : ∀ c ∈ addr, c ∉ chars := by
  unfold IndexAny at h
  split_ifs at h with h1
  · have := slice_nat s 0 (s.findIdx fun c => decide (c ∈ chars)) (by omega) (by omega)
    rw [show ((0 : Nat) : Int) = 0 from rfl] at this
    rw [this] at h
    simp only [List.drop_zero, Except.ok.injEq] at h
    intro c hc
    rw [← h] at hc
    have := take_findIdx_not _ s c hc
    simpa using this
  · rw [slice_fault s 0 (-1) (by omega)] at h
    exact absurd h (by simp)

theorem parseURIHost_v6 (parseIP : Str → Bool) (u pHostPP : Str) (colPos scPos : Int)
    (uri : SGSIPURI) (hcol : colPos < 0 → ':' ∉ pHostPP) :
    OKSat (fun r : SGSIPURI => r.AType = AFIPv6 →
        r.Addr.head? = some '[' ∧ r.Addr.getLast? = some ']')
      (parseURIHost parseIP u pHostPP colPos scPos uri) := by
  unfold parseURIHost
  apply okS_ite
  · intro hc
    apply okS_pure
    intro _ h6
    exact absurd (SGAddrType_v6_mem parseIP pHostPP h6) (hcol hc.1)
  · intro _
    apply okS_bind
    intro h hh
    apply okS_ite
    · intro hb
      apply okS_bind
      intro t ht
      apply okS_ite
      · intro hbt
        apply okS_bind
        intro aType _
        apply okS_ite
        · intro _
          apply okS_pure
          intro hc
          exact absurd hc (by decide)
        · intro _
          apply okS_pure
          intro _ _
          exact ⟨slice_first_inv _ _ _ hh hb, sliceFrom_last_inv _ _ _ ht hbt⟩
      · intro _
        apply okS_bind
        intro a0 ha0
        apply okS_bind
        intro aType _
        apply okS_ite
        · intro _
          apply okS_pure
          intro hc
          exact absurd hc (by decide)
        · intro _
          apply okS_bind
          intro pp _
          refine okS_mono _ _ _ (parseURIPortParams_keeps _ _ _) ?_
          intro r hr _
          have hhead := SplitN2_first_head pHostPP a0 ']' '['
            (slice_first_inv _ _ _ hh hb) (by decide) ha0
          rw [hr.1]
          constructor
          · cases a0 with
            | nil => simp at hhead
            | cons y t0 => simpa using hhead
          · exact List.getLast?_concat a0
    · intro _
      apply okS_bind
      intro addr haddr
      apply okS_bind
      intro pp _
      refine okS_mono _ _ _ (parseURIPortParams_keeps _ _ _) ?_
      intro r hr h6
      rw [hr.2] at h6
      have hm := SGAddrType_v6_mem parseIP addr h6
      exact absurd (by simp) (slice_IndexAny _ _ _ haddr ':' hm)

theorem SGSIPParseURI_v6 (parseIP : Str → Bool) (u : Str) (uri : SGSIPURI) :
    OKSat (fun r : SGSIPURI => r.AType = AFIPv6 →
        r.Addr.head? = some '[' ∧ r.Addr.getLast? = some ']')
      (SGSIPParseURI parseIP u uri) := by
  unfold SGSIPParseURI
  apply okS_ite
  · intro _
    apply okS_pure
    intro hc
    exact absurd hc (by decide)
  · intro _
    apply okS_bind
    intro a0 _
    apply okS_bind
    intro a1 _
    apply okS_ite
    · intro hne
      apply okS_pure
      intro hc
      exact absurd hc hne
    · intro _
      apply okS_ite
      · intro _
        apply okS_pure
        intro hc
        exact absurd hc (by decide)
      · intro _
        apply okS_ite
        · intro hc
          apply okS_pure
          intro _ h6
          exact absurd (SGAddrType_v6_mem parseIP a1 h6) (Index_neg_not_mem ':' a1 hc.2.1)
        · intro _
          apply okS_ite
          · intro hat
            apply okS_bind
            intro pUser _
            apply okS_bind
            intro pHostPP hpp
            have hcol : Index a1 [':'] < 0 → ':' ∉ pHostPP := by
              intro hc hm
              apply Index_neg_not_mem ':' a1 hc
              unfold sliceFrom at hpp
              split_ifs at hpp
              simp only [Except.ok.injEq] at hpp
              rw [← hpp] at hm
              exact List.mem_of_mem_drop hm
            apply okS_ite
            · intro _
              apply okS_pure
              intro hc
              exact absurd hc (by decide)
            · intro _
              apply okS_ite
              · intro _
                exact parseURIHost_v6 parseIP u pHostPP _ _ _ hcol
              · intro _
                apply okS_bind
                intro user _
                apply okS_bind
                intro uParams _
                exact parseURIHost_v6 parseIP u pHostPP _ _ _ hcol
          · intro _
            exact parseURIHost_v6 parseIP u a1 _ _ _ (Index_neg_not_mem ':' a1)

/-- C16: for every URI text that `SGSIPParseURI` accepts (into a fresh value, and
into any other), and for any recogniser standing for `net.ParseIP`, if the
resulting address kind is IPv6 then the stored host begins with `[` and ends
with `]`. -/
theorem SGSIPParseURI_ipv6_bracketed (parseIP : Str → Bool) (u : Str) (uri0 uri : SGSIPURI)
    (h : SGSIPParseURI parseIP u uri0 = Except.ok (SGSIPRetOK, uri))
    (h6 : uri.AType = AFIPv6) :
    uri.Addr.head? = some '[' ∧ uri.Addr.getLast? = some ']' :=
  SGSIPParseURI_v6 parseIP u uri0 uri h h6

/-- Witness for C16 at `sip:[::1]:5060` with a recogniser that accepts `::1`. -/
theorem SGSIPParseURI_ipv6_bracketed_witness :
    ("[::1]".toList).head? = some '[' ∧ ("[::1]".toList).getLast? = some ']' :=
  SGSIPParseURI_ipv6_bracketed (fun a => decide (a = "::1".toList)) "sip:[::1]:5060".toList {}
    { Val := "sip:[::1]:5060".toList, Schema := "sip".toList, SchemaId := SchemaSIP,
      Addr := "[::1]".toList, Port := "5060".toList, PortNo := 5060,
      Proto := "udp".toList, ProtoId := ProtoUDP, AType := AFIPv6 }
    (by decide) (by decide)

/-! ## Header block parser: totality -/

theorem cut_snd_length_lt (sep s a b : Str) (hsep : sep ≠ []) (h : cut sep s = some (a, b)) :
    b.length < s.length := by
  have hs := cut_some_eq sep s a b h
  have hpos : 0 < sep.length := List.length_pos.mpr hsep
  rw [hs, List.length_append, List.length_append]
  omega

theorem slice_first_of_ne (s : Str) (h : s.length ≠ 0) :
    ∃ x t, s = x :: t ∧ slice s 0 1 = Except.ok [x] := by
  cases s with
  | nil => simp at h
  | cons x t => exact ⟨x, t, rfl, slice_first x t⟩

theorem headerBodyLoop_total : ∀ (k : Nat) (rest body : Str), rest.length < k →
    headerBodyLoop k rest body = Except.ok none ∨
    ∃ b r, headerBodyLoop k rest body = Except.ok (some (b, r)) ∧ r.length < rest.length := by
  intro k
  induction k with
  | zero =>
    intro rest body h
    omega
  | succ k ih =>
    intro rest body h
    unfold headerBodyLoop
    cases hc : cut ['\n'] rest with
    | none =>
      left
      simp [SplitN2, hc]
    | some p =>
      have hlt := cut_snd_length_lt ['\n'] rest p.1 p.2 (by simp) hc
      simp only [SplitN2, hc, List.length_cons, List.length_nil, elemAt, List.get?,
        exec_bind_ok]
      by_cases h0 : p.2.length = 0
      · right
        exact ⟨body ++ p.1, p.2, by simp [h0], hlt⟩
      · obtain ⟨x, t, hx, hsl⟩ := slice_first_of_ne p.2 h0
        simp only [Nat.zero_add, Nat.reduceAdd, Nat.lt_irrefl, if_false, h0, hsl,
          exec_bind_ok]
        split_ifs with hcnd
        · right
          exact ⟨body ++ p.1, p.2, rfl, hlt⟩
        · rcases ih p.2 (body ++ p.1) (by omega) with e | ⟨b, r, e, hr⟩
          · left
            exact e
          · right
            exact ⟨b, r, e, by omega⟩

theorem headersLoop_total : ∀ (k : Nat) (s : Str) (hl : List SGSIPHeader), s.length < k →
    ∃ (code : Int) (hl2 : List SGSIPHeader),
      headersLoop k s hl = Except.ok (code, hl2) ∧
      (code = SGSIPRetOK ∨ code = SGSIPRetErr) ∧
      (code = SGSIPRetOK → ∃ new : List SGSIPHeader, new ≠ [] ∧ hl2 = hl ++ new) := by
  intro k
  induction k with
  | zero =>
    intro s hl h
    omega
  | succ k ih =>
    intro s hl h
    unfold headersLoop
    cases hc : cut [':'] s with
    | none =>
      exact ⟨SGSIPRetErr, hl, by simp [SplitN2, hc], Or.inr rfl, fun e => absurd e (by decide)⟩
    | some p =>
      have hlt := cut_snd_length_lt [':'] s p.1 p.2 (by simp) hc
      simp only [SplitN2, hc, List.length_cons, List.length_nil, elemAt, List.get?,
        exec_bind_ok, Nat.zero_add, Nat.reduceAdd, Nat.lt_irrefl, if_false]
      split_ifs with h1 h2
      · exact ⟨SGSIPRetErr, hl, rfl, Or.inr rfl, fun e => absurd e (by decide)⟩
      · exact ⟨SGSIPRetErr, hl, rfl, Or.inr rfl, fun e => absurd e (by decide)⟩
      · rcases headerBodyLoop_total (p.2.length + 1) p.2 [] (by omega) with e | ⟨b, r, e, hr⟩
        · rw [e]
          exact ⟨SGSIPRetErr, hl, rfl, Or.inr rfl, fun e => absurd e (by decide)⟩
        · rw [e]
          simp only [exec_bind_ok]
          by_cases h0 : r.length = 0
          · simp only [h0, if_true]
            exact ⟨SGSIPRetOK, _, rfl, Or.inl rfl, fun _ => ⟨_, by simp, rfl⟩⟩
          · obtain ⟨x, t, hx, hsl⟩ := slice_first_of_ne r h0
            simp only [h0, if_false, hsl, exec_bind_ok]
            split_ifs with hcnd
            · exact ⟨SGSIPRetOK, _, rfl, Or.inl rfl, fun _ => ⟨_, by simp, rfl⟩⟩
            · obtain ⟨code, hl2, e2, hcode, hnew⟩ := ih r
                (hl ++ [{ Name := TrimRight p.1 [' ', '\t'], Body := Trim b wsCR }]) (by omega)
              refine ⟨code, hl2, e2, hcode, fun hok => ?_⟩
              obtain ⟨new, _, hn⟩ := hnew hok
              exact ⟨{ Name := TrimRight p.1 [' ', '\t'], Body := Trim b wsCR } :: new,
                by simp, by rw [hn]; simp⟩

theorem parseHeadersFrom_total (s : Str) (hl : List SGSIPHeader) :
    ∃ (code : Int) (hl2 : List SGSIPHeader),
      parseHeadersFrom s hl = Except.ok (code, hl2) ∧
      (code = SGSIPRetOK ∨ code = SGSIPRetErr) ∧
      (code = SGSIPRetOK → ∃ new : List SGSIPHeader, new ≠ [] ∧ hl2 = hl ++ new) := by
  unfold parseHeadersFrom
  by_cases h0 : s.length = 0
  · simp only [h0, if_true]
    exact ⟨SGSIPRetErr, hl, rfl, Or.inr rfl, fun e => absurd e (by decide)⟩
  · obtain ⟨x, t, hx, hsl⟩ := slice_first_of_ne s h0
    simp only [h0, if_false, hsl, exec_bind_ok]
    split_ifs with hcnd
    · exact ⟨SGSIPRetErr, hl, rfl, Or.inr rfl, fun e => absurd e (by decide)⟩
    · exact headersLoop_total (s.length + 1) s hl (by omega)

theorem parseHeaders_returns (inputStr : Str) (pMode : Int) (hl : List SGSIPHeader) :
    ∃ (code : Int) (hl2 : List SGSIPHeader),
      SGSIPParseHeaders inputStr pMode hl = Except.ok (code, hl2) ∧
      (code = SGSIPRetOK ∨ code = SGSIPRetErr) ∧
      (code = SGSIPRetOK → ∃ new : List SGSIPHeader, new ≠ [] ∧ hl2 = hl ++ new) := by
  unfold SGSIPParseHeaders
  split_ifs with hm
  · cases hc : cut ['\n'] inputStr with
    | none =>
      exact ⟨SGSIPRetErr, hl, by simp [SplitN2, hc], Or.inr rfl,
        fun e => absurd e (by decide)⟩
    | some p =>
      simp only [SplitN2, hc, List.length_cons, List.length_nil, elemAt, List.get?,
        exec_bind_ok, Nat.zero_add, Nat.reduceAdd, Nat.lt_irrefl, if_false]
      exact parseHeadersFrom_total p.2 hl
  · exact parseHeadersFrom_total _ hl

/-- C19: for every input, either mode and every header list passed in,
`SGSIPParseHeaders` returns (no bounds fault, and the loop budget of one pass per
remaining byte is never exhausted, since every pass of the inner and of the
outer loop strictly shortens the remaining text) with code OK or the generic
error; and when it returns OK the list is the one passed in followed by at
least one new header. -/
theorem SGSIPParseHeaders_total (inputStr : Str) (pMode : Int) (hl : List SGSIPHeader) :
    ∃ (code : Int) (hl2 : List SGSIPHeader),
      SGSIPParseHeaders inputStr pMode hl = Except.ok (code, hl2) ∧
      (code = SGSIPRetOK ∨ code = SGSIPRetErr) ∧
      (code = SGSIPRetOK → ∃ new : List SGSIPHeader, new ≠ [] ∧ hl2 = hl ++ new) :=
  parseHeaders_returns inputStr pMode hl

/-! ## Digest parameters -/

theorem splitAll_fuel (sep : Str) (hsep : sep ≠ []) : ∀ (k1 k2 : Nat) (s : Str),
    s.length ≤ k1 → s.length ≤ k2 → splitAll sep k1 s = splitAll sep k2 s := by
  intro k1
  induction k1 with
  | zero =>
    intro k2 s h1 _
    have hs : s = [] := List.length_eq_zero.mp (Nat.le_zero.mp h1)
    subst hs
    cases k2 with
    | zero => rfl
    | succ k2 => simp [splitAll, cut, hsep]
  | succ k1 ih =>
    intro k2 s h1 h2
    cases k2 with
    | zero =>
      have hs : s = [] := List.length_eq_zero.mp (Nat.le_zero.mp h2)
      subst hs
      simp [splitAll, cut, hsep]
    | succ k2 =>
      cases hc : cut sep s with
      | none => simp [splitAll, hc]
      | some p =>
        have hlt := cut_snd_length_lt sep s p.1 p.2 hsep hc
        simp only [splitAll, hc]
        rw [ih k2 p.2 (by omega) (by omega)]

theorem Split_cons (sep : Str) (hsep : sep ≠ []) (s a b : Str) (h : cut sep s = some (a, b)) :
    Split s sep = a :: Split b sep := by
  have hlt := cut_snd_length_lt sep s a b hsep h
  obtain ⟨k, hk⟩ : ∃ k, s.length = k + 1 := ⟨s.length - 1, by omega⟩
  unfold Split
  rw [hk]
  simp only [splitAll, h]
  rw [splitAll_fuel sep hsep k b.length b (by omega) (Nat.le_refl _)]

theorem Split_none (sep s : Str) (h : cut sep s = none) : Split s sep = [s] := by
  unfold Split
  cases hk : s.length with
  | zero => rfl
  | succ k => simp [splitAll, h]

theorem digestItem_no_comma (kv : Str × Str) (hk : ',' ∉ kv.1) (hv : ',' ∉ kv.2) :
    ',' ∉ digestItem kv := by
  unfold digestItem
  intro h
  simp only [List.mem_append, List.mem_cons, List.mem_singleton, List.not_mem_nil,
    or_false] at h
  rcases h with ((h | h) | h) | h
  · exact hk h
  · rcases h with h | h <;> exact absurd h (by decide)
  · exact hv h
  · exact absurd h (by decide)

theorem Split_digestItems : ∀ (kvs : List (Str × Str)) (kv : Str × Str),
    (∀ e ∈ kv :: kvs, ',' ∉ e.1 ∧ ',' ∉ e.2) →
    Split (digestItems (kv :: kvs)) [','] =
      digestItem kv :: kvs.map (fun e => ' ' :: digestItem e) := by
  intro kvs
  induction kvs with
  | nil =>
    intro kv h
    have hc := digestItem_no_comma kv (h kv (by simp)).1 (h kv (by simp)).2
    simp only [digestItems, List.map_nil]
    exact Split_none _ _ (cut_single_none ',' _ hc)
  | cons kv2 kvs ih =>
    intro kv h
    have hc := digestItem_no_comma kv (h kv (by simp)).1 (h kv (by simp)).2
    have hrest := ih kv2 (fun e he => h e (by simp [List.mem_cons.mp he]))
    have e1 : digestItems (kv :: kv2 :: kvs) =
        digestItem kv ++ ',' :: (' ' :: digestItems (kv2 :: kvs)) := by
      simp [digestItems]
    have hcut := cut_single_of_not_mem ',' (digestItem kv) (' ' :: digestItems (kv2 :: kvs)) hc
    rw [e1, Split_cons [','] (by simp) _ _ _ hcut]
    -- the rest starts with a space, which joins the first piece
    have hsp : Split (' ' :: digestItems (kv2 :: kvs)) [','] =
        (' ' :: digestItem kv2) :: kvs.map (fun e => ' ' :: digestItem e) := by
      cases hc2 : cut [','] (digestItems (kv2 :: kvs)) with
      | none =>
        have h1 := Split_none _ _ hc2
        rw [hrest] at h1
        have hc3 : cut [','] (' ' :: digestItems (kv2 :: kvs)) = none := by
          simp [cut, hc2]
        rw [Split_none _ _ hc3]
        simp only [List.cons.injEq] at h1
        cases kvs with
        | nil => simp [h1.1]
        | cons e es => simp at h1
      | some p =>
        have h1 := Split_cons [','] (by simp) _ _ _ hc2
        rw [hrest] at h1
        have hc3 : cut [','] (' ' :: digestItems (kv2 :: kvs)) = some (' ' :: p.1, p.2) := by
          simp [cut, hc2]
        rw [Split_cons [','] (by simp) _ _ _ hc3]
        simp only [List.cons.injEq] at h1
        rw [← h1.2, h1.1]
    rw [hsp]
    simp

theorem Trim_digest_key (sp k : Str) (hsp : sp = [] ∨ sp = [' '])
    (hk : ∀ c ∈ k, c ≠ ' ' ∧ c ≠ '=' ∧ c ≠ ',' ∧ c ≠ '\"') :
    Trim (sp ++ k) ['\"', ' '] = k := by
  have hall : ∀ c ∈ k, c ∉ ['\"', ' '] := by
    intro c hc
    have := hk c hc
    simp [this.1, this.2.2.2]
  have hkk := Trim_of_all k _ hall
  rcases hsp with e | e
  · rw [e, List.nil_append, hkk]
  · rw [e]
    unfold Trim at *
    have : TrimLeft ([' '] ++ k) ['\"', ' '] = TrimLeft k ['\"', ' '] := by
      simp [TrimLeft]
    rw [this, hkk]

theorem Trim_digest_value (v : Str) (hq : '\"' ∉ v) (hh : v.head? ≠ some ' ')
    (hl : v.getLast? ≠ some ' ') : Trim ('\"' :: (v ++ ['\"'])) ['\"', ' '] = v := by
  unfold Trim
  have e1 : TrimLeft ('\"' :: (v ++ ['\"'])) ['\"', ' '] = TrimLeft (v ++ ['\"']) ['\"', ' '] := by
    simp [TrimLeft]
  rw [e1]
  cases v with
  | nil => simp [TrimLeft, TrimRight]
  | cons x t =>
    have hx : x ∉ ['\"', ' '] := by
      have h1 : x ≠ '\"' := fun e => hq (by simp [e])
      have h2 : x ≠ ' ' := fun e => hh (by simp [e])
      simp [h1, h2]
    rw [List.cons_append, TrimLeft_of_head x _ _ hx, ← List.cons_append,
      TrimRight_concat_drop _ _ '\"' (by simp)]
    unfold TrimRight
    rw [List.rdropWhile_eq_self_iff]
    intro hne
    have hlast : (x :: t).getLast hne ≠ ' ' := by
      intro e
      apply hl
      rw [List.getLast?_eq_getLast _ hne, e]
    have hlq : (x :: t).getLast hne ≠ '\"' := by
      intro e
      apply hq
      rw [← e]
      exact List.getLast_mem hne
    simp [hlast, hlq]

theorem digestLoop_step (sp : Str) (kv : Str × Str) (rest : List Str) (acc : GoMap)
    (hsp : sp = [] ∨ sp = [' '])
    (hk : ∀ c ∈ kv.1, c ≠ ' ' ∧ c ≠ '=' ∧ c ≠ ',' ∧ c ≠ '\"')
    (hq : '\"' ∉ kv.2) (hh : kv.2.head? ≠ some ' ') (hl : kv.2.getLast? ≠ some ' ') :
    digestLoop ((sp ++ digestItem kv) :: rest) acc = digestLoop rest ((kv.1, kv.2) :: acc) := by
  have hne : '=' ∉ sp ++ kv.1 := by
    intro h
    rcases List.mem_append.mp h with h | h
    · rcases hsp with e | e
      · rw [e] at h
        simp at h
      · rw [e] at h
        exact absurd h (by decide)
    · exact (hk _ h).2.1 rfl
  have e1 : sp ++ digestItem kv = (sp ++ kv.1) ++ '=' :: ('\"' :: (kv.2 ++ ['\"'])) := by
    simp [digestItem]
  have hs := SplitN2_of_cut _ _ _ _ (cut_single_of_not_mem '=' (sp ++ kv.1)
    ('\"' :: (kv.2 ++ ['\"'])) hne)
  rw [digestLoop, e1, hs]
  simp only
  rw [Trim_digest_key sp kv.1 hsp hk, Trim_digest_value kv.2 hq hh hl]

theorem digestLoop_map : ∀ (kvs : List (Str × Str)) (acc : GoMap),
    (∀ e ∈ kvs, (∀ c ∈ e.1, c ≠ ' ' ∧ c ≠ '=' ∧ c ≠ ',' ∧ c ≠ '\"') ∧
      '\"' ∉ e.2 ∧ e.2.head? ≠ some ' ' ∧ e.2.getLast? ≠ some ' ') →
    digestLoop (kvs.map (fun e => ' ' :: digestItem e)) acc = kvs.reverse ++ acc := by
  intro kvs
  induction kvs with
  | nil =>
    intro acc _
    rfl
  | cons kv kvs ih =>
    intro acc h
    have hkv := h kv (by simp)
    have := digestLoop_step [' '] kv (kvs.map (fun e => ' ' :: digestItem e)) acc
      (Or.inr rfl) hkv.1 hkv.2.1 hkv.2.2.1 hkv.2.2.2
    simp only [List.map_cons, List.singleton_append] at this ⊢
    rw [this, ih _ (fun e he => h e (by simp [he]))]
    simp

theorem mapGet_of_nodup : ∀ (m : GoMap), (m.map Prod.fst).Nodup →
    ∀ kv ∈ m, mapGet m kv.1 = some kv.2 := by
  intro m
  induction m with
  | nil => simp
  | cons e m ih =>
    intro hnd kv hkv
    simp only [List.map_cons, List.nodup_cons] at hnd
    rcases List.mem_cons.mp hkv with h | h
    · subst h
      simp [mapGet]
    · have hne : ¬ e.1 = kv.1 := by
        intro heq
        apply hnd.1
        rw [heq]
        exact List.mem_map_of_mem Prod.fst h
      have := ih hnd.2 kv h
      unfold mapGet at this ⊢
      simp only [List.find?_cons, hne, decide_False]
      exact this

theorem mapGet_none_of_absent : ∀ (m : GoMap) (k : Str), (∀ kv ∈ m, kv.1 ≠ k) →
    mapGet m k = none := by
  intro m
  induction m with
  | nil =>
    intro k _
    rfl
  | cons e m ih =>
    intro k h
    have hne : ¬ e.1 = k := h e (by simp)
    have := ih k (fun kv hkv => h kv (by simp [hkv]))
    unfold mapGet at this ⊢
    simp only [List.find?_cons, hne, decide_False]
    exact this

/-- C13 (amended): for every body `Digest k1="v1", k2="v2", ...` with at least one
pair and pairwise distinct keys, the keys holding no space, `=`, `,` or double
quote and the values holding no double quote and no comma and neither starting
nor ending with a space, `SGSIPHeaderParseDigestAuthBody` returns a map that
binds each `ki` to `vi` (surrounding quotes removed) and binds no other key. -/
theorem SGSIPHeaderParseDigestAuthBody_pairs (kv : Str × Str) (kvs : List (Str × Str))
    (hkeys : ((kv :: kvs).map Prod.fst).Nodup)
    (hk : ∀ e ∈ kv :: kvs, ∀ c ∈ e.1, c ≠ ' ' ∧ c ≠ '=' ∧ c ≠ ',' ∧ c ≠ '\"')
    (hv : ∀ e ∈ kv :: kvs, '\"' ∉ e.2 ∧ ',' ∉ e.2 ∧
      e.2.head? ≠ some ' ' ∧ e.2.getLast? ≠ some ' ') :
    ∃ m : GoMap,
      SGSIPHeaderParseDigestAuthBody ("Digest ".toList ++ digestItems (kv :: kvs)) = some m ∧
      (∀ e ∈ kv :: kvs, mapGet m e.1 = some e.2) ∧
      (∀ k, (∀ e ∈ kv :: kvs, e.1 ≠ k) → mapGet m k = none) := by
  have hsplit := Split_digestItems kvs kv
    (fun e he => ⟨fun hc => (hk e he ',' hc).2.2.1 rfl, (hv e he).2.1⟩)
  -- the body ends with a double quote, so trimming spaces changes nothing
  have hlast : ∀ (l : List (Str × Str)) (e : Str × Str), ∃ t, digestItems (e :: l) = t ++ ['\"'] := by
    intro l
    induction l with
    | nil =>
      intro e
      exact ⟨e.1 ++ ['=', '\"'] ++ e.2, by simp [digestItems, digestItem]⟩
    | cons e2 l ih =>
      intro e
      obtain ⟨t, ht⟩ := ih e2
      exact ⟨digestItem e ++ [',', ' '] ++ t, by
        simp only [digestItems]
        rw [ht]
        simp⟩
  obtain ⟨t, ht⟩ := hlast kvs kv
  have htrim : Trim ("Digest ".toList ++ digestItems (kv :: kvs)) [' '] =
      "Digest ".toList ++ digestItems (kv :: kvs) := by
    unfold Trim
    have e0 : "Digest ".toList ++ digestItems (kv :: kvs) =
        'D' :: ("igest ".toList ++ digestItems (kv :: kvs)) := by simp
    rw [e0, TrimLeft_of_head 'D' _ _ (by decide), ht]
    have e1 : 'D' :: ("igest ".toList ++ (t ++ ['\"'])) =
        ('D' :: ("igest ".toList ++ t)) ++ ['\"'] := by simp
    rw [e1, TrimRight_concat_keep _ _ '\"' (by decide)]
  have hcut : cut [' '] ("Digest ".toList ++ digestItems (kv :: kvs)) =
      some ("Digest".toList, digestItems (kv :: kvs)) := by
    have := cut_single_of_not_mem ' ' "Digest".toList (digestItems (kv :: kvs)) (by decide)
    have e : "Digest ".toList ++ digestItems (kv :: kvs) =
        "Digest".toList ++ ' ' :: digestItems (kv :: kvs) := by simp
    rw [e, this]
  have hkv : ∀ e ∈ kv :: kvs, (∀ c ∈ e.1, c ≠ ' ' ∧ c ≠ '=' ∧ c ≠ ',' ∧ c ≠ '\"') ∧
      '\"' ∉ e.2 ∧ e.2.head? ≠ some ' ' ∧ e.2.getLast? ≠ some ' ' :=
    fun e he => ⟨hk e he, (hv e he).1, (hv e he).2.2.1, (hv e he).2.2.2⟩
  have hfirst := digestLoop_step [] kv (kvs.map (fun e => ' ' :: digestItem e)) []
    (Or.inl rfl) (hkv kv (by simp)).1 (hkv kv (by simp)).2.1 (hkv kv (by simp)).2.2.1
    (hkv kv (by simp)).2.2.2
  rw [List.nil_append] at hfirst
  have hloop : digestLoop (Split (digestItems (kv :: kvs)) [',']) [] = (kv :: kvs).reverse := by
    rw [hsplit, hfirst, digestLoop_map kvs _ (fun e he => hkv e (by simp [he]))]
    simp
  refine ⟨(kv :: kvs).reverse, ?_, ?_, ?_⟩
  · unfold SGSIPHeaderParseDigestAuthBody
    rw [htrim, SplitN2_of_cut _ _ _ _ hcut]
    simp only [ne_eq, not_true_eq_false, if_false, hloop]
  · intro e he
    apply mapGet_of_nodup
    · rw [List.map_reverse]
      exact List.nodup_reverse.mpr hkeys
    · exact List.mem_reverse.mpr he
  · intro k hk2
    apply mapGet_none_of_absent
    intro e he
    exact hk2 e (List.mem_reverse.mp he)

/-- Witness for the amended C13 at `Digest realm="a b", nonce="xyz="`. -/
theorem SGSIPHeaderParseDigestAuthBody_pairs_witness :
    ∃ m : GoMap,
      SGSIPHeaderParseDigestAuthBody ("Digest ".toList ++
        digestItems (("realm".toList, "a b".toList) :: [("nonce".toList, "xyz=".toList)])) =
          some m ∧
      (∀ e ∈ ("realm".toList, "a b".toList) :: [("nonce".toList, "xyz=".toList)],
        mapGet m e.1 = some e.2) ∧
      (∀ k, (∀ e ∈ ("realm".toList, "a b".toList) :: [("nonce".toList, "xyz=".toList)],
        e.1 ≠ k) → mapGet m k = none) :=
  SGSIPHeaderParseDigestAuthBody_pairs ("realm".toList, "a b".toList)
    [("nonce".toList, "xyz=".toList)] (by decide) (by decide) (by decide)

/-- C13 as stated fails: on `Digest realm="a", qop="auth,auth-int"`, with distinct
keys and a quoted value holding a comma, the returned map binds `qop` to `auth`,
not to `auth,auth-int`. -/
theorem SGSIPHeaderParseDigestAuthBody_counterexample :
    SGSIPHeaderParseDigestAuthBody "Digest realm=\"a\", qop=\"auth,auth-int\"".toList =
      some [("qop".toList, "auth".toList), ("realm".toList, "a".toList)] ∧
    mapGet [("qop".toList, "auth".toList), ("realm".toList, "a".toList)] "qop".toList =
      some "auth".toList ∧
    "auth".toList ≠ "auth,auth-int".toList := by
  decide

/-! ## Parse and serialise round trip -/

theorem TrimLeft_mem (s cs : Str) (c : Char) (h : c ∈ TrimLeft s cs) : c ∈ s :=
  (List.dropWhile_suffix _).subset h

theorem TrimRight_mem (s cs : Str) (c : Char) (h : c ∈ TrimRight s cs) : c ∈ s :=
  (List.rdropWhile_prefix _ s).subset h

theorem Trim_mem (s cs : Str) (c : Char) (h : c ∈ Trim s cs) : c ∈ s :=
  TrimLeft_mem s cs c (TrimRight_mem _ cs c h)

theorem Trim_idem (s cs : Str) : Trim (Trim s cs) cs = Trim s cs := by
  have hR : TrimRight (Trim s cs) cs = Trim s cs := by
    unfold Trim TrimRight
    exact List.rdropWhile_idempotent _ _
  have hL : TrimLeft (Trim s cs) cs = Trim s cs := by
    cases ht : Trim s cs with
    | nil => rfl
    | cons x t =>
      apply TrimLeft_of_head
      -- x is the head of `TrimLeft s cs`, which is not in the cut set
      have hpre : (x :: t) <+: TrimLeft s cs := by
        rw [← ht]
        unfold Trim TrimRight
        exact List.rdropWhile_prefix _ _
      obtain ⟨u, hu⟩ := hpre
      intro hx
      have hd : TrimLeft (TrimLeft s cs) cs = TrimLeft s cs := by
        unfold TrimLeft
        exact List.dropWhile_idempotent _ _
      rw [← hu] at hd
      simp [TrimLeft, hx] at hd
      have hsuf := (List.dropWhile_suffix (fun c => decide (c ∈ cs)) (l := t ++ u)).length_le
      rw [hd] at hsuf
      simp at hsuf
  conv_lhs => rw [Trim, hL, hR]

theorem cut_single_fst_not_mem (c : Char) : ∀ (s a b : Str), cut [c] s = some (a, b) → c ∉ a := by
  intro s
  induction s with
  | nil =>
    intro a b h
    simp [cut] at h
  | cons x s ih =>
    intro a b h
    by_cases hx : c = x
    · simp [cut, hx] at h
      rw [h.1]
      simp
    · cases hc : cut [c] s with
      | none => simp [cut, hx, hc] at h
      | some p =>
        simp [cut, hx, hc] at h
        have := ih p.1 p.2 hc
        rw [← h.1]
        intro hm
        rcases List.mem_cons.mp hm with e | e
        · exact hx e
        · exact this e

theorem validNameFrom_chars : ∀ (s : Str) (i : Nat), validNameFrom i s = true →
    ∀ c ∈ s, c ≠ ':' ∧ c ≠ ' ' ∧ c ≠ '\t' ∧ c ≠ '\r' ∧ c ≠ '\n' := by
  intro s
  induction s with
  | nil => simp
  | cons x s ih =>
    intro i h c hc
    rcases List.mem_cons.mp hc with e | e
    · subst e
      refine ⟨?_, ?_, ?_, ?_, ?_⟩ <;>
      · intro e
        subst e
        unfold validNameFrom at h
        simp at h
    · unfold validNameFrom at h
      split_ifs at h
      · exact ih _ h c e
      · exact ih _ h c e

theorem toDigitsCore_pred (P : Char → Prop) (hP : ∀ d, d < 10 → P (Nat.digitChar d)) :
    ∀ (fuel n : Nat) (ds : List Char), (∀ c ∈ ds, P c) →
    ∀ c ∈ Nat.toDigitsCore 10 fuel n ds, P c := by
  intro fuel
  induction fuel with
  | zero =>
    intro n ds h c hc
    simp only [Nat.toDigitsCore] at hc
    exact h c hc
  | succ fuel ih =>
    intro n ds h c hc
    have hd : ∀ c ∈ Nat.digitChar (n % 10) :: ds, P c := by
      intro c hc
      rcases List.mem_cons.mp hc with e | e
      · rw [e]
        exact hP _ (Nat.mod_lt _ (by omega))
      · exact h c e
    simp only [Nat.toDigitsCore] at hc
    split at hc
    · exact hd c hc
    · exact ih _ _ hd c hc

theorem toDigits_no_lf (n : Nat) : '\n' ∉ Nat.toDigits 10 n := by
  intro h
  have := toDigitsCore_pred (fun c => c ≠ '\n')
    (fun d hd => by interval_cases d <;> decide) (n + 1) n [] (by simp) '\n' h
  exact this rfl

theorem cut_blank_skip_line (t : Str) (ht : ¬ ['\r', '\n'] <+: t) : ∀ (x : Str), '\n' ∉ x →
    cut ['\r', '\n', '\r', '\n'] (x ++ '\n' :: t) =
      (cut ['\r', '\n', '\r', '\n'] t).map fun p => (x ++ '\n' :: p.1, p.2) := by
  intro x
  induction x with
  | nil =>
    intro _
    simp [cut]
  | cons y x ih =>
    intro hx
    have hx1 : '\n' ∉ x := fun e => hx (List.mem_cons.mpr (Or.inr e))
    have hnp : List.isPrefixOf ['\r', '\n', '\r', '\n'] (y :: (x ++ '\n' :: t)) = false := by
      rw [Bool.eq_false_iff]
      intro e
      have hp := List.isPrefixOf_iff_prefix.mp e
      cases x with
      | nil =>
        simp only [List.nil_append, List.cons_prefix_cons] at hp
        exact ht hp.2.2
      | cons z x2 =>
        simp only [List.cons_append, List.cons_prefix_cons] at hp
        exact hx1 (by simp [← hp.2.1])
    rw [List.cons_append, cut, hnp, ih hx1]
    cases cut ['\r', '\n', '\r', '\n'] t <;> simp

theorem cut_blank_final (c : Str) : ∀ (x : Str), '\n' ∉ x →
    cut ['\r', '\n', '\r', '\n'] (x ++ ['\r', '\n', '\r', '\n'] ++ c) = some (x, c) := by
  intro x
  induction x with
  | nil =>
    intro _
    simp [cut]
  | cons y x ih =>
    intro hx
    have hx1 : '\n' ∉ x := fun e => hx (List.mem_cons.mpr (Or.inr e))
    have hnp : List.isPrefixOf ['\r', '\n', '\r', '\n']
        (y :: x ++ ['\r', '\n', '\r', '\n'] ++ c) = false := by
      rw [Bool.eq_false_iff]
      intro e
      have hp := List.isPrefixOf_iff_prefix.mp e
      cases x with
      | nil =>
        simp only [List.cons_append, List.nil_append, List.cons_prefix_cons] at hp
        exact absurd hp.2.1 (by decide)
      | cons z x2 =>
        simp only [List.cons_append, List.cons_prefix_cons] at hp
        exact hx1 (by simp [← hp.2.1])
    have e1 : y :: x ++ ['\r', '\n', '\r', '\n'] ++ c =
        y :: (x ++ ['\r', '\n', '\r', '\n'] ++ c) := by simp
    rw [e1] at hnp ⊢
    rw [cut, hnp, ih hx1]
    simp

theorem firstLineResponse_Val (s : Str) (f : SGSIPFirstLine) :
    OKSat (fun r : SGSIPFirstLine => r.Val = f.Val) (firstLineResponse s f) := by
  unfold firstLineResponse
  repeat' first
    | (with_reducible apply okS_ite <;> intro _)
    | (with_reducible apply okS_bind; intro _ _)
    | (with_reducible apply okS_pure; intro _; rfl)

theorem firstLineRequest_Val (s : Str) (f : SGSIPFirstLine) :
    OKSat (fun r : SGSIPFirstLine => r.Val = f.Val) (firstLineRequest s f) := by
  unfold firstLineRequest
  repeat' first
    | (with_reducible apply okS_ite <;> intro _)
    | (with_reducible apply okS_bind; intro _ _)
    | (with_reducible apply okS_pure; intro _; rfl)

theorem first_line_exists (T : Str) :
    ∃ a0, elemAt (SplitN2 T ['\n']) 0 = Except.ok a0 ∧ '\n' ∉ a0 := by
  unfold SplitN2
  cases hc : cut ['\n'] T with
  | none =>
    refine ⟨T, rfl, ?_⟩
    intro hm
    have := cut_single_isSome '\n' T hm
    simp [hc] at this
  | some p => exact ⟨p.1, rfl, cut_single_fst_not_mem '\n' T p.1 p.2 hc⟩

theorem SGSIPParseFirstLine_Val (T a0 : Str) (fl0 : SGSIPFirstLine)
    (ha : elemAt (SplitN2 T ['\n']) 0 = Except.ok a0) :
    OKSat (fun r : SGSIPFirstLine => r.Val = Trim a0 wsCR ∧ 8 ≤ r.Val.length)
      (SGSIPParseFirstLine T fl0) := by
  unfold SGSIPParseFirstLine
  simp only [ha, exec_bind_ok]
  apply okS_ite
  · intro _
    apply okS_pure
    intro hc
    exact absurd hc (by decide)
  · intro h8
    apply okS_bind
    intro first8 _
    apply okS_ite
    · intro _
      refine okS_mono _ _ _ (firstLineResponse_Val _ _) ?_
      intro r hr
      exact ⟨hr, by rw [hr]; simp only; omega⟩
    · intro _
      apply okS_bind
      intro last8 _
      apply okS_ite
      · intro _
        refine okS_mono _ _ _ (firstLineRequest_Val _ _) ?_
        intro r hr
        exact ⟨hr, by rw [hr]; simp only; omega⟩
      · intro _
        apply okS_pure
        intro hc
        exact absurd hc (by decide)

theorem SGSIPParseFirstLine_congr (T1 T2 a1 a2 : Str) (fl0 : SGSIPFirstLine)
    (h1 : elemAt (SplitN2 T1 ['\n']) 0 = Except.ok a1)
    (h2 : elemAt (SplitN2 T2 ['\n']) 0 = Except.ok a2)
    (heq : Trim a1 wsCR = Trim a2 wsCR) :
    SGSIPParseFirstLine T1 fl0 = SGSIPParseFirstLine T2 fl0 := by
  unfold SGSIPParseFirstLine
  simp only [h1, h2, exec_bind_ok, heq]

theorem SGSIPParseFirstLine_reparse (T rest : Str) (fl : SGSIPFirstLine)
    (h : SGSIPParseFirstLine T {} = Except.ok (SGSIPRetOK, fl)) :
    SGSIPParseFirstLine (fl.Val ++ ['\r', '\n'] ++ rest) {} = Except.ok (SGSIPRetOK, fl) ∧
    '\n' ∉ fl.Val ∧ fl.Val ≠ [] := by
  obtain ⟨a0, ha0, hnl⟩ := first_line_exists T
  obtain ⟨hval, hlen⟩ := SGSIPParseFirstLine_Val T a0 {} ha0 fl h
  have hnv : '\n' ∉ fl.Val := by
    rw [hval]
    exact fun e => hnl (Trim_mem _ _ _ e)
  have hne : fl.Val ≠ [] := by
    intro e
    rw [e] at hlen
    simp at hlen
  refine ⟨?_, hnv, hne⟩
  have hnl2 : '\n' ∉ fl.Val ++ ['\r'] := by
    intro e
    rcases List.mem_append.mp e with e | e
    · exact hnv e
    · exact absurd e (by decide)
  have hsplit : elemAt (SplitN2 (fl.Val ++ ['\r', '\n'] ++ rest) ['\n']) 0 =
      Except.ok (fl.Val ++ ['\r']) := by
    have e : fl.Val ++ ['\r', '\n'] ++ rest = (fl.Val ++ ['\r']) ++ '\n' :: rest := by simp
    rw [e, SplitN2_of_cut _ _ _ _ (cut_single_of_not_mem '\n' _ rest hnl2)]
    rfl
  rw [← h]
  apply SGSIPParseFirstLine_congr _ _ _ _ _ hsplit ha0
  rw [Trim_concat_drop _ _ '\r' (by decide), hval, Trim_idem]

theorem headerBodyLoop_no_lf : ∀ (k : Nat) (rest body b r : Str), '\n' ∉ body →
    headerBodyLoop k rest body = Except.ok (some (b, r)) → '\n' ∉ b := by
  intro k
  induction k with
  | zero =>
    intro rest body b r _ h
    simp [headerBodyLoop] at h
  | succ k ih =>
    intro rest body b r hb h
    unfold headerBodyLoop at h
    cases hc : cut ['\n'] rest with
    | none => simp [SplitN2, hc] at h
    | some p =>
      have hp := cut_single_fst_not_mem '\n' rest p.1 p.2 hc
      have hbp : '\n' ∉ body ++ p.1 := by
        intro e
        rcases List.mem_append.mp e with e | e
        · exact hb e
        · exact hp e
      simp only [SplitN2, hc, List.length_cons, List.length_nil, elemAt, List.get?,
        exec_bind_ok, Nat.zero_add, Nat.reduceAdd, Nat.lt_irrefl, if_false] at h
      by_cases h0 : p.2.length = 0
      · simp only [h0, if_true, exec_pure, Except.ok.injEq, Option.some.injEq,
          Prod.mk.injEq] at h
        rw [← h.1]
        exact hbp
      · obtain ⟨x, t, hx, hsl⟩ := slice_first_of_ne p.2 h0
        simp only [h0, if_false, hsl, exec_bind_ok] at h
        split_ifs at h with hcnd
        · simp only [exec_pure, Except.ok.injEq, Option.some.injEq, Prod.mk.injEq] at h
          rw [← h.1]
          exact hbp
        · exact ih _ _ _ _ hbp h

theorem headersLoop_clean : ∀ (k : Nat) (s : Str) (hl hl2 : List SGSIPHeader),
    (∀ h ∈ hl, CleanHeader h) → headersLoop k s hl = Except.ok (SGSIPRetOK, hl2) →
    ∀ h ∈ hl2, CleanHeader h := by
  intro k
  induction k with
  | zero =>
    intro s hl hl2 _ h
    simp [headersLoop] at h
  | succ k ih =>
    intro s hl hl2 hcl h
    unfold headersLoop at h
    cases hc : cut [':'] s with
    | none => simp [SplitN2, hc] at h
    | some p =>
      simp only [SplitN2, hc, List.length_cons, List.length_nil, elemAt, List.get?,
        exec_bind_ok, Nat.zero_add, Nat.reduceAdd, Nat.lt_irrefl, if_false] at h
      split_ifs at h with h1 h2
      · simp at h
      · simp at h
      · cases hb : headerBodyLoop (p.2.length + 1) p.2 [] with
        | error e => simp [hb] at h
        | ok ob =>
          cases ob with
          | none => simp [hb] at h
          | some br =>
            have hnl := headerBodyLoop_no_lf _ _ _ br.1 br.2 (by simp) hb
            have hvalid : SGSIPHeaderValidName p.1 = true := by
              cases hv : SGSIPHeaderValidName p.1 with
              | true => rfl
              | false => exact absurd hv h2
            have hchars := validNameFrom_chars p.1 0 hvalid
            have hname : TrimRight p.1 [' ', '\t'] = p.1 :=
              TrimRight_of_all _ _ (fun c hc0 => by
                have := hchars c hc0
                simp [this.2.1, this.2.2.1])
            have hne : p.1 ≠ [] := by
              intro e
              apply h1
              left
              rw [e]
              rfl
            have hnew : CleanHeader
                { Name := TrimRight p.1 [' ', '\t'], Body := Trim br.1 wsCR } := by
              refine ⟨?_, ?_, ?_, ?_, rfl⟩
              · rw [hname]
                exact hne
              · rw [hname]
                exact hvalid
              · exact fun e => hnl (Trim_mem _ _ _ e)
              · exact Trim_idem _ _
            have hcl2 : ∀ h ∈ hl ++
                [({ Name := TrimRight p.1 [' ', '\t'], Body := Trim br.1 wsCR } : SGSIPHeader)],
                CleanHeader h := by
              intro h hh
              rcases List.mem_append.mp hh with e | e
              · exact hcl h e
              · simp only [List.mem_singleton] at e
                rw [e]
                exact hnew
            simp only [hb, exec_bind_ok] at h
            by_cases h0 : br.2.length = 0
            · simp only [h0, if_true, exec_pure, Except.ok.injEq, Prod.mk.injEq,
                true_and] at h
              rw [← h]
              exact hcl2
            · obtain ⟨x, t, hx, hsl⟩ := slice_first_of_ne br.2 h0
              simp only [h0, if_false, hsl, exec_bind_ok] at h
              split_ifs at h with hcnd
              · simp only [exec_pure, Except.ok.injEq, Prod.mk.injEq, true_and] at h
                rw [← h]
                exact hcl2
              · exact ih _ _ _ hcl2 h

theorem SGSIPParseHeaders_clean (T : Str) (hl2 : List SGSIPHeader)
    (h : SGSIPParseHeaders T 0 [] = Except.ok (SGSIPRetOK, hl2)) :
    (∀ e ∈ hl2, CleanHeader e) ∧ hl2 ≠ [] := by
  constructor
  · unfold SGSIPParseHeaders at h
    simp only [if_true] at h
    cases hc : cut ['\n'] T with
    | none => simp [SplitN2, hc] at h
    | some p =>
      simp only [SplitN2, hc, List.length_cons, List.length_nil, elemAt, List.get?,
        exec_bind_ok, Nat.zero_add, Nat.reduceAdd, Nat.lt_irrefl, if_false] at h
      unfold parseHeadersFrom at h
      by_cases h0 : p.2.length = 0
      · simp [h0] at h
      · obtain ⟨x, t, hx, hsl⟩ := slice_first_of_ne p.2 h0
        simp only [h0, if_false, hsl, exec_bind_ok] at h
        split_ifs at h with hcnd
        · simp at h
        · exact headersLoop_clean _ _ _ _ (by simp) h
  · obtain ⟨code, hl3, e, _, hnew⟩ := parseHeaders_returns T 0 []
    rw [h] at e
    simp only [Except.ok.injEq, Prod.mk.injEq] at e
    obtain ⟨new, hne, hn⟩ := hnew e.1.symm
    rw [e.2, hn]
    simpa using hne

theorem CleanHeader_name_chars (h : SGSIPHeader) (hc : CleanHeader h) :
    ∀ c ∈ h.Name, c ≠ ':' ∧ c ≠ ' ' ∧ c ≠ '\t' ∧ c ≠ '\r' ∧ c ≠ '\n' :=
  validNameFrom_chars h.Name 0 hc.2.1

theorem headerLines_first (hs : List SGSIPHeader) (hc : ∀ h ∈ hs, CleanHeader h) (C : Str) :
    ∃ x R, headerLines hs ++ ['\r', '\n'] ++ C = x :: R ∧ x ≠ ' ' ∧ x ≠ '\t' ∧ x ≠ '\n' ∧
      (hs = [] → x = '\r') ∧ (hs ≠ [] → x ≠ '\r') := by
  cases hs with
  | nil => exact ⟨'\r', '\n' :: C, by simp [headerLines], by decide, by decide, by decide,
      fun _ => rfl, fun e => absurd rfl e⟩
  | cons h hs =>
    have hcl := hc h (by simp)
    obtain ⟨x, t, hx⟩ := List.exists_cons_of_ne_nil hcl.1
    have hch := CleanHeader_name_chars h hcl x (by simp [hx])
    refine ⟨x, t ++ [':', ' '] ++ h.Body ++ ['\r', '\n'] ++ headerLines hs ++ ['\r', '\n'] ++ C,
      by simp [headerLines, hx], hch.2.1, hch.2.2.1, hch.2.2.2.2, fun e => absurd e (by simp),
      fun _ => hch.2.2.2.1⟩

theorem Trim_header_line (b : Str) (hb : Trim b wsCR = b) :
    Trim (' ' :: (b ++ ['\r'])) wsCR = b := by
  have e : ' ' :: (b ++ ['\r']) = (' ' :: b) ++ ['\r'] := by simp
  rw [e, Trim_concat_drop _ _ '\r' (by decide)]
  have e2 : Trim (' ' :: b) wsCR = Trim b wsCR := by
    unfold Trim
    have : TrimLeft (' ' :: b) wsCR = TrimLeft b wsCR := by
      simp [TrimLeft, wsCR]
    rw [this]
  rw [e2, hb]

theorem headersLoop_reparse : ∀ (hs : List SGSIPHeader) (h : SGSIPHeader)
    (acc : List SGSIPHeader) (C : Str) (k : Nat),
    (∀ e ∈ h :: hs, CleanHeader e) → hs.length < k →
    headersLoop k (headerLines (h :: hs) ++ ['\r', '\n'] ++ C) acc =
      Except.ok (SGSIPRetOK, acc ++ h :: hs) := by
  intro hs
  induction hs with
  | nil =>
    intro h acc C k hcl hk
    obtain ⟨k1, rfl⟩ : ∃ k1, k = k1 + 1 := ⟨k - 1, by omega⟩
    have hc := hcl h (by simp)
    have hch := CleanHeader_name_chars h hc
    have es : headerLines [h] ++ ['\r', '\n'] ++ C =
        h.Name ++ ':' :: ((' ' :: (h.Body ++ ['\r'])) ++ '\n' :: ('\r' :: '\n' :: C)) := by
      simp [headerLines]
    have hcut1 := cut_single_of_not_mem ':' h.Name
      ((' ' :: (h.Body ++ ['\r'])) ++ '\n' :: ('\r' :: '\n' :: C)) (fun e => (hch _ e).1 rfl)
    have hnl : '\n' ∉ ' ' :: (h.Body ++ ['\r']) := by
      intro e
      rcases List.mem_cons.mp e with e | e
      · exact absurd e (by decide)
      · rcases List.mem_append.mp e with e | e
        · exact hc.2.2.1 e
        · exact absurd e (by decide)
    have hcutn := cut_single_of_not_mem '\n' (' ' :: (h.Body ++ ['\r'])) ('\r' :: '\n' :: C) hnl
    have hname : TrimRight h.Name [' ', '\t'] = h.Name :=
      TrimRight_of_all _ _ (fun c hc0 => by
        have := hch c hc0
        simp [this.2.1, this.2.2.1])
    have hbody := Trim_header_line h.Body hc.2.2.2.1
    have hinner : headerBodyLoop
        (((' ' :: (h.Body ++ ['\r'])) ++ '\n' :: ('\r' :: '\n' :: C)).length + 1)
        ((' ' :: (h.Body ++ ['\r'])) ++ '\n' :: ('\r' :: '\n' :: C)) [] =
        Except.ok (some (' ' :: (h.Body ++ ['\r']), '\r' :: '\n' :: C)) := by
      rw [headerBodyLoop]
      simp only [SplitN2, hcutn, elemAt, List.get?, exec_bind_ok, slice_first]
      simp
    have hn0 : ¬ (h.Name.length = 0 ∨
        ((' ' :: (h.Body ++ ['\r'])) ++ '\n' :: ('\r' :: '\n' :: C)).length = 0) := by
      intro e
      rcases e with e | e
      · exact hc.1 (List.length_eq_zero.mp e)
      · simp at e
    have hv : ¬ (SGSIPHeaderValidName h.Name = false) := by
      rw [hc.2.1]
      simp
    rw [es, headersLoop]
    simp only [SplitN2, hcut1, elemAt, List.get?, exec_bind_ok, List.length_cons,
      List.length_nil, Nat.zero_add, Nat.reduceAdd, Nat.lt_irrefl, if_false]
    rw [if_neg hn0, if_neg hv, hinner]
    simp only [exec_bind_ok, hname, hbody, slice_first]
    have hh : ({ Name := h.Name, Body := h.Body } : SGSIPHeader) = h := by
      cases h with
      | mk n b t =>
        have := hc.2.2.2.2
        simp only at this
        simp [this]
    simp [hh]
  | cons h2 hs ih =>
    intro h acc C k hcl hk
    obtain ⟨k1, rfl⟩ : ∃ k1, k = k1 + 1 := ⟨k - 1, by omega⟩
    have hc := hcl h (by simp)
    have hch := CleanHeader_name_chars h hc
    have hcl2 : ∀ e ∈ h2 :: hs, CleanHeader e := fun e he => hcl e (by simp [List.mem_cons.mp he])
    obtain ⟨x, R, hR, hx1, hx2, hx3, _, hx5⟩ := headerLines_first (h2 :: hs) hcl2 C
    have es : headerLines (h :: h2 :: hs) ++ ['\r', '\n'] ++ C =
        h.Name ++ ':' :: ((' ' :: (h.Body ++ ['\r'])) ++ '\n' ::
          (headerLines (h2 :: hs) ++ ['\r', '\n'] ++ C)) := by
      simp [headerLines]
    have hcut1 := cut_single_of_not_mem ':' h.Name
      ((' ' :: (h.Body ++ ['\r'])) ++ '\n' :: (headerLines (h2 :: hs) ++ ['\r', '\n'] ++ C))
      (fun e => (hch _ e).1 rfl)
    have hnl : '\n' ∉ ' ' :: (h.Body ++ ['\r']) := by
      intro e
      rcases List.mem_cons.mp e with e | e
      · exact absurd e (by decide)
      · rcases List.mem_append.mp e with e | e
        · exact hc.2.2.1 e
        · exact absurd e (by decide)
    have hcutn := cut_single_of_not_mem '\n' (' ' :: (h.Body ++ ['\r']))
      (headerLines (h2 :: hs) ++ ['\r', '\n'] ++ C) hnl
    have hname : TrimRight h.Name [' ', '\t'] = h.Name :=
      TrimRight_of_all _ _ (fun c hc0 => by
        have := hch c hc0
        simp [this.2.1, this.2.2.1])
    have hbody := Trim_header_line h.Body hc.2.2.2.1
    have hxr : x ≠ '\r' := hx5 (by simp)
    have hinner : headerBodyLoop
        (((' ' :: (h.Body ++ ['\r'])) ++ '\n' ::
          (headerLines (h2 :: hs) ++ ['\r', '\n'] ++ C)).length + 1)
        ((' ' :: (h.Body ++ ['\r'])) ++ '\n' ::
          (headerLines (h2 :: hs) ++ ['\r', '\n'] ++ C)) [] =
        Except.ok (some (' ' :: (h.Body ++ ['\r']),
          headerLines (h2 :: hs) ++ ['\r', '\n'] ++ C)) := by
      rw [headerBodyLoop]
      simp only [SplitN2, hcutn, elemAt, List.get?, exec_bind_ok]
      rw [hR]
      simp only [slice_first, exec_bind_ok]
      simp [hx1, hx2]
    have hn0 : ¬ (h.Name.length = 0 ∨
        ((' ' :: (h.Body ++ ['\r'])) ++ '\n' ::
          (headerLines (h2 :: hs) ++ ['\r', '\n'] ++ C)).length = 0) := by
      intro e
      rcases e with e | e
      · exact hc.1 (List.length_eq_zero.mp e)
      · simp at e
    have hv : ¬ (SGSIPHeaderValidName h.Name = false) := by
      rw [hc.2.1]
      simp
    have hh : ({ Name := h.Name, Body := h.Body } : SGSIPHeader) = h := by
      cases h with
      | mk n b t =>
        have := hc.2.2.2.2
        simp only at this
        simp [this]
    have hrec := ih h2 (acc ++ [h]) C k1 hcl2 (by simpa using hk)
    rw [es, headersLoop]
    simp only [SplitN2, hcut1, elemAt, List.get?, exec_bind_ok, List.length_cons,
      List.length_nil, Nat.zero_add, Nat.reduceAdd, Nat.lt_irrefl, if_false]
    rw [if_neg hn0, if_neg hv, hinner]
    simp only [exec_bind_ok, hname, hbody, hh]
    have hlen : ¬ ((headerLines (h2 :: hs) ++ ['\r', '\n'] ++ C).length = 0) := by
      rw [hR]
      simp
    rw [if_neg hlen]
    have hsl : slice (headerLines (h2 :: hs) ++ ['\r', '\n'] ++ C) 0 1 = Except.ok [x] := by
      rw [hR]
      exact slice_first x R
    rw [hsl]
    simp only [exec_bind_ok]
    have hcond : ¬ ([x] = ['\r'] ∨ [x] = ['\n']) := by
      simp [hxr, hx3]
    rw [if_neg hcond, hrec]
    simp

theorem cut_blank_headers : ∀ (hs : List SGSIPHeader) (h : SGSIPHeader) (C : Str),
    (∀ e ∈ h :: hs, CleanHeader e) →
    ∃ a, cut ['\r', '\n', '\r', '\n'] (headerLines (h :: hs) ++ ['\r', '\n'] ++ C) =
      some (a, C) := by
  intro hs
  induction hs with
  | nil =>
    intro h C hcl
    have hc := hcl h (by simp)
    have hch := CleanHeader_name_chars h hc
    have hnl : '\n' ∉ h.Name ++ [':', ' '] ++ h.Body := by
      intro e
      rcases List.mem_append.mp e with e | e
      · rcases List.mem_append.mp e with e | e
        · exact (hch _ e).2.2.2.2 rfl
        · revert e
          decide
      · exact hc.2.2.1 e
    have es : headerLines [h] ++ ['\r', '\n'] ++ C =
        (h.Name ++ [':', ' '] ++ h.Body) ++ ['\r', '\n', '\r', '\n'] ++ C := by
      simp [headerLines]
    rw [es]
    exact ⟨_, cut_blank_final C _ hnl⟩
  | cons h2 hs ih =>
    intro h C hcl
    have hc := hcl h (by simp)
    have hch := CleanHeader_name_chars h hc
    have hcl2 : ∀ e ∈ h2 :: hs, CleanHeader e := fun e he => hcl e (by simp [List.mem_cons.mp he])
    obtain ⟨x, R, hR, _, _, _, _, hx5⟩ := headerLines_first (h2 :: hs) hcl2 C
    have hnl : '\n' ∉ h.Name ++ [':', ' '] ++ h.Body ++ ['\r'] := by
      intro e
      rcases List.mem_append.mp e with e | e
      · rcases List.mem_append.mp e with e | e
        · rcases List.mem_append.mp e with e | e
          · exact (hch _ e).2.2.2.2 rfl
          · revert e
            decide
        · exact hc.2.2.1 e
      · revert e
        decide
    have hnp : ¬ ['\r', '\n'] <+: headerLines (h2 :: hs) ++ ['\r', '\n'] ++ C := by
      rw [hR]
      intro e
      simp only [List.cons_prefix_cons] at e
      exact hx5 (by simp) e.1.symm
    have es : headerLines (h :: h2 :: hs) ++ ['\r', '\n'] ++ C =
        (h.Name ++ [':', ' '] ++ h.Body ++ ['\r']) ++ '\n' ::
          (headerLines (h2 :: hs) ++ ['\r', '\n'] ++ C) := by
      simp [headerLines]
    obtain ⟨a, ha⟩ := ih h2 C hcl2
    rw [es, cut_blank_skip_line _ hnp _ hnl, ha]
    exact ⟨_, rfl⟩

theorem headerSetFirst_clean (N B : Str) (hB1 : '\n' ∉ B) (hB2 : Trim B wsCR = B) :
    ∀ (hs hs1 : List SGSIPHeader), (∀ e ∈ hs, CleanHeader e) →
    headerSetFirst N B hs = some hs1 → ∀ e ∈ hs1, CleanHeader e := by
  intro hs
  induction hs with
  | nil =>
    intro hs1 _ h
    simp [headerSetFirst] at h
  | cons x hs ih =>
    intro hs1 hcl h
    have hx := hcl x (by simp)
    by_cases hn : x.Name = N
    · simp only [headerSetFirst, hn, if_true, Option.some.injEq] at h
      rw [← h]
      intro e he
      rcases List.mem_cons.mp he with e1 | e1
      · rw [e1]
        exact ⟨by rw [← hn]; exact hx.1, by rw [← hn]; exact hx.2.1, hB1, hB2, hx.2.2.2.2⟩
      · exact hcl e (by simp [e1])
    · simp only [headerSetFirst, hn, if_false, Option.map_eq_some'] at h
      obtain ⟨r, hr, e⟩ := h
      rw [← e]
      intro y hy
      rcases List.mem_cons.mp hy with e1 | e1
      · rw [e1]
        exact hx
      · exact ih r (fun z hz => hcl z (by simp [hz])) hr y e1

theorem headerSetFirst_ne_nil (N B : Str) (hs hs1 : List SGSIPHeader)
    (h : headerSetFirst N B hs = some hs1) : hs1 ≠ [] := by
  cases hs with
  | nil => simp [headerSetFirst] at h
  | cons x xs =>
    by_cases hn : x.Name = N
    · simp only [headerSetFirst, hn, if_true, Option.some.injEq] at h
      rw [← h]
      simp
    · simp only [headerSetFirst, hn, if_false, Option.map_eq_some'] at h
      obtain ⟨r, _, e⟩ := h
      rw [← e]
      simp

theorem HeaderSet_eq (m : SGSIPMessage) (N B : Str) :
    (SGSIPMessageHeaderSet m N B).2 =
      { m with Headers := (SGSIPMessageHeaderSet m N B).2.Headers } := by
  unfold SGSIPMessageHeaderSet
  cases headerSetFirst N (Trim B wsCR) m.Headers <;> rfl

theorem HeaderSet_content_length_clean (m : SGSIPMessage) (n : Nat)
    (hcl : ∀ e ∈ m.Headers, CleanHeader e) :
    (∀ e ∈ (SGSIPMessageHeaderSet m "Content-Length".toList (Itoa (n : Int))).2.Headers,
      CleanHeader e) ∧
    (SGSIPMessageHeaderSet m "Content-Length".toList (Itoa (n : Int))).2.Headers ≠ [] := by
  have hb1 : '\n' ∉ Trim (Itoa (n : Int)) wsCR := by
    rw [Itoa_natCast, Trim_toDigits]
    exact toDigits_no_lf n
  have hb2 : Trim (Trim (Itoa (n : Int)) wsCR) wsCR = Trim (Itoa (n : Int)) wsCR := Trim_idem _ _
  unfold SGSIPMessageHeaderSet
  cases hs : headerSetFirst "Content-Length".toList (Trim (Itoa (n : Int)) wsCR) m.Headers with
  | some hs1 =>
    exact ⟨headerSetFirst_clean _ _ hb1 hb2 _ _ hcl hs, headerSetFirst_ne_nil _ _ _ _ hs⟩
  | none =>
    refine ⟨?_, by simp⟩
    intro e he
    simp only at he
    rcases List.mem_append.mp he with e1 | e1
    · exact hcl e e1
    · simp only [List.mem_singleton] at e1
      rw [e1]
      have hn1 : Trim "Content-Length".toList wsCR ≠ [] := by decide
      have hn2 : SGSIPHeaderValidName (Trim "Content-Length".toList wsCR) = true := by decide
      exact ⟨hn1, hn2, hb1, hb2, rfl⟩

theorem SGSIPParseBody_inv (T : Str) (c4 : Int) (body : SGSIPBody)
    (h : SGSIPParseBody T {} = Except.ok (c4, body)) :
    body.ContentLen = (body.Content.length : Int) ∧ body.ContentType = [] := by
  unfold SGSIPParseBody at h
  cases hc : cut ['\r', '\n', '\r', '\n'] T with
  | some p =>
    simp [SplitN2, hc, parseBodyStore, elemAt] at h
    rw [← h.2]
    exact ⟨rfl, rfl⟩
  | none =>
    cases hc2 : cut ['\n', '\n'] T with
    | some q => simp [SplitN2, hc, hc2, parseBodyStore, elemAt] at h
    | none =>
      simp [SplitN2, hc, hc2] at h
      rw [← h.2]
      exact ⟨rfl, rfl⟩

theorem SGSIPParseBody_of_cut (S a C : Str)
    (h : cut ['\r', '\n', '\r', '\n'] S = some (a, C)) :
    SGSIPParseBody S {} =
      Except.ok (SGSIPRetOK, { Content := C, ContentLen := (C.length : Int) }) := by
  unfold SGSIPParseBody
  simp [SplitN2, h, parseBodyStore, elemAt]

theorem SGSIPParseMessage_inv (parseIP : Str → Bool) (T : Str) (m : SGSIPMessage)
    (h : SGSIPParseMessage parseIP T {} = Except.ok (SGSIPRetOK, m)) :
    ∃ (fl : SGSIPFirstLine) (ruri : SGSIPURI) (H : List SGSIPHeader) (c4 : Int)
      (body : SGSIPBody),
      SGSIPParseFirstLine T {} = Except.ok (SGSIPRetOK, fl) ∧
      (if fl.MType = FLineRequest then SGSIPParseURI parseIP fl.URI {}
        else pure (SGSIPRetOK, {})) = Except.ok (SGSIPRetOK, ruri) ∧
      SGSIPParseHeaders T 0 [] = Except.ok (SGSIPRetOK, H) ∧
      SGSIPParseBody T {} = Except.ok (c4, body) ∧
      m = { FLine := fl, RURI := ruri, Headers := H, Body := body } := by
  unfold SGSIPParseMessage at h
  obtain ⟨r1, h1, h⟩ := (exec_bind_eq_ok _ _ _).mp h
  by_cases c1 : r1.1 ≠ SGSIPRetOK
  · rw [if_pos c1] at h
    simp only [exec_pure, Except.ok.injEq, Prod.mk.injEq] at h
    exact absurd h.1 c1
  · rw [if_neg c1] at h
    obtain ⟨r2, h2, h⟩ := (exec_bind_eq_ok _ _ _).mp h
    by_cases c2 : r2.1 ≠ SGSIPRetOK
    · rw [if_pos c2] at h
      simp only [exec_pure, Except.ok.injEq, Prod.mk.injEq] at h
      exact absurd h.1 c2
    · rw [if_neg c2] at h
      obtain ⟨r3, h3, h⟩ := (exec_bind_eq_ok _ _ _).mp h
      by_cases c3 : r3.1 ≠ SGSIPRetOK
      · rw [if_pos c3] at h
        simp only [exec_pure, Except.ok.injEq, Prod.mk.injEq] at h
        exact absurd h.1 c3
      · rw [if_neg c3] at h
        obtain ⟨r4, h4, h⟩ := (exec_bind_eq_ok _ _ _).mp h
        simp only [exec_pure, Except.ok.injEq, Prod.mk.injEq, true_and] at h
        have e1 : r1 = (SGSIPRetOK, r1.2) := by
          have : r1.1 = SGSIPRetOK := by
            by_contra hne
            exact c1 hne
          rw [← this]
        have e2 : r2 = (SGSIPRetOK, r2.2) := by
          have : r2.1 = SGSIPRetOK := by
            by_contra hne
            exact c2 hne
          rw [← this]
        have e3 : r3 = (SGSIPRetOK, r3.2) := by
          have : r3.1 = SGSIPRetOK := by
            by_contra hne
            exact c3 hne
          rw [← this]
        refine ⟨r1.2, r2.2, r3.2, r4.1, r4.2, ?_, ?_, ?_, ?_, ?_⟩
        · rw [← e1]
          exact h1
        · rw [← e2]
          exact h2
        · rw [← e3]
          exact h3
        · exact h4
        · rw [← h]

theorem SGSIPParseMessage_build (parseIP : Str → Bool) (S : Str) (fl : SGSIPFirstLine)
    (ruri : SGSIPURI) (H : List SGSIPHeader) (body : SGSIPBody)
    (h1 : SGSIPParseFirstLine S {} = Except.ok (SGSIPRetOK, fl))
    (h2 : (if fl.MType = FLineRequest then SGSIPParseURI parseIP fl.URI {}
        else pure (SGSIPRetOK, {})) = Except.ok (SGSIPRetOK, ruri))
    (h3 : SGSIPParseHeaders S 0 [] = Except.ok (SGSIPRetOK, H))
    (h4 : SGSIPParseBody S {} = Except.ok (SGSIPRetOK, body)) :
    SGSIPParseMessage parseIP S {} =
      Except.ok (SGSIPRetOK, { FLine := fl, RURI := ruri, Headers := H, Body := body }) := by
  unfold SGSIPParseMessage
  have e1 : SGSIPParseFirstLine S ({} : SGSIPMessage).FLine = Except.ok (SGSIPRetOK, fl) := h1
  have e3 : SGSIPParseHeaders S 0 ({} : SGSIPMessage).Headers = Except.ok (SGSIPRetOK, H) := h3
  have e4 : SGSIPParseBody S ({} : SGSIPMessage).Body = Except.ok (SGSIPRetOK, body) := h4
  have e2 : (if fl.MType = FLineRequest then SGSIPParseURI parseIP fl.URI ({} : SGSIPMessage).RURI
        else pure (SGSIPRetOK, ({} : SGSIPMessage).RURI)) = Except.ok (SGSIPRetOK, ruri) := h2
  rw [e1]
  simp only [exec_bind_ok, ne_eq, not_true_eq_false, if_false]
  rw [e2]
  simp only [exec_bind_ok, ne_eq, not_true_eq_false, if_false]
  rw [e3]
  simp only [exec_bind_ok, ne_eq, not_true_eq_false, if_false]
  rw [e4]
  rfl

theorem headerLines_length (hs : List SGSIPHeader) :
    hs.length ≤ (headerLines hs).length := by
  induction hs with
  | nil => simp
  | cons z zs ih =>
    simp only [headerLines, List.length_append, List.length_cons]
    omega

theorem serialize_shape (m : SGSIPMessage) (out0 : Str) (hfl : m.FLine.Val ≠ [])
    (hh : m.Headers ≠ []) (hcl : ∀ e ∈ m.Headers, CleanHeader e)
    (hlen : m.Body.ContentLen = (m.Body.Content.length : Int))
    (hct : m.Body.ContentType = []) :
    ∃ H1 : List SGSIPHeader,
      SGSIPMessageToString m out0 =
        (SGSIPRetOK, { m with Headers := H1 },
          m.FLine.Val ++ ['\r', '\n'] ++ headerLines H1 ++ ['\r', '\n'] ++ m.Body.Content) ∧
      H1 ≠ [] ∧ ∀ e ∈ H1, CleanHeader e := by
  have hguard : ¬ (m.FLine.Val.length = 0 ∨ m.Headers.length = 0) := by
    have h1 : 0 < m.FLine.Val.length := List.length_pos.mpr hfl
    have h2 : 0 < m.Headers.length := List.length_pos.mpr hh
    omega
  unfold SGSIPMessageToString
  rw [if_neg hguard]
  by_cases hpos : m.Body.ContentLen > 0
  · have hset := HeaderSet_eq m "Content-Length".toList (Itoa m.Body.ContentLen)
    have hclean := HeaderSet_content_length_clean m m.Body.Content.length hcl
    rw [← hlen] at hclean
    have hb : (SGSIPMessageHeaderSet m "Content-Length".toList
        (Itoa m.Body.ContentLen)).2.Body = m.Body := by
      rw [hset]
    have hct2 : ¬ (m.Body.ContentType.length > 0) := by
      rw [hct]
      simp
    refine ⟨(SGSIPMessageHeaderSet m "Content-Length".toList
      (Itoa m.Body.ContentLen)).2.Headers, ?_, hclean.2, hclean.1⟩
    simp only [hpos, if_true, hct2, if_false, hb]
    rw [← hset]
  · have hc0 : m.Body.Content = [] := by
      have : m.Body.Content.length = 0 := by omega
      exact List.length_eq_zero.mp this
    have hct2 : ¬ (m.Body.ContentType.length > 0) := by
      rw [hct]
      simp
    refine ⟨m.Headers, ?_, hh, hcl⟩
    simp only [hpos, hct2, if_false, hc0, List.append_nil]

/-- C20: for every text `T` that `SGSIPParseMessage` accepts into a fresh message
`m` (whatever `net.ParseIP` answers), `SGSIPMessageToString m` returns OK with the
message `m1` (which is `m` with its header list as it stands after
serialisation, `Content-Length` set when the body is non-empty) and an output
`S`, and `SGSIPParseMessage` accepts `S` into a fresh message and yields exactly
`m1`: the same start line in all fields, the same request URI value, the same
body content and length, and the header list of `m1`. -/
theorem parse_serialize_roundtrip (parseIP : Str → Bool) (T : Str) (m : SGSIPMessage)
    (out0 : Str) (h : SGSIPParseMessage parseIP T {} = Except.ok (SGSIPRetOK, m)) :
    ∃ (m1 : SGSIPMessage) (S : Str),
      SGSIPMessageToString m out0 = (SGSIPRetOK, m1, S) ∧
      SGSIPParseMessage parseIP S {} = Except.ok (SGSIPRetOK, m1) ∧
      m1.FLine = m.FLine ∧ m1.RURI = m.RURI ∧ m1.Body = m.Body := by
  obtain ⟨fl, ruri, H, c4, body, h1, h2, h3, h4, hm⟩ := SGSIPParseMessage_inv parseIP T m h
  obtain ⟨hHc, hHne⟩ := SGSIPParseHeaders_clean T H h3
  obtain ⟨hblen, hbct⟩ := SGSIPParseBody_inv T c4 body h4
  subst hm
  have hfl := fun rest => SGSIPParseFirstLine_reparse T rest fl h1
  obtain ⟨H1, hser, hH1ne, hH1c⟩ := serialize_shape
    { FLine := fl, RURI := ruri, Headers := H, Body := body } out0 (hfl []).2.2 hHne hHc
    hblen hbct
  simp only at hser
  obtain ⟨x, xs, hx⟩ := List.exists_cons_of_ne_nil hH1ne
  subst hx
  refine ⟨_, _, hser, ?_, rfl, rfl, rfl⟩
  have hnl : '\n' ∉ fl.Val ++ ['\r'] := by
    intro e
    rcases List.mem_append.mp e with e | e
    · exact (hfl []).2.1 e
    · exact absurd e (by decide)
  have eS : fl.Val ++ ['\r', '\n'] ++ headerLines (x :: xs) ++ ['\r', '\n'] ++ body.Content =
      (fl.Val ++ ['\r']) ++ '\n' :: (headerLines (x :: xs) ++ ['\r', '\n'] ++ body.Content) := by
    simp
  obtain ⟨y, R, hR, _, _, hy3, _, hy5⟩ := headerLines_first (x :: xs) hH1c body.Content
  -- the start line
  have p1 := (hfl (headerLines (x :: xs) ++ ['\r', '\n'] ++ body.Content)).1
  have eS1 : fl.Val ++ ['\r', '\n'] ++ (headerLines (x :: xs) ++ ['\r', '\n'] ++ body.Content) =
      fl.Val ++ ['\r', '\n'] ++ headerLines (x :: xs) ++ ['\r', '\n'] ++ body.Content := by
    simp
  rw [eS1] at p1
  -- the headers
  have p3 : SGSIPParseHeaders
      (fl.Val ++ ['\r', '\n'] ++ headerLines (x :: xs) ++ ['\r', '\n'] ++ body.Content) 0 [] =
      Except.ok (SGSIPRetOK, x :: xs) := by
    have hloop := headersLoop_reparse xs x [] body.Content
      ((headerLines (x :: xs) ++ ['\r', '\n'] ++ body.Content).length + 1) hH1c (by
        have := headerLines_length (x :: xs)
        simp only [List.length_append, List.length_cons] at this ⊢
        omega)
    rw [eS]
    unfold SGSIPParseHeaders
    simp only [if_true, SplitN2_of_cut _ _ _ _ (cut_single_of_not_mem '\n' _ _ hnl),
      List.length_cons, List.length_nil, elemAt, List.get?, exec_bind_ok]
    unfold parseHeadersFrom
    have hlen0 : ¬ ((headerLines (x :: xs) ++ ['\r', '\n'] ++ body.Content).length = 0) := by
      rw [hR]
      simp
    have hsl : slice (headerLines (x :: xs) ++ ['\r', '\n'] ++ body.Content) 0 1 =
        Except.ok [y] := by
      rw [hR]
      exact slice_first y R
    have hcond : ¬ ([y] = ['\r'] ∨ [y] = ['\n']) := by
      simp [hy5 (by simp), hy3]
    simp only [Nat.zero_add, Nat.reduceAdd, Nat.lt_irrefl, if_false]
    rw [if_neg hlen0, hsl]
    simp only [exec_bind_ok]
    rw [if_neg hcond, hloop]
    simp
  -- the body
  have p4 : SGSIPParseBody
      (fl.Val ++ ['\r', '\n'] ++ headerLines (x :: xs) ++ ['\r', '\n'] ++ body.Content) {} =
      Except.ok (SGSIPRetOK, body) := by
    obtain ⟨a, ha⟩ := cut_blank_headers xs x body.Content hH1c
    have hnp : ¬ ['\r', '\n'] <+: headerLines (x :: xs) ++ ['\r', '\n'] ++ body.Content := by
      rw [hR]
      intro e
      simp only [List.cons_prefix_cons] at e
      exact hy5 (by simp) e.1.symm
    have hcut : cut ['\r', '\n', '\r', '\n'] ((fl.Val ++ ['\r']) ++ '\n' ::
        (headerLines (x :: xs) ++ ['\r', '\n'] ++ body.Content)) =
        some ((fl.Val ++ ['\r']) ++ '\n' :: a, body.Content) := by
      rw [cut_blank_skip_line _ hnp _ hnl, ha]
      rfl
    rw [eS, SGSIPParseBody_of_cut _ _ _ hcut]
    have hb : body = { Content := body.Content, ContentLen := (body.Content.length : Int) } := by
      cases body with
      | mk c l t =>
        simp only at hblen hbct
        simp [hblen, hbct]
    rw [← hb]
  exact SGSIPParseMessage_build parseIP _ fl ruri (x :: xs) body p1 h2 p3 p4

/-- Witness for C20 at an `INVITE` whose `Content-Length` header disagrees with
its five-byte body: the serialiser rewrites the header to `5` and the re-parse
returns the message as it stands after serialisation. -/
theorem parse_serialize_roundtrip_witness :
    SGSIPParseMessage noIPLiteral
        "INVITE sip:bob@biloxi.com SIP/2.0\r\nTo: x\r\nContent-Length: 99\r\n\r\nhello".toList {} =
      Except.ok (SGSIPRetOK,
        { FLine := { Val := "INVITE sip:bob@biloxi.com SIP/2.0".toList, MType := FLineRequest,
                     Method := "INVITE".toList, URI := "sip:bob@biloxi.com".toList },
          RURI := { Val := "sip:bob@biloxi.com".toList, Schema := "sip".toList,
                    SchemaId := SchemaSIP, User := "bob".toList, Addr := "biloxi.com".toList,
                    Port := "5060".toList, PortNo := 5060, Proto := "udp".toList,
                    ProtoId := ProtoUDP, AType := AFHost },
          Headers := [{ Name := "To".toList, Body := "x".toList },
                      { Name := "Content-Length".toList, Body := "99".toList }],
          Body := { Content := "hello".toList, ContentLen := 5 } }) ∧
    ∃ (m1 : SGSIPMessage) (S : Str),
      SGSIPMessageToString
        { FLine := { Val := "INVITE sip:bob@biloxi.com SIP/2.0".toList, MType := FLineRequest,
                     Method := "INVITE".toList, URI := "sip:bob@biloxi.com".toList },
          RURI := { Val := "sip:bob@biloxi.com".toList, Schema := "sip".toList,
                    SchemaId := SchemaSIP, User := "bob".toList, Addr := "biloxi.com".toList,
                    Port := "5060".toList, PortNo := 5060, Proto := "udp".toList,
                    ProtoId := ProtoUDP, AType := AFHost },
          Headers := [{ Name := "To".toList, Body := "x".toList },
                      { Name := "Content-Length".toList, Body := "99".toList }],
          Body := { Content := "hello".toList, ContentLen := 5 } } [] = (SGSIPRetOK, m1, S) ∧
      SGSIPParseMessage noIPLiteral S {} = Except.ok (SGSIPRetOK, m1) ∧
      m1.FLine = { Val := "INVITE sip:bob@biloxi.com SIP/2.0".toList, MType := FLineRequest,
                   Method := "INVITE".toList, URI := "sip:bob@biloxi.com".toList } ∧
      m1.RURI = { Val := "sip:bob@biloxi.com".toList, Schema := "sip".toList,
                  SchemaId := SchemaSIP, User := "bob".toList, Addr := "biloxi.com".toList,
                  Port := "5060".toList, PortNo := 5060, Proto := "udp".toList,
                  ProtoId := ProtoUDP, AType := AFHost } ∧
      m1.Body = { Content := "hello".toList, ContentLen := 5 } :=
  ⟨by decide, parse_serialize_roundtrip noIPLiteral
    "INVITE sip:bob@biloxi.com SIP/2.0\r\nTo: x\r\nContent-Length: 99\r\n\r\nhello".toList _ []
    (by decide)⟩

/-! ## Socket address parser: the explicit port -/

theorem SGSIPSetProto_code (t v : Str) (i : Int) :
    (SGSIPSetProto t v i).1 = (SGSIPSetProto t [] 0).1 := by
  unfold SGSIPSetProto
  split_ifs <;> rfl

theorem SGSIPSetProto_ok_shape (t : Str) (h : (SGSIPSetProto t [] 0).1 = SGSIPRetOK) :
    ':' ∉ t ∧ ∃ x u, t = x :: u ∧ x ≠ '[' := by
  unfold SGSIPSetProto at h
  split_ifs at h with h1 h2 h3 h4 h5 h6
  · rcases h1 with e | e <;> subst e <;> exact ⟨by decide, _, _, rfl, by decide⟩
  · rcases h2 with e | e <;> subst e <;> exact ⟨by decide, _, _, rfl, by decide⟩
  · rcases h3 with e | e <;> subst e <;> exact ⟨by decide, _, _, rfl, by decide⟩
  · rcases h4 with e | e <;> subst e <;> exact ⟨by decide, _, _, rfl, by decide⟩
  · rcases h5 with e | e <;> subst e <;> exact ⟨by decide, _, _, rfl, by decide⟩
  · rcases h6 with e | e <;> subst e <;> exact ⟨by decide, _, _, rfl, by decide⟩
  · exact absurd h (by decide)

theorem sockAddrPort_plain (parseIP : Str → Bool) (sockstr strProto addr p : Str)
    (sa : SGSIPSocketAddress) (h1 : ':' ∉ addr) (h2 : addr.head? ≠ some '[') :
    sockAddrPort parseIP sockstr strProto (addr ++ ':' :: p) sa =
      if (Atoi p).2 = true then Except.ok (SGSIPRetErr, { sa with Port := p })
      else Except.ok (SGSIPRetOK, { sa with
        Port := p, PortNo := (Atoi p).1, Addr := addr, AType := SGAddrType parseIP addr,
        Val := sockstr }) := by
  have hs : SplitN2 (addr ++ ':' :: p) [':'] = [addr, p] :=
    SplitN2_of_cut _ _ _ _ (cut_single_of_not_mem ':' addr p h1)
  obtain ⟨x, t, hxt, hx⟩ : ∃ x t, addr ++ ':' :: p = x :: t ∧ ¬ ([x] = ['[']) := by
    cases addr with
    | nil => exact ⟨':', p, rfl, by decide⟩
    | cons y u =>
      refine ⟨y, u ++ ':' :: p, rfl, ?_⟩
      intro e
      simp only [List.cons.injEq, and_true] at e
      exact h2 (by simp [e])
  unfold sockAddrPort
  rw [hs, hxt, slice_first, exec_bind_ok, if_neg hx]
  by_cases hb : (Atoi p).2 = true
  · simp [elemAt, hb]
  · simp [elemAt, hb]

theorem sockAddrPort_bracket (parseIP : Str → Bool) (sockstr strProto a p : Str)
    (sa : SGSIPSocketAddress) (h1 : ']' ∉ a) :
    sockAddrPort parseIP sockstr strProto ('[' :: (a ++ ']' :: ':' :: p)) sa =
      if (Atoi p).2 = true then Except.ok (SGSIPRetErr, { sa with Port := p })
      else
        (SGAddrTypeEx parseIP ('[' :: (a ++ [']']))) >>= fun aType =>
          if aType ≠ AFIPv6 then
            pure (SGSIPRetErr, { sa with
              Port := p, PortNo := (Atoi p).1, Addr := '[' :: (a ++ [']']), AType := aType })
          else
            pure (SGSIPRetOK, { sa with
              Port := p, PortNo := (Atoi p).1, Addr := '[' :: (a ++ [']']), AType := aType,
              Val := sockstr }) := by
  have hn : ']' ∉ '[' :: a := by
    intro e
    rcases List.mem_cons.mp e with e | e
    · exact absurd e (by decide)
    · exact h1 e
  have hs : SplitN2 ('[' :: (a ++ ']' :: ':' :: p)) [']'] = ['[' :: a, ':' :: p] :=
    SplitN2_of_cut _ _ _ _ (cut_single_of_not_mem ']' ('[' :: a) (':' :: p) hn)
  have hd : sliceFrom (':' :: p) 1 = Except.ok p := by
    have := sliceFrom_nat (':' :: p) 1 (by simp)
    simpa using this
  unfold sockAddrPort
  rw [hs, slice_first, exec_bind_ok]
  by_cases hb : (Atoi p).2 = true
  · by_cases hp : strProto = [] <;> simp [elemAt, slice_first, hd, hb, hp]
  · by_cases hp : strProto = [] <;> simp [elemAt, slice_first, hd, hb, hp]

theorem Atoi_numeral (p : Str) (v : Int) (h : Atoi p = (v, false)) :
    (∃ ds, ds ≠ [] ∧ (∀ c ∈ ds, decDigit c = true) ∧
      (((p = ds ∨ p = '+' :: ds) ∧ v = (decVal ds : Int)) ∨
        (p = '-' :: ds ∧ v = -(decVal ds : Int)))) ∧
    minInt ≤ v ∧ v ≤ maxInt := by
  obtain ⟨n, hd, hv⟩ := Atoi_ok_inv p v h
  have hdig := digitsVal_some_digits _ _ _ hd
  have hn : n = decVal (atoiSign p).2 := by
    have := digitsVal_foldl (atoiSign p).2 0 hdig
    rw [hd] at this
    exact Option.some.inj this
  have hne : (atoiSign p).2 ≠ [] := by
    intro e
    unfold Atoi at h
    simp [e] at h
  have hrange : minInt ≤ v ∧ v ≤ maxInt := by
    unfold Atoi at h
    simp only [hne, hd, if_false] at h
    by_cases h1 : (if (atoiSign p).1 = true then -(n : Int) else (n : Int)) < minInt
    · simp [h1] at h
    · by_cases h2 : maxInt < (if (atoiSign p).1 = true then -(n : Int) else (n : Int))
      · simp [h1, h2] at h
      · rw [hv]
        omega
  refine ⟨⟨(atoiSign p).2, hne, hdig, ?_⟩, hrange⟩
  subst hn
  by_cases hm : ∃ t, p = '-' :: t
  · obtain ⟨t, rfl⟩ := hm
    right
    simp only [atoiSign, if_true] at hv ⊢
    exact ⟨trivial, hv⟩
  · by_cases hp : ∃ t, p = '+' :: t
    · obtain ⟨t, rfl⟩ := hp
      left
      have hs : atoiSign ('+' :: t) = (false, t) := rfl
      rw [hs] at hv ⊢
      exact ⟨Or.inr rfl, by simpa using hv⟩
    · have hs : atoiSign p = (false, p) := by
        unfold atoiSign
        split
        · exact absurd ⟨_, rfl⟩ hm
        · exact absurd ⟨_, rfl⟩ hp
        · rfl
      left
      rw [hs] at hv ⊢
      exact ⟨Or.inl rfl, by simpa using hv⟩

theorem decVal_foldl_ge : ∀ (ds : Str) (acc : Nat),
    acc ≤ ds.foldl (fun a c => a * 10 + (c.toNat - 48)) acc := by
  intro ds
  induction ds with
  | nil =>
    intro acc
    exact Nat.le_refl _
  | cons x ds ih =>
    intro acc
    have := ih (acc * 10 + (x.toNat - 48))
    simp only [List.foldl_cons]
    omega

theorem decVal_foldl_pos : ∀ (ds : Str) (acc : Nat), (∀ c ∈ ds, decDigit c = true) →
    (∃ c ∈ ds, c ≠ '0') → 1 ≤ ds.foldl (fun a c => a * 10 + (c.toNat - 48)) acc := by
  intro ds
  induction ds with
  | nil =>
    intro acc _ h
    obtain ⟨c, hc, _⟩ := h
    simp at hc
  | cons x ds ih =>
    intro acc hdig h
    simp only [List.foldl_cons]
    by_cases hx : x = '0'
    · obtain ⟨c, hc, hc0⟩ := h
      rcases List.mem_cons.mp hc with e | e
      · exact absurd (e.trans hx) hc0
      · exact ih _ (fun d hd => hdig d (by simp [hd])) ⟨c, e, hc0⟩
    · have hxd : 48 ≤ x.toNat ∧ x.toNat ≤ 57 := by
        simpa [decDigit] using hdig x (by simp)
      have hx48 : x.toNat ≠ 48 := by
        intro e
        apply hx
        have h1 : Char.ofNat x.toNat = x := Char.ofNat_toNat x
        rw [e] at h1
        rw [← h1]
      have := decVal_foldl_ge ds (acc * 10 + (x.toNat - 48))
      omega

/-- C15 (amended): on a text `[transport:]address:port` that carries an explicit
port substring `p` (the optional prefix `pfx` is a transport keyword and `:`,
and without it the first token is not a transport keyword; the address is either
free of `:` and not opening with `[`, or a bracketed literal `[a]`; the text is not
wholly wrapped in brackets), `SGSIPParseSocketAddress` validates that the port is
numeric.  Whenever it returns OK, the stored port text is `p`, `p` is an optionally
signed run of decimal digits whose value fits the machine integer, the stored port
number is that value, and it is at least 1 whenever `p` has no minus sign and
holds a digit other than `0`.  Whenever `strconv.Atoi` reports an error on `p`
(not a numeral, or outside the machine integer), the call returns the error code.
The upper bound 65535 is not enforced. -/
theorem SGSIPParseSocketAddress_port_numeric (parseIP : Str → Bool) (pfx addr p : Str)
    (sa0 : SGSIPSocketAddress)
    (hpfx : (pfx = [] ∧ (SGSIPSetProto addr [] 0).1 ≠ SGSIPRetOK) ∨
      (∃ proto, pfx = proto ++ [':'] ∧ (SGSIPSetProto proto [] 0).1 = SGSIPRetOK))
    (haddr : (':' ∉ addr ∧ addr.head? ≠ some '[') ∨
      (∃ a, addr = '[' :: (a ++ [']']) ∧ ']' ∉ a))
    (hwrap : ¬ ((pfx ++ addr ++ ':' :: p).head? = some '[' ∧
      (pfx ++ addr ++ ':' :: p).getLast? = some ']')) :
    (∀ sa, SGSIPParseSocketAddress parseIP (pfx ++ addr ++ ':' :: p) sa0 =
        Except.ok (SGSIPRetOK, sa) →
      sa.Port = p ∧ Atoi p = (sa.PortNo, false) ∧
      (∃ ds, ds ≠ [] ∧ (∀ c ∈ ds, decDigit c = true) ∧
        (((p = ds ∨ p = '+' :: ds) ∧ sa.PortNo = (decVal ds : Int)) ∨
          (p = '-' :: ds ∧ sa.PortNo = -(decVal ds : Int)))) ∧
      minInt ≤ sa.PortNo ∧ sa.PortNo ≤ maxInt ∧
      (p.head? ≠ some '-' → (∃ c ∈ p, c ≠ '0' ∧ c ≠ '+') → 1 ≤ sa.PortNo)) ∧
    ((Atoi p).2 = true →
      ∃ sa, SGSIPParseSocketAddress parseIP (pfx ++ addr ++ ':' :: p) sa0 =
        Except.ok (SGSIPRetErr, sa)) := by
  -- the run ends in the `address[:port]` part on `addr ++ ':' :: p`
  have hrun : ∃ (strProto : Str) (sa1 : SGSIPSocketAddress),
      SGSIPParseSocketAddress parseIP (pfx ++ addr ++ ':' :: p) sa0 =
        sockAddrPort parseIP (pfx ++ addr ++ ':' :: p) strProto (addr ++ ':' :: p) sa1 := by
    obtain ⟨x, t, hxt⟩ : ∃ x t, pfx ++ addr ++ ':' :: p = x :: t :=
      List.exists_cons_of_ne_nil (by simp)
    have hw : (if [x] = ['['] then
        (sliceFrom (x :: t) (((x :: t).length : Int) - 1)) >>= fun u =>
          (pure (decide (u = [']'])) : Exec Bool)
        else pure false) = Except.ok false := by
      by_cases hx : [x] = ['[']
      · rw [if_pos hx, sliceFrom_last (x :: t) (by simp), exec_bind_ok]
        have hl : (x :: t).getLast (by simp) ≠ ']' := by
          intro e
          apply hwrap
          rw [hxt]
          refine ⟨by simpa using hx, ?_⟩
          rw [List.getLast?_eq_getLast _ (by simp), e]
        simp [hl]
      · rw [if_neg hx]
        rfl
    unfold SGSIPParseSocketAddress
    rw [hxt, slice_first, exec_bind_ok, hw, exec_bind_ok, ← hxt]
    rcases hpfx with ⟨hp0, hnp⟩ | ⟨proto, hp1, hpk⟩
    · subst hp0
      rw [List.nil_append]
      obtain ⟨t1, r, hcut, ht1⟩ : ∃ t1 r, cut [':'] (addr ++ ':' :: p) = some (t1, r) ∧
          (SGSIPSetProto t1 [] 0).1 ≠ SGSIPRetOK := by
        rcases haddr with ⟨hc, _⟩ | ⟨a, ha, _⟩
        · exact ⟨addr, p, cut_single_of_not_mem ':' addr p hc, hnp⟩
        · have hsome := cut_single_isSome ':' (addr ++ ':' :: p) (by simp)
          cases hcut : cut [':'] (addr ++ ':' :: p) with
          | none =>
            rw [hcut] at hsome
            exact absurd hsome (by simp)
          | some pr =>
            obtain ⟨t1, r⟩ := pr
            refine ⟨t1, r, rfl, ?_⟩
            intro hok
            obtain ⟨_, y, u, hyu, hy⟩ := SGSIPSetProto_ok_shape t1 hok
            have he := cut_some_eq _ _ _ _ hcut
            rw [ha, hyu] at he
            simp only [List.cons_append, List.cons.injEq] at he
            exact hy he.1.symm
      have hnp2 : (SGSIPSetProto t1 sa0.Proto sa0.ProtoId).1 ≠ SGSIPRetOK := by
        rw [SGSIPSetProto_code]
        exact ht1
      rw [SplitN2_of_cut _ _ _ _ hcut]
      simp only [List.length_cons, List.length_nil, elemAt, List.get?, exec_bind_ok]
      rw [if_neg (by decide), if_pos hnp2]
      exact ⟨_, _, rfl⟩
    · subst hp1
      obtain ⟨hpc, _⟩ := SGSIPSetProto_ok_shape proto hpk
      have hcut : cut [':'] (proto ++ [':'] ++ addr ++ ':' :: p) =
          some (proto, addr ++ ':' :: p) := by
        have := cut_single_of_not_mem ':' proto (addr ++ ':' :: p) hpc
        simpa using this
      have hok : ¬ ((SGSIPSetProto proto sa0.Proto sa0.ProtoId).1 ≠ SGSIPRetOK) := by
        rw [SGSIPSetProto_code]
        simpa using hpk
      rw [SplitN2_of_cut _ _ _ _ hcut]
      simp only [List.length_cons, List.length_nil, elemAt, List.get?, exec_bind_ok]
      rw [if_neg (by decide), if_neg hok]
      exact ⟨_, _, rfl⟩
  obtain ⟨strProto, sa1, hrun⟩ := hrun
  -- what the `address[:port]` part returns
  have hpart : (∀ sa, sockAddrPort parseIP (pfx ++ addr ++ ':' :: p) strProto
        (addr ++ ':' :: p) sa1 = Except.ok (SGSIPRetOK, sa) →
        sa.Port = p ∧ Atoi p = (sa.PortNo, false)) ∧
      ((Atoi p).2 = true → ∃ sa, sockAddrPort parseIP (pfx ++ addr ++ ':' :: p) strProto
        (addr ++ ':' :: p) sa1 = Except.ok (SGSIPRetErr, sa)) := by
    rcases haddr with ⟨hc, hb⟩ | ⟨a, ha, hbr⟩
    · rw [sockAddrPort_plain parseIP _ strProto addr p sa1 hc hb]
      constructor
      · intro sa hsa
        by_cases hb2 : (Atoi p).2 = true
        · rw [if_pos hb2] at hsa
          simp only [Except.ok.injEq, Prod.mk.injEq] at hsa
          exact absurd hsa.1 (by decide)
        · rw [if_neg hb2] at hsa
          simp only [Except.ok.injEq, Prod.mk.injEq, true_and] at hsa
          rw [← hsa]
          exact ⟨rfl, Atoi_pair p hb2⟩
      · intro hb2
        rw [if_pos hb2]
        exact ⟨_, rfl⟩
    · subst ha
      have e : '[' :: (a ++ [']']) ++ ':' :: p = '[' :: (a ++ ']' :: ':' :: p) := by simp
      rw [e, sockAddrPort_bracket parseIP _ strProto a p sa1 hbr]
      constructor
      · intro sa hsa
        by_cases hb2 : (Atoi p).2 = true
        · rw [if_pos hb2] at hsa
          simp only [Except.ok.injEq, Prod.mk.injEq] at hsa
          exact absurd hsa.1 (by decide)
        · rw [if_neg hb2] at hsa
          obtain ⟨aT, _, hsa⟩ := (exec_bind_eq_ok _ _ _).mp hsa
          by_cases hv6 : aT ≠ AFIPv6
          · rw [if_pos hv6] at hsa
            simp only [exec_pure, Except.ok.injEq, Prod.mk.injEq] at hsa
            exact absurd hsa.1 (by decide)
          · rw [if_neg hv6] at hsa
            simp only [exec_pure, Except.ok.injEq, Prod.mk.injEq, true_and] at hsa
            rw [← hsa]
            exact ⟨rfl, Atoi_pair p hb2⟩
      · intro hb2
        rw [if_pos hb2]
        exact ⟨_, rfl⟩
  rw [hrun]
  refine ⟨?_, hpart.2⟩
  intro sa hsa
  obtain ⟨hport, hatoi⟩ := hpart.1 sa hsa
  obtain ⟨⟨ds, hds, hdig, hshape⟩, hlo, hhi⟩ := Atoi_numeral p sa.PortNo hatoi
  refine ⟨hport, hatoi, ⟨ds, hds, hdig, hshape⟩, hlo, hhi, ?_⟩
  intro hminus ⟨c, hc, hc0, hcp⟩
  rcases hshape with ⟨hp, hval⟩ | ⟨hp, _⟩
  · have hcds : c ∈ ds := by
      rcases hp with hp | hp
      · rw [← hp]
        exact hc
      · rw [hp] at hc
        rcases List.mem_cons.mp hc with e | e
        · exact absurd e hcp
        · exact e
    have := decVal_foldl_pos ds 0 hdig ⟨c, hcds, hc0⟩
    rw [hval]
    unfold decVal
    omega
  · rw [hp] at hminus
    exact absurd rfl hminus

/-- Witness for the amended C15 at `tcp:example.com:5080`: the call returns OK
and the value it stores has port text `5080` and port number 5080. -/
theorem SGSIPParseSocketAddress_port_numeric_witness :
    SGSIPParseSocketAddress noIPLiteral "tcp:example.com:5080".toList {} =
      Except.ok (SGSIPRetOK,
        { Val := "tcp:example.com:5080".toList, Proto := "tcp".toList,
          Addr := "example.com".toList, Port := "5080".toList, PortNo := 5080,
          AType := AFHost, ProtoId := ProtoTCP }) ∧
    ("5080".toList = "5080".toList ∧ Atoi "5080".toList = (5080, false) ∧
      (∃ ds, ds ≠ [] ∧ (∀ c ∈ ds, decDigit c = true) ∧
        ((("5080".toList = ds ∨ "5080".toList = '+' :: ds) ∧ (5080 : Int) = (decVal ds : Int)) ∨
          ("5080".toList = '-' :: ds ∧ (5080 : Int) = -(decVal ds : Int)))) ∧
      minInt ≤ 5080 ∧ (5080 : Int) ≤ maxInt ∧
      (("5080".toList).head? ≠ some '-' → (∃ c ∈ "5080".toList, c ≠ '0' ∧ c ≠ '+') →
        (1 : Int) ≤ 5080)) :=
  ⟨by decide,
    (SGSIPParseSocketAddress_port_numeric noIPLiteral "tcp:".toList "example.com".toList
      "5080".toList {} (Or.inr ⟨"tcp".toList, by decide, by decide⟩)
      (Or.inl ⟨by decide, by decide⟩) (by decide)).1
      { Val := "tcp:example.com:5080".toList, Proto := "tcp".toList,
        Addr := "example.com".toList, Port := "5080".toList, PortNo := 5080,
        AType := AFHost, ProtoId := ProtoTCP } (by decide)⟩
end Sgsip
